import Mathlib

/-!
# Frame production core: pipeline, animator and layers

A shallow embedding of the frame scheduler (`shell/common/animator.cc`), of the
bounded pipeline it drives, and of the layer code under `flow/layers`, together
with the properties established about them.
-/

namespace flutter

/-! ## Counting semaphore -/

/-- Modelled from the spec: the counting admission semaphore (`fml::Semaphore`,
whose sources are not part of the tree). It holds a count of free admissions. -/
structure Semaphore where
  count : Nat
deriving DecidableEq, Repr

/-- Modelled from the spec: non-blocking acquire. Succeeds, taking one
admission, exactly when the count is positive; never waits. -/
def Semaphore.TryWait (s : Semaphore) : Bool × Semaphore :=
  if s.count = 0 then (false, s) else (true, ⟨s.count - 1⟩)

/-- Modelled from the spec: release one admission. -/
def Semaphore.Signal (s : Semaphore) : Semaphore :=
  ⟨s.count + 1⟩

/-! ## Bounded pipeline -/

/-- Modelled from the spec: state of one pipeline slot (`pipeline.h` is not part
of the tree). A slot is empty, reserved by an outstanding continuation, or
filled and ready for consumption. -/
inductive SlotState (R : Type) where
  | empty
  | reserved
  | ready (payload : R)
deriving DecidableEq, Repr

/-- Modelled from the spec: a slot is a (generation, payload) cell. -/
structure Slot (R : Type) where
  generation : Nat
  state : SlotState R
deriving DecidableEq, Repr

/-- Whether the slot is free for a new reservation. -/
def Slot.isFree {R : Type} (s : Slot R) : Bool :=
  match s.state with
  | .empty => true
  | _ => false

/-- Whether the slot is reserved or filled. -/
def Slot.isOccupied {R : Type} (s : Slot R) : Bool :=
  !s.isFree

/-- Modelled from the spec: the bounded pipeline, "a counting admission
semaphore plus a fixed-size array of (generation, payload) slots"; `queue`
lists the ready slots in the order in which they were completed. -/
structure Pipeline (R : Type) where
  depth : Nat
  empty_ : Semaphore
  slots : List (Slot R)
  queue : List Nat
deriving DecidableEq, Repr

/-- Modelled from the spec: a pipeline of the given depth, all slots empty. -/
def Pipeline.create (R : Type) (depth : Nat) : Pipeline R :=
  { depth := depth
    empty_ := ⟨depth⟩
    slots := List.replicate depth ⟨0, .empty⟩
    queue := [] }

/-- Modelled from the spec: the move-only capability to fill one slot; it is
empty (invalid) when it is bound to no slot. -/
structure ProducerContinuation where
  slot : Option Nat
deriving DecidableEq, Repr

/-- The empty continuation. -/
def ProducerContinuation.none : ProducerContinuation := ⟨Option.none⟩

/-- The boolean conversion of a continuation: is it bound to a slot. -/
def ProducerContinuation.valid (c : ProducerContinuation) : Bool :=
  c.slot.isSome

/-- Modelled from the spec: `Produce` "attempts to acquire one of `depth` slots
without blocking. On success, returns a move-only continuation bound to a
specific slot index; on failure (all slots occupied) returns an empty
continuation". -/
def Pipeline.Produce {R : Type} (p : Pipeline R) : ProducerContinuation × Pipeline R :=
  match p.empty_.TryWait with
  | (false, _) => (ProducerContinuation.none, p)
  | (true, sem) =>
    match p.slots.findIdx? Slot.isFree with
    | Option.none => (ProducerContinuation.none, p)
    | some i =>
      (⟨some i⟩,
        { p with
          empty_ := sem
          slots := p.slots.modify (fun s => ⟨s.generation + 1, .reserved⟩) i })

/-- Modelled from the spec: `Complete` "fills the bound slot with the payload
and marks it ready for consumption; returns false if the continuation is
already consumed/invalid". The continuation is used up by the call. -/
def ProducerContinuation.Complete {R : Type} (c : ProducerContinuation) (p : Pipeline R)
    (payload : R) : Bool × ProducerContinuation × Pipeline R :=
  match c.slot with
  | Option.none => (false, c, p)
  | some i =>
    (true, ProducerContinuation.none,
      { p with
        slots := p.slots.modify (fun s => ⟨s.generation, .ready payload⟩) i
        queue := p.queue ++ [i] })

/-- Modelled from the spec: `Consume` is "offered a (payload, generation) pair
from the oldest ready slot ... and then the slot is released back to the
semaphore". The result is the pair handed to the callback, if any. -/
def Pipeline.Consume {R : Type} (p : Pipeline R) : Option (R × Nat) × Pipeline R :=
  match p.queue with
  | [] => (Option.none, p)
  | i :: rest =>
    match p.slots[i]? with
    | some ⟨g, .ready payload⟩ =>
      (some (payload, g),
        { p with
          empty_ := p.empty_.Signal
          slots := p.slots.modify (fun s => ⟨s.generation, .empty⟩) i
          queue := rest })
    | _ => (Option.none, p)

/-- One operation of a pipeline client: `complete k x` completes the
continuation returned by the `k`-th `Produce` call with payload `x`. -/
inductive PipelineOp (R : Type) where
  | produce
  | complete (k : Nat) (payload : R)
  | consume
deriving DecidableEq, Repr

/-- A pipeline together with its client: the continuations handed out so far
(in call order, empty ones included) and counters of the `Produce` calls
that succeeded and of the items that were consumed. -/
structure PipelineClient (R : Type) where
  pipeline : Pipeline R
  held : List ProducerContinuation
  produced : Nat
  consumed : Nat
deriving DecidableEq, Repr

/-- The client of a fresh pipeline. -/
def PipelineClient.init (R : Type) (depth : Nat) : PipelineClient R :=
  ⟨Pipeline.create R depth, [], 0, 0⟩

/-- Slots produced but not yet consumed. -/
def PipelineClient.outstanding {R : Type} (s : PipelineClient R) : Nat :=
  s.produced - s.consumed

/-- Perform one client operation. -/
def PipelineClient.step {R : Type} (s : PipelineClient R) : PipelineOp R → PipelineClient R
  | .produce =>
    let r := s.pipeline.Produce
    { s with
      pipeline := r.2
      held := s.held ++ [r.1]
      produced := if r.1.valid then s.produced + 1 else s.produced }
  | .complete k payload =>
    match s.held[k]? with
    | Option.none => s
    | some c =>
      let r := c.Complete s.pipeline payload
      { s with pipeline := r.2.2, held := s.held.set k r.2.1 }
  | .consume =>
    let r := s.pipeline.Consume
    { s with
      pipeline := r.2
      consumed := if r.1.isSome then s.consumed + 1 else s.consumed }

/-- Perform a sequence of client operations. -/
def PipelineClient.run {R : Type} (s : PipelineClient R) (ops : List (PipelineOp R)) :
    PipelineClient R :=
  ops.foldl PipelineClient.step s

/-- Whether the operation is a `Consume`. -/
def PipelineOp.isConsume {R : Type} : PipelineOp R → Bool
  | .consume => true
  | _ => false

/-- The invariant linking the admission semaphore, the slot array, the ready
queue, the continuations held by the client and the two counters. -/
structure PipelineClient.Inv {R : Type} (d : Nat) (s : PipelineClient R) : Prop where
  length_slots : s.pipeline.slots.length = d
  sem : s.pipeline.empty_.count + s.pipeline.slots.countP Slot.isOccupied = d
  counters : s.consumed + s.pipeline.slots.countP Slot.isOccupied = s.produced
  queue_nodup : s.pipeline.queue.Nodup
  queue_ready : ∀ i ∈ s.pipeline.queue, ∃ (g : Nat) (x : R), s.pipeline.slots[i]? = some ⟨g, .ready x⟩
  held_reserved : ∀ (k i : Nat), s.held[k]? = some ⟨some i⟩ →
    ∃ g : Nat, s.pipeline.slots[i]? = some ⟨g, .reserved⟩
  held_inj : ∀ (k k' i : Nat), s.held[k]? = some ⟨some i⟩ → s.held[k']? = some ⟨some i⟩ → k = k'

/-! ## Frame scheduler (`shell/common/animator.cc`) -/

/-- Time points and the Dart timeline clock, in microseconds. -/
abbrev TimePoint := Int

/-- Modelled from the spec: the frame timings record (`flow/frame_timings.h` is
not part of the tree): a frame number and the timestamps recorded so far. -/
structure FrameTimingsRecorder where
  frame_number : Nat
  vsync_start : Option TimePoint
  vsync_target : Option TimePoint
  build_start : Option TimePoint
  build_end : Option TimePoint
deriving DecidableEq, Repr

/-- A fresh record carrying only its frame number. -/
def FrameTimingsRecorder.create (frame_number : Nat) : FrameTimingsRecorder :=
  ⟨frame_number, none, none, none, none⟩

def FrameTimingsRecorder.GetFrameNumber (r : FrameTimingsRecorder) : Nat :=
  r.frame_number

def FrameTimingsRecorder.RecordVsync (r : FrameTimingsRecorder)
    (vsync_start vsync_target : TimePoint) : FrameTimingsRecorder :=
  { r with vsync_start := some vsync_start, vsync_target := some vsync_target }

def FrameTimingsRecorder.RecordBuildStart (r : FrameTimingsRecorder)
    (build_start : TimePoint) : FrameTimingsRecorder :=
  { r with build_start := some build_start }

def FrameTimingsRecorder.RecordBuildEnd (r : FrameTimingsRecorder)
    (build_end : TimePoint) : FrameTimingsRecorder :=
  { r with build_end := some build_end }

def FrameTimingsRecorder.GetVsyncTargetTime (r : FrameTimingsRecorder) : TimePoint :=
  r.vsync_target.getD 0

/-- The part of a layer tree the scheduler looks at: its frame size. -/
structure LayerTree where
  frame_size : Int × Int
deriving DecidableEq, Repr

/-- The UI task runner as the animator uses it. `ui_tasks` holds the
`AwaitVSync` closures posted with `PostTask` (each with the frame number it
captured) and `ui_delayed_tasks` the idle closures posted with
`PostDelayedTask` (each with the `notify_idle_task_id` it captured), oldest
first. -/
structure TaskRunners where
  ui_tasks : List Nat
  ui_delayed_tasks : List Nat
deriving DecidableEq, Repr

def TaskRunners.PostTask (t : TaskRunners) (frame_number : Nat) : TaskRunners :=
  { t with ui_tasks := t.ui_tasks ++ [frame_number] }

def TaskRunners.PostDelayedTask (t : TaskRunners) (notify_idle_task_id : Nat) : TaskRunners :=
  { t with ui_delayed_tasks := t.ui_delayed_tasks ++ [notify_idle_task_id] }

/-- Modelled from the spec: the vsync source. `callbacks` counts the callbacks
registered with `AsyncWaitForVsync` that have not fired yet ("calls back
exactly once"); `secondary` lists the ids with a secondary callback. -/
structure VsyncWaiter where
  callbacks : Nat
  secondary : List Nat
deriving DecidableEq, Repr

def VsyncWaiter.AsyncWaitForVsync (w : VsyncWaiter) : VsyncWaiter :=
  { w with callbacks := w.callbacks + 1 }

def VsyncWaiter.ScheduleSecondaryCallback (w : VsyncWaiter) (id : Nat) : VsyncWaiter :=
  { w with secondary := if id ∈ w.secondary then w.secondary else w.secondary ++ [id] }

/-- What the animator does to its collaborators, in order: the calls on the
delegate, the calls of the pipeline's `Produce`, the closures it posts and the
vsync waits it registers. -/
inductive Event where
  | OnAnimatorBeginFrame (frame_target_time : TimePoint)
  | OnAnimatorNotifyIdle (deadline : Int)
  | OnAnimatorDraw (timings : FrameTimingsRecorder)
  | OnAnimatorDrawLastLayerTree (timings : FrameTimingsRecorder)
  | Produce (valid : Bool)
  | PostTask (frame_number : Nat)
  | PostDelayedTask (notify_idle_task_id : Nat) (delay_ms : Nat)
  | AsyncWaitForVsync
deriving DecidableEq, Repr

/-- The members of `Animator`, with the collaborators it holds and the record
`events` of what it did to them. -/
structure Animator where
  task_runners_ : TaskRunners
  waiter_ : VsyncWaiter
  dart_frame_deadline_ : Int
  layer_tree_pipeline_ : Pipeline LayerTree
  pending_frame_semaphore_ : Semaphore
  frame_timings_recorder_ : Option FrameTimingsRecorder
  producer_continuation_ : ProducerContinuation
  last_layer_tree_size_ : Int × Int
  paused_ : Bool
  regenerate_layer_tree_ : Bool
  frame_scheduled_ : Bool
  notify_idle_task_id_ : Nat
  dimension_change_pending_ : Bool
  trace_flow_ids_ : List Nat
  events : List Event
deriving DecidableEq, Repr

namespace Animator

/-- The constructor. The pipeline depth is 2 with Metal, and otherwise 1 when
the platform and raster task runners coincide and 2 when they do not. -/
def create (shell_enable_metal platform_is_raster : Bool) : Animator :=
  { task_runners_ := ⟨[], []⟩
    waiter_ := ⟨0, []⟩
    dart_frame_deadline_ := 0
    layer_tree_pipeline_ :=
      Pipeline.create LayerTree
        (if shell_enable_metal then 2 else if platform_is_raster then 1 else 2)
    pending_frame_semaphore_ := ⟨1⟩
    frame_timings_recorder_ := none
    producer_continuation_ := ProducerContinuation.none
    last_layer_tree_size_ := (0, 0)
    paused_ := false
    regenerate_layer_tree_ := false
    frame_scheduled_ := false
    notify_idle_task_id_ := 0
    dimension_change_pending_ := false
    trace_flow_ids_ := []
    events := [] }

/-- Record one event. -/
def emit (s : Animator) (e : Event) : Animator :=
  { s with events := s.events ++ [e] }

/-- Modelled from the spec: the default value of `regenerate_layer_tree` in the
declaration of `RequestFrame` (`animator.h` is not part of the tree). The
argument-less calls in `Start` and in `BeginFrame` use it; a `BeginFrame` that
finds the pipeline full "reschedules rather than drop the frame", so the
default requests a regenerated layer tree. -/
def kRequestFrameDefault : Bool := true

def Stop (s : Animator) : Animator :=
  { s with paused_ := true }

def SetDimensionChangePending (s : Animator) : Animator :=
  { s with dimension_change_pending_ := true }

def RequestFrame (s : Animator) (regenerate_layer_tree : Bool) : Animator :=
  let s := if regenerate_layer_tree then { s with regenerate_layer_tree_ := true } else s
  if s.paused_ && !s.dimension_change_pending_ then s
  else
    match s.pending_frame_semaphore_.TryWait with
    | (false, _) => s
    | (true, sem) =>
      let frame_number :=
        match s.frame_timings_recorder_ with
        | some r => r.GetFrameNumber
        | none => 0
      { s with
        pending_frame_semaphore_ := sem
        task_runners_ := s.task_runners_.PostTask frame_number
        events := s.events ++ [.PostTask frame_number]
        frame_scheduled_ := true }

def Start (s : Animator) : Animator :=
  if !s.paused_ then s
  else RequestFrame { s with paused_ := false } kRequestFrameDefault

def ScheduleSecondaryVsyncCallback (s : Animator) (id : Nat) : Animator :=
  { s with waiter_ := s.waiter_.ScheduleSecondaryCallback id }

/-- The id under which the animator registers its own secondary callback
(the address of the animator in the source). -/
def kThisId : Nat := 0

def ScheduleMaybeClearTraceFlowIds (s : Animator) : Animator :=
  { s with waiter_ := s.waiter_.ScheduleSecondaryCallback kThisId }

/-- The loop popping `trace_flow_ids_` until it is empty. -/
def drainTraceFlowIds : List Nat → List Nat
  | [] => []
  | _ :: rest => drainTraceFlowIds rest

/-- The secondary callback registered by `ScheduleMaybeClearTraceFlowIds`. -/
def MaybeClearTraceFlowIds (s : Animator) : Animator :=
  if !s.frame_scheduled_ && !s.trace_flow_ids_.isEmpty then
    { s with trace_flow_ids_ := drainTraceFlowIds s.trace_flow_ids_ }
  else s

/-- The closure of `EnqueueTraceFlowId`, run on the UI thread. -/
def EnqueueTraceFlowId (s : Animator) (trace_flow_id : Nat) : Animator :=
  ScheduleMaybeClearTraceFlowIds { s with trace_flow_ids_ := s.trace_flow_ids_ ++ [trace_flow_id] }

/-- The clock readings and the fresh frame number `Render` may take. -/
structure RenderClock where
  frame_number : Nat
  placeholder_time : TimePoint
  build_end : TimePoint
deriving DecidableEq, Repr

def Render (s : Animator) (layer_tree : LayerTree) (clk : RenderClock) : Animator :=
  let s :=
    if s.dimension_change_pending_ && layer_tree.frame_size != s.last_layer_tree_size_ then
      { s with dimension_change_pending_ := false }
    else s
  let s := { s with last_layer_tree_size_ := layer_tree.frame_size }
  let recorder : FrameTimingsRecorder :=
    match s.frame_timings_recorder_ with
    | some r => r
    | none =>
      ((FrameTimingsRecorder.create clk.frame_number).RecordVsync
        clk.placeholder_time clk.placeholder_time).RecordBuildStart clk.placeholder_time
  let recorder := recorder.RecordBuildEnd clk.build_end
  let result := s.producer_continuation_.Complete s.layer_tree_pipeline_ layer_tree
  { s with
    producer_continuation_ := result.2.1
    layer_tree_pipeline_ := result.2.2
    frame_timings_recorder_ := none
    events := s.events ++ [.OnAnimatorDraw recorder] }

def CanReuseLastLayerTree (s : Animator) : Bool :=
  !s.regenerate_layer_tree_

def DrawLastLayerTree (s : Animator) (frame_timings_recorder : FrameTimingsRecorder)
    (now : TimePoint) : Animator :=
  let s := { s with pending_frame_semaphore_ := s.pending_frame_semaphore_.Signal }
  let frame_timings_recorder := frame_timings_recorder.RecordBuildStart now
  let frame_timings_recorder := frame_timings_recorder.RecordBuildEnd now
  s.emit (.OnAnimatorDrawLastLayerTree frame_timings_recorder)

/-- A call of the animator's interface, as the producer may make it from
inside `OnAnimatorBeginFrame` or anyone may make it on the UI thread. -/
inductive Call where
  | Stop
  | Start
  | SetDimensionChangePending
  | EnqueueTraceFlowId (trace_flow_id : Nat)
  | Render (layer_tree : LayerTree) (clk : RenderClock)
  | RequestFrame (regenerate_layer_tree : Bool)
  | ScheduleSecondaryVsyncCallback (id : Nat)
deriving DecidableEq, Repr

/-- Perform one interface call. -/
def call (s : Animator) : Call → Animator
  | .Stop => s.Stop
  | .Start => s.Start
  | .SetDimensionChangePending => s.SetDimensionChangePending
  | .EnqueueTraceFlowId id => s.EnqueueTraceFlowId id
  | .Render layer_tree clk => s.Render layer_tree clk
  | .RequestFrame regenerate_layer_tree => s.RequestFrame regenerate_layer_tree
  | .ScheduleSecondaryVsyncCallback id => s.ScheduleSecondaryVsyncCallback id

/-- The delay of the idle closure, in milliseconds: "1 more milliseconds than 3
frames at 60hz". -/
def kNotifyIdleTaskWaitTime : Nat := 51

/-- The clock readings of `BeginFrame`: `Now()` for the build start, and the
Dart and fml clocks read by `FxlToDartOrEarlier`. -/
structure BeginFrameClock where
  build_start : TimePoint
  dart_now : Int
  fxl_now : TimePoint
deriving DecidableEq, Repr

def FxlToDartOrEarlier (time : TimePoint) (dart_now : Int) (fxl_now : TimePoint) : Int :=
  (time - fxl_now) + dart_now

/-- The part of `BeginFrame` that runs once a valid continuation is held;
`response` lists the interface calls the delegate makes before
`OnAnimatorBeginFrame` returns. -/
def ServiceFrame (s : Animator) (clk : BeginFrameClock) (response : List Call) : Animator :=
  let frame_target_time :=
    match s.frame_timings_recorder_ with
    | some r => r.GetVsyncTargetTime
    | none => 0
  let s :=
    { s with
      dart_frame_deadline_ := FxlToDartOrEarlier frame_target_time clk.dart_now clk.fxl_now }
  let s := s.emit (.OnAnimatorBeginFrame frame_target_time)
  let s := response.foldl call s
  if !s.frame_scheduled_ then
    { s with
      task_runners_ := s.task_runners_.PostDelayedTask s.notify_idle_task_id_
      events := s.events ++ [.PostDelayedTask s.notify_idle_task_id_ kNotifyIdleTaskWaitTime] }
  else s

/-- The method `BeginFrame`, for the timings record handed over by the vsync
source. -/
def BeginFrame (s : Animator) (frame_timings_recorder : FrameTimingsRecorder)
    (clk : BeginFrameClock) (response : List Call) : Animator :=
  let s :=
    { s with
      frame_timings_recorder_ := some (frame_timings_recorder.RecordBuildStart clk.build_start)
      trace_flow_ids_ := drainTraceFlowIds s.trace_flow_ids_
      frame_scheduled_ := false
      notify_idle_task_id_ := s.notify_idle_task_id_ + 1
      regenerate_layer_tree_ := false
      pending_frame_semaphore_ := s.pending_frame_semaphore_.Signal }
  if !s.producer_continuation_.valid then
    let r := s.layer_tree_pipeline_.Produce
    let s :=
      { s with
        producer_continuation_ := r.1
        layer_tree_pipeline_ := r.2
        events := s.events ++ [Event.Produce r.1.valid] }
    if !s.producer_continuation_.valid then
      s.RequestFrame kRequestFrameDefault
    else
      s.ServiceFrame clk response
  else
    s.ServiceFrame clk response

/-- The delayed closure posted by `BeginFrame`. -/
def NotifyIdleTask (s : Animator) (notify_idle_task_id : Nat) (dart_now : Int) : Animator :=
  if notify_idle_task_id == s.notify_idle_task_id_ && !s.frame_scheduled_ then
    s.emit (.OnAnimatorNotifyIdle (dart_now + 100000))
  else s

def AwaitVSync (s : Animator) : Animator :=
  let s := { s with waiter_ := s.waiter_.AsyncWaitForVsync }
  let s := s.emit .AsyncWaitForVsync
  s.emit (.OnAnimatorNotifyIdle s.dart_frame_deadline_)

/-- The callback registered by `AwaitVSync`, called by the vsync source. -/
def VsyncCallback (s : Animator) (frame_timings_recorder : FrameTimingsRecorder)
    (clk : BeginFrameClock) (response : List Call) : Animator :=
  if s.CanReuseLastLayerTree then
    s.DrawLastLayerTree frame_timings_recorder clk.build_start
  else
    s.BeginFrame frame_timings_recorder clk response

/-- What can happen to a running animator: an interface call; the UI task
runner running its oldest posted `AwaitVSync` closure or its oldest delayed
idle closure; the vsync source firing a registered callback or the secondary
callbacks; the raster thread consuming from the pipeline. -/
inductive Step where
  | call (c : Call)
  | runTask
  | runDelayedTask (dart_now : Int)
  | vsync (frame_timings_recorder : FrameTimingsRecorder) (clk : BeginFrameClock)
      (response : List Call)
  | secondary
  | consume
deriving DecidableEq, Repr

/-- Perform one step; a step that is not enabled (no closure posted, no
callback registered) changes nothing. -/
def step (s : Animator) : Step → Animator
  | .call c => s.call c
  | .runTask =>
    match s.task_runners_.ui_tasks with
    | [] => s
    | _ :: rest =>
      AwaitVSync { s with task_runners_ := { s.task_runners_ with ui_tasks := rest } }
  | .runDelayedTask dart_now =>
    match s.task_runners_.ui_delayed_tasks with
    | [] => s
    | notify_idle_task_id :: rest =>
      NotifyIdleTask { s with task_runners_ := { s.task_runners_ with ui_delayed_tasks := rest } }
        notify_idle_task_id dart_now
  | .vsync frame_timings_recorder clk response =>
    if s.waiter_.callbacks = 0 then s
    else
      VsyncCallback { s with waiter_ := { s.waiter_ with callbacks := s.waiter_.callbacks - 1 } }
        frame_timings_recorder clk response
  | .secondary =>
    let fire := kThisId ∈ s.waiter_.secondary
    let s := { s with waiter_ := { s.waiter_ with secondary := [] } }
    if fire then s.MaybeClearTraceFlowIds else s
  | .consume =>
    { s with layer_tree_pipeline_ := s.layer_tree_pipeline_.Consume.2 }

/-- Perform a sequence of steps. -/
def run (s : Animator) (steps : List Step) : Animator :=
  steps.foldl step s

/-- The vsync waits requested and not yet fired: the `AwaitVSync` closures
still posted plus the callbacks registered with the vsync source. -/
def outstandingVsyncWaits (s : Animator) : Nat :=
  s.task_runners_.ui_tasks.length + s.waiter_.callbacks

end Animator

namespace Animator

/-- The frame number captured by the closure `RequestFrame` posts. -/
def requestFrameNumber (s : Animator) : Nat :=
  match s.frame_timings_recorder_ with
  | some r => r.GetFrameNumber
  | none => 0

/-- Whether `RequestFrame` gets past its guards: the animator is not paused
(or a dimension change is pending) and the pending-frame semaphore is free. -/
def canRegister (s : Animator) : Bool :=
  !(s.paused_ && !s.dimension_change_pending_) && s.pending_frame_semaphore_.count != 0

/-- Calls that can register a vsync wait or change the paused flag. -/
def Call.schedules : Call → Bool
  | .Stop => true
  | .Start => true
  | .RequestFrame _ => true
  | _ => false

end Animator

namespace Animator

/-- Whether the step is the firing of a registered vsync callback. -/
def Step.isVsync : Step → Bool
  | .vsync _ _ _ => true
  | _ => false

/-- A timings record as the vsync source hands it over. -/
def exampleTimings (frame_number : Nat) (vsync_start vsync_target : TimePoint) :
    FrameTimingsRecorder :=
  (FrameTimingsRecorder.create frame_number).RecordVsync vsync_start vsync_target

/-- An animator over a pipeline of depth 1 (platform and raster task runners
coincide) after one complete frame that the raster thread has not consumed:
a frame was requested, the vsync fired, `BeginFrame` obtained the only
continuation and the delegate rendered a layer tree into it. The animator
is unpaused, no vsync wait is outstanding, and the pipeline is full. -/
def fullPipelineExample : Animator :=
  (Animator.create false true).run
    [ .call (.RequestFrame true),
      .runTask,
      .vsync (exampleTimings 1 1000 17000) ⟨1100, 50, 1100⟩
        [.Render ⟨(800, 600)⟩ ⟨0, 0, 1500⟩] ]

/-- The same animator after a further frame request whose vsync has fired:
`BeginFrame` ran and found the pipeline full. -/
def fullPipelineAfterBeginFrame : Animator :=
  fullPipelineExample.run
    [ .call (.RequestFrame true),
      .runTask,
      .vsync (exampleTimings 2 18000 34000) ⟨18100, 60, 18100⟩ [] ]

end Animator

namespace Animator

/-- Successive `RequestFrame` calls, one per flag. -/
def requestFrames (s : Animator) (flags : List Bool) : Animator :=
  flags.foldl RequestFrame s

/-- The state after `RequestFrame b`, the further calls `RequestFrame` for the
flags `bs`, and the UI task runner running the oldest posted closure. -/
def afterRequests (s : Animator) (b : Bool) (bs : List Bool) : Animator :=
  ((s.RequestFrame b).requestFrames bs).step .runTask

/-- What decides whether `RequestFrame` registers a wait, and what it changes
when it does: the paused flag, the semaphore count, the posted closures and
the count of registered callbacks. -/
def registrationView (s : Animator) : Bool × Nat × List Nat × Nat :=
  (s.paused_, s.pending_frame_semaphore_.count, s.task_runners_.ui_tasks, s.waiter_.callbacks)

end Animator

/-! ## Geometry used by the layers (exact arithmetic over the rationals) -/

/-- An axis-aligned rectangle given by its four edges. -/
structure SkRect where
  fLeft : ℚ
  fTop : ℚ
  fRight : ℚ
  fBottom : ℚ
deriving DecidableEq

namespace SkRect

def MakeEmpty : SkRect := ⟨0, 0, 0, 0⟩

def MakeLTRB (l t r b : ℚ) : SkRect := ⟨l, t, r, b⟩

def MakeXYWH (x y w h : ℚ) : SkRect := ⟨x, y, x + w, y + h⟩

def width (r : SkRect) : ℚ := r.fRight - r.fLeft

def height (r : SkRect) : ℚ := r.fBottom - r.fTop

/-- A rectangle is empty unless it has positive width and positive height. -/
def isEmpty (r : SkRect) : Bool :=
  !(decide (r.fLeft < r.fRight) && decide (r.fTop < r.fBottom))

/-- Move the left and right edges outwards by `dx` and the top and bottom
edges outwards by `dy`. -/
def outset (r : SkRect) (dx dy : ℚ) : SkRect :=
  ⟨r.fLeft - dx, r.fTop - dy, r.fRight + dx, r.fBottom + dy⟩

/-- Grow `r` to the bounding rectangle of `r` and `a`; an empty `a` is
ignored and an empty `r` is replaced. -/
def join (r a : SkRect) : SkRect :=
  if a.isEmpty then r
  else if r.isEmpty then a
  else ⟨min r.fLeft a.fLeft, min r.fTop a.fTop, max r.fRight a.fRight, max r.fBottom a.fBottom⟩

/-- Whether the point lies in the rectangle (edges on the left and top
included, on the right and bottom excluded). -/
def containsPoint (r : SkRect) (x y : ℚ) : Prop :=
  r.fLeft ≤ x ∧ x < r.fRight ∧ r.fTop ≤ y ∧ y < r.fBottom

instance (r : SkRect) (x y : ℚ) : Decidable (r.containsPoint x y) := by
  unfold containsPoint
  infer_instance

/-- Whether `r` contains the rectangle `a`. -/
def containsRect (r a : SkRect) : Prop :=
  r.fLeft ≤ a.fLeft ∧ r.fTop ≤ a.fTop ∧ a.fRight ≤ r.fRight ∧ a.fBottom ≤ r.fBottom

end SkRect

/-- The cull rectangle standing for "unbounded". -/
def kGiantRect : SkRect := SkRect.MakeLTRB (-1000000000) (-1000000000) 1000000000 1000000000

/-- A 2D affine matrix: `(x, y)` maps to
`(sx * x + kx * y + tx, ky * x + sy * y + ty)`. -/
structure SkMatrix where
  sx : ℚ
  kx : ℚ
  tx : ℚ
  ky : ℚ
  sy : ℚ
  ty : ℚ
deriving DecidableEq

namespace SkMatrix

def I : SkMatrix := ⟨1, 0, 0, 0, 1, 0⟩

def Translate (dx dy : ℚ) : SkMatrix := ⟨1, 0, dx, 0, 1, dy⟩

def Scale (sx sy : ℚ) : SkMatrix := ⟨sx, 0, 0, 0, sy, 0⟩

/-- The matrix product `a * b`: apply `b` first, then `a`. -/
def Concat (a b : SkMatrix) : SkMatrix :=
  ⟨a.sx * b.sx + a.kx * b.ky, a.sx * b.kx + a.kx * b.sy, a.sx * b.tx + a.kx * b.ty + a.tx,
   a.ky * b.sx + a.sy * b.ky, a.ky * b.kx + a.sy * b.sy, a.ky * b.tx + a.sy * b.ty + a.ty⟩

def det (m : SkMatrix) : ℚ := m.sx * m.sy - m.kx * m.ky

/-- The inverse, when the matrix is invertible. -/
def invert (m : SkMatrix) : Option SkMatrix :=
  if m.det = 0 then none
  else
    some ⟨m.sy / m.det, -m.kx / m.det, (m.kx * m.ty - m.sy * m.tx) / m.det,
          -m.ky / m.det, m.sx / m.det, (m.ky * m.tx - m.sx * m.ty) / m.det⟩

def mapX (m : SkMatrix) (x y : ℚ) : ℚ := m.sx * x + m.kx * y + m.tx

def mapY (m : SkMatrix) (x y : ℚ) : ℚ := m.ky * x + m.sy * y + m.ty

/-- The bounding rectangle of the images of the four corners. -/
def mapRect (m : SkMatrix) (r : SkRect) : SkRect :=
  ⟨min (min (m.mapX r.fLeft r.fTop) (m.mapX r.fRight r.fTop))
      (min (m.mapX r.fRight r.fBottom) (m.mapX r.fLeft r.fBottom)),
   min (min (m.mapY r.fLeft r.fTop) (m.mapY r.fRight r.fTop))
      (min (m.mapY r.fRight r.fBottom) (m.mapY r.fLeft r.fBottom)),
   max (max (m.mapX r.fLeft r.fTop) (m.mapX r.fRight r.fTop))
      (max (m.mapX r.fRight r.fBottom) (m.mapX r.fLeft r.fBottom)),
   max (max (m.mapY r.fLeft r.fTop) (m.mapY r.fRight r.fTop))
      (max (m.mapY r.fRight r.fBottom) (m.mapY r.fLeft r.fBottom))⟩

end SkMatrix

/-- A path, as far as the layers look at it: its bounds, and a tag standing
for the rest of its geometry. -/
structure SkPath where
  bounds : SkRect
  tag : Nat
deriving DecidableEq

def SkPath.getBounds (p : SkPath) : SkRect := p.bounds

/-- A 32-bit ARGB colour. -/
abbrev SkColor := Nat

/-- The alpha channel of a colour. -/
def SkColorGetA (color : SkColor) : Nat := (color / 2 ^ 24) % 256

/-- A paint: its colour and whether it is anti-aliased. -/
structure SkPaint where
  color : SkColor
  antiAlias : Bool
deriving DecidableEq

/-! ## Layers (`flow/layers`) -/

def kLightHeight : ℚ := 600

def kLightRadius : ℚ := 800

/-- The function `PhysicalShapeLayer::ComputeShadowBounds`, over exact
arithmetic. -/
def ComputeShadowBounds (bounds : SkRect) (elevation pixel_ratio : ℚ) : SkRect :=
  let tx := (kLightRadius * pixel_ratio + bounds.width * (1 / 2)) / kLightHeight
  let ty := (kLightRadius * pixel_ratio + bounds.height * (1 / 2)) / kLightHeight
  bounds.outset (elevation * tx) (elevation * ty)

/-- The clip behaviours of a physical-shape layer. -/
inductive Clip where
  | none
  | hardEdge
  | antiAlias
  | antiAliasWithSaveLayer
deriving DecidableEq, Repr

/-- Modelled from the spec: the members every layer has (`layer.h` is not part
of the tree): the paint bounds, "valid only after preroll" and empty before
it, the system-composition flag computed during preroll, and the identity
"used to match against a node in the previous frame for diffing". -/
structure LayerBase where
  paint_bounds : SkRect
  needs_system_composite : Bool
  unique_id : Nat
deriving DecidableEq

/-- The base members of a newly constructed layer. -/
def LayerBase.initial (unique_id : Nat) : LayerBase := ⟨SkRect.MakeEmpty, false, unique_id⟩

/-- Modelled from the spec: painting is needed when the paint bounds are not
empty. -/
def LayerBase.needs_painting (b : LayerBase) : Bool := !b.paint_bounds.isEmpty

/-- The layer variants that occur in the sources at hand: the test leaf
`MockLayer` (which records the matrix and cull rectangle it is prerolled
with), the plain container, and the transform, texture and physical-shape
layers. Container variants own their children. -/
inductive Layer where
  | mock (base : LayerBase) (path : SkPath) (paint : SkPaint)
      (parent_matrix : SkMatrix) (parent_cull_rect : SkRect)
  | container (base : LayerBase) (layers : List Layer)
  | transform (base : LayerBase) (transform_ : SkMatrix) (layers : List Layer)
  | texture (base : LayerBase) (offset_ : ℚ × ℚ) (size_ : ℚ × ℚ) (texture_id_ : Int)
      (freeze_ : Bool) (sampling_ : Nat)
  | physicalShape (base : LayerBase) (color : SkColor) (shadow_color_ : SkColor)
      (elevation : ℚ) (path_ : SkPath) (clip_behavior_ : Clip) (layers : List Layer)

namespace Layer

/-- The base members of a layer. -/
def base : Layer → LayerBase
  | .mock b _ _ _ _ => b
  | .container b _ => b
  | .transform b _ _ => b
  | .texture b _ _ _ _ _ => b
  | .physicalShape b _ _ _ _ _ _ => b

def paint_bounds (l : Layer) : SkRect := l.base.paint_bounds

def needs_system_composite (l : Layer) : Bool := l.base.needs_system_composite

/-- Modelled from the spec: a layer needs painting when its paint bounds are
not empty (`layer.h` is not part of the tree). -/
def needs_painting (l : Layer) : Bool := l.base.needs_painting

end Layer

/-- Modelled from the spec: the preroll context (`layer.h` is not part of the
tree), "carrying the current clip/cull rectangle, an is-opaque hint, a
registry of externally-supplied textures, and device pixel ratio". -/
structure PrerollContext where
  cull_rect : SkRect
  is_opaque : Bool
  texture_registry : List Int
  frame_device_pixel_ratio : ℚ
deriving DecidableEq

/-- The two canvases of a paint context. -/
inductive CanvasId where
  | internal_nodes_canvas
  | leaf_nodes_canvas
deriving DecidableEq, Repr

/-- The canvas operations the layers issue. -/
inductive CanvasOp where
  | save
  | saveLayer (bounds : SkRect)
  | restoreToCount (saveCount : Nat)
  | concat (matrix : SkMatrix)
  | clipPath (path : SkPath) (doAntiAlias : Bool)
  | drawPath (path : SkPath) (paint : SkPaint)
  | drawPaint (paint : SkPaint)
  | drawShadow (path : SkPath) (color : SkColor) (elevation : ℚ) (transparentOccluder : Bool)
      (dpr : ℚ)
deriving DecidableEq

/-- One operation issued on one of the canvases. -/
structure DrawCall where
  canvas : CanvasId
  op : CanvasOp
deriving DecidableEq

/-- One call of `Texture::Paint`. -/
structure TexturePaintCall where
  texture_id : Int
  bounds : SkRect
  freeze : Bool
  sampling : Nat
deriving DecidableEq

/-- Modelled from the spec: the paint context (`layer.h` is not part of the
tree): the operations issued so far on its two canvases, the save count of the
internal-nodes canvas, the calls made on textures, the texture registry and
the device pixel ratio. -/
structure PaintContext where
  draw_calls : List DrawCall
  save_count : Nat
  texture_paint_calls : List TexturePaintCall
  texture_registry : List Int
  frame_device_pixel_ratio : ℚ
deriving DecidableEq

namespace PaintContext

/-- Issue an operation on a canvas. -/
def draw (context : PaintContext) (canvas : CanvasId) (op : CanvasOp) : PaintContext :=
  { context with draw_calls := context.draw_calls ++ [⟨canvas, op⟩] }

/-- The call `save()` on the internal-nodes canvas; the first component is the value
it returns, the save count before the call. -/
def save (context : PaintContext) : Nat × PaintContext :=
  (context.save_count,
    { context.draw .internal_nodes_canvas .save with save_count := context.save_count + 1 })

/-- The call `saveLayer(bounds, nullptr)` on the internal-nodes canvas. -/
def saveLayer (context : PaintContext) (bounds : SkRect) : PaintContext :=
  { context.draw .internal_nodes_canvas (.saveLayer bounds) with
    save_count := context.save_count + 1 }

/-- The call `restoreToCount(saveCount)` on the internal-nodes canvas. -/
def restoreToCount (context : PaintContext) (saveCount : Nat) : PaintContext :=
  { context.draw .internal_nodes_canvas (.restoreToCount saveCount) with
    save_count := min context.save_count (max saveCount 1) }

end PaintContext

/-- The fatal failures of `Paint`: a failed debug assertion. -/
inductive PaintFailure where
  | needs_painting
deriving DecidableEq, Repr

/-- The function `PhysicalShapeLayer::DrawShadow`: one shadow drawn on the
given canvas. -/
def DrawShadow (context : PaintContext) (canvas : CanvasId) (path : SkPath) (color : SkColor)
    (elevation : ℚ) (transparentOccluder : Bool) (dpr : ℚ) : PaintContext :=
  context.draw canvas (.drawShadow path color elevation transparentOccluder dpr)

namespace Layer

/-- Replace the base members of a layer. -/
def setBase : Layer → LayerBase → Layer
  | .mock _ p q m c, b => .mock b p q m c
  | .container _ ls, b => .container b ls
  | .transform _ t ls, b => .transform b t ls
  | .texture _ o sz i f sm, b => .texture b o sz i f sm
  | .physicalShape _ c sc e p cb ls, b => .physicalShape b c sc e p cb ls

/-- The result of prerolling a list of children: the prerolled children, the
context they leave, the union of their paint bounds and whether one of them
needs system composition. -/
structure ChildrenPreroll where
  layers : List Layer
  context : PrerollContext
  child_paint_bounds : SkRect
  needs_system_composite : Bool

/-- The method `Preroll`. The flag `can_system_composite` is the compile-time constant
`PhysicalShapeLayerBase::can_system_composite()`. The physical-shape case is
`PhysicalShapeLayer::Preroll`; the base-class preroll it starts with, and the
other cases, are modelled from the spec (their sources are not part of the
tree): a container prerolls its children in order and takes the union of their
bounds, a transform layer hands its children the concatenated matrix and the
inverse-mapped cull rectangle (unbounded when there is no inverse) and maps the
union of their bounds, a texture layer has bounds of its size at its offset,
and the test leaf has the bounds of its path. -/
def Preroll (can_system_composite : Bool) :
    Layer → PrerollContext → SkMatrix → Layer × PrerollContext
  | .mock base path paint _ _, context, matrix =>
    (.mock { base with paint_bounds := path.getBounds } path paint matrix context.cull_rect,
      context)
  | .container base layers, context, matrix =>
    let r :=
      PrerollChildren can_system_composite layers context matrix SkRect.MakeEmpty
        base.needs_system_composite
    (.container
        { base with
          paint_bounds := r.child_paint_bounds
          needs_system_composite := r.needs_system_composite }
        r.layers,
      r.context)
  | .transform base transform_ layers, context, matrix =>
    let child_matrix := SkMatrix.Concat matrix transform_
    let previous_cull_rect := context.cull_rect
    let context :=
      match transform_.invert with
      | some inverse_transform =>
        { context with cull_rect := inverse_transform.mapRect context.cull_rect }
      | none => { context with cull_rect := kGiantRect }
    let r :=
      PrerollChildren can_system_composite layers context child_matrix SkRect.MakeEmpty
        base.needs_system_composite
    (.transform
        { base with
          paint_bounds := transform_.mapRect r.child_paint_bounds
          needs_system_composite := r.needs_system_composite }
        transform_ r.layers,
      { r.context with cull_rect := previous_cull_rect })
  | .texture base offset_ size_ texture_id_ freeze_ sampling_, context, _ =>
    (.texture { base with paint_bounds := SkRect.MakeXYWH offset_.1 offset_.2 size_.1 size_.2 }
        offset_ size_ texture_id_ freeze_ sampling_,
      context)
  | .physicalShape base color shadow_color_ elevation path_ clip_behavior_ layers, context,
      matrix =>
    -- PhysicalShapeLayerBase::Preroll(context, matrix)
    let r :=
      PrerollChildren can_system_composite layers context matrix SkRect.MakeEmpty
        base.needs_system_composite
    let base : LayerBase :=
      { base with
        paint_bounds := r.child_paint_bounds
        needs_system_composite :=
          r.needs_system_composite || (can_system_composite && decide (elevation ≠ 0)) }
    let context := r.context
    if can_system_composite then
      let base :=
        if PrerollContext.is_opaque context then { base with paint_bounds := SkRect.MakeEmpty }
        else base
      (.physicalShape base color shadow_color_ elevation path_ clip_behavior_ r.layers, context)
    else
      let base := { base with needs_system_composite := false }
      let base := { base with paint_bounds := path_.getBounds }
      let base :=
        if elevation ≠ 0 then
          { base with
            paint_bounds :=
              ComputeShadowBounds base.paint_bounds elevation context.frame_device_pixel_ratio }
        else base
      (.physicalShape base color shadow_color_ elevation path_ clip_behavior_ r.layers, context)
where
  /-- Modelled from the spec: preroll the children in order, threading the
  context, joining each child's paint bounds into `child_paint_bounds` and
  noting whether a child needs system composition. -/
  PrerollChildren (can_system_composite : Bool) :
      List Layer → PrerollContext → SkMatrix → SkRect → Bool → ChildrenPreroll
    | [], context, _, child_paint_bounds, needs_system_composite =>
      ⟨[], context, child_paint_bounds, needs_system_composite⟩
    | layer :: rest, context, child_matrix, child_paint_bounds, needs_system_composite =>
      let p := Preroll can_system_composite layer context child_matrix
      let r :=
        PrerollChildren can_system_composite rest p.2 child_matrix
          (child_paint_bounds.join p.1.paint_bounds)
          (needs_system_composite || p.1.needs_system_composite)
      ⟨p.1 :: r.layers, r.context, r.child_paint_bounds, r.needs_system_composite⟩

/-- The method `Paint`, in a debug build: a failed `FML_DCHECK` is the fatal failure. The
physical-shape case is `PhysicalShapeLayer::Paint`; the base-class paint it
calls, and the other cases, are modelled from the spec and the unit tests
(their sources are not part of the tree): every variant asserts
`needs_painting`, a container paints in order the children that need painting,
a transform layer brackets that with a save, its matrix and a restore, a
texture layer calls the texture registered under its id or does nothing when
there is none, and the test leaf draws its path. -/
def Paint : Layer → PaintContext → Except PaintFailure PaintContext
  | .mock base path paint _ _, context =>
    if !base.needs_painting then .error .needs_painting
    else .ok (context.draw .leaf_nodes_canvas (.drawPath path paint))
  | .container base layers, context =>
    if !base.needs_painting then .error .needs_painting
    else PaintChildren layers context
  | .transform base transform_ layers, context =>
    if !base.needs_painting then .error .needs_painting
    else
      let saved := context.save
      let context := saved.2.draw .internal_nodes_canvas (.concat transform_)
      match PaintChildren layers context with
      | .error e => .error e
      | .ok context => .ok (context.restoreToCount saved.1)
  | .texture base _ _ texture_id_ freeze_ sampling_, context =>
    if !base.needs_painting then .error .needs_painting
    else if texture_id_ ∈ context.texture_registry then
      .ok { context with
            texture_paint_calls :=
              context.texture_paint_calls ++
                [⟨texture_id_, base.paint_bounds, freeze_, sampling_⟩] }
    else .ok context
  | .physicalShape base color shadow_color_ elevation path_ clip_behavior_ layers, context =>
    if !base.needs_painting then .error .needs_painting
    else
      let context :=
        if elevation ≠ 0 then
          DrawShadow context .leaf_nodes_canvas path_ shadow_color_ elevation
            (SkColorGetA color != 0xff) context.frame_device_pixel_ratio
        else context
      let paint : SkPaint := ⟨color, true⟩
      let context :=
        if clip_behavior_ ≠ .antiAliasWithSaveLayer then
          context.draw .leaf_nodes_canvas (.drawPath path_ paint)
        else context
      let saved := context.save
      let saveCount := saved.1
      let context := saved.2
      let context :=
        match clip_behavior_ with
        | .hardEdge => context.draw .internal_nodes_canvas (.clipPath path_ false)
        | .antiAlias => context.draw .internal_nodes_canvas (.clipPath path_ true)
        | .antiAliasWithSaveLayer =>
          (context.draw .internal_nodes_canvas (.clipPath path_ true)).saveLayer
            base.paint_bounds
        | .none => context
      let context :=
        if clip_behavior_ = .antiAliasWithSaveLayer then
          context.draw .leaf_nodes_canvas (.drawPaint paint)
        else context
      -- PhysicalShapeLayerBase::Paint(context)
      match PaintChildren layers context with
      | .error e => .error e
      | .ok context => .ok (context.restoreToCount saveCount)
where
  /-- Modelled from the spec: paint, in order, the children that need
  painting. -/
  PaintChildren : List Layer → PaintContext → Except PaintFailure PaintContext
    | [], context => .ok context
    | layer :: rest, context =>
      if layer.base.needs_painting then
        match Paint layer context with
        | .error e => .error e
        | .ok context => PaintChildren rest context
      else PaintChildren rest context

end Layer

/-! ## Damage between two frames (diff engine) -/

/-- The properties of a layer "relevant to its visual output": its variant
and its own members, without its children and without what preroll
computes. -/
inductive LayerProps where
  | mock (path : SkPath) (paint : SkPaint)
  | container
  | transform (transform_ : SkMatrix)
  | texture (offset_ : ℚ × ℚ) (size_ : ℚ × ℚ) (texture_id_ : Int) (freeze_ : Bool)
      (sampling_ : Nat)
  | physicalShape (color : SkColor) (shadow_color_ : SkColor) (elevation : ℚ) (path_ : SkPath)
      (clip_behavior_ : Clip)
deriving DecidableEq

namespace LayerProps

/-- Whether a layer with these properties has visual content of its own; a
container and a transform layer only group their children. -/
def hasContent : LayerProps → Bool
  | .container => false
  | .transform _ => false
  | _ => true

/-- The matrix under which the children of a layer with these properties are
placed, given the matrix of the layer itself. -/
def childMatrix (matrix : SkMatrix) : LayerProps → SkMatrix
  | .transform transform_ => SkMatrix.Concat matrix transform_
  | _ => matrix

end LayerProps

namespace Layer

/-- The own properties of a layer. -/
def props : Layer → LayerProps
  | .mock _ path paint _ _ => .mock path paint
  | .container _ _ => .container
  | .transform _ transform_ _ => .transform transform_
  | .texture _ offset_ size_ texture_id_ freeze_ sampling_ =>
    .texture offset_ size_ texture_id_ freeze_ sampling_
  | .physicalShape _ color shadow_color_ elevation path_ clip_behavior_ _ =>
    .physicalShape color shadow_color_ elevation path_ clip_behavior_

/-- The children of a layer. -/
def layers : Layer → List Layer
  | .container _ layers => layers
  | .transform _ _ layers => layers
  | .physicalShape _ _ _ _ _ _ layers => layers
  | _ => []

/-- Modelled from the spec: the paint region of a subtree, the screen-space
rectangles its layers paint to: for every layer with content of its own, its
paint bounds mapped by the matrix accumulated above it. -/
def paintRegion (matrix : SkMatrix) : Layer → List SkRect
  | .mock base _ _ _ _ => [matrix.mapRect base.paint_bounds]
  | .container _ layers => regionOfList matrix layers
  | .transform _ transform_ layers => regionOfList (SkMatrix.Concat matrix transform_) layers
  | .texture base _ _ _ _ _ => [matrix.mapRect base.paint_bounds]
  | .physicalShape base _ _ _ _ _ layers =>
    matrix.mapRect base.paint_bounds :: regionOfList matrix layers
where
  /-- The paint region of a list of sibling subtrees. -/
  regionOfList (matrix : SkMatrix) : List Layer → List SkRect
    | [] => []
    | layer :: rest => paintRegion matrix layer ++ regionOfList matrix rest

end Layer

/-- Modelled from the spec: the "assign old layer" association built by the
producer, from the identity of a new layer to the identity of the layer of
the previous frame it replaces. -/
abbrev OldLayerAssignment := Nat → Option Nat

namespace Layer

/-- The method `as_texture_layer`: the layer itself for a texture layer
(`texture_layer.h`), null for every other variant. -/
def as_texture_layer : Layer → Option Layer
  | .texture base offset_ size_ texture_id_ freeze_ sampling_ =>
    some (.texture base offset_ size_ texture_id_ freeze_ sampling_)
  | _ => none

/-- Modelled from the spec: the `IsReplacing` of the layers that do not
override it (`layer.h` is not part of the tree): `layer` stands for `old` when
it is the same layer kept from the previous frame, or `old` is its assigned old
layer. -/
def IsReplacingByIdentity (assigned : OldLayerAssignment) (layer old : Layer) : Bool :=
  layer.base.unique_id == old.base.unique_id ||
    assigned layer.base.unique_id == some old.base.unique_id

/-- The method `IsReplacing`: whether `layer` stands for `old`. A texture
layer overrides it (`texture_layer.h`): it replaces any texture layer, whatever
the identities and the assignment. -/
def IsReplacing (assigned : OldLayerAssignment) (layer old : Layer) : Bool :=
  match layer with
  | .texture _ _ _ _ _ _ => old.as_texture_layer.isSome
  | _ => IsReplacingByIdentity assigned layer old

/-- Modelled from the spec: the layer's own contribution is unchanged when
"every property relevant to its visual output" is identical to that of the
old layer (a layer of another kind never is), its own bounds included. -/
def sameProperties (layer old : Layer) : Bool :=
  layer.props == old.props &&
    (!layer.props.hasContent || layer.paint_bounds == old.paint_bounds)

/-- Modelled from the spec: the damage rectangles of `layer` diffed against
`old`, the layer it replaces (`none` when it replaces nothing), under the
matrix accumulated above it. A layer that replaces nothing is entirely new:
its whole paint region is damage. A layer whose own properties changed
contributes the old subtree's region and the new subtree's region. A layer
whose own properties are unchanged contributes what its children contribute,
walked in lock-step by position: a child diffs against the old child at its
position when it replaces it; otherwise the child is new and the old child is
removed, its old region being damage; old children without counterpart are
removed, new children without counterpart are new. -/
def Diff (assigned : OldLayerAssignment) : SkMatrix → Layer → Option Layer → List SkRect
  | matrix, .mock base path paint pm pc, old =>
    match old with
    | none => paintRegion matrix (.mock base path paint pm pc)
    | some o =>
      if sameProperties (.mock base path paint pm pc) o then
        paintRegion.regionOfList matrix o.layers
      else paintRegion matrix (.mock base path paint pm pc) ++ o.paintRegion matrix
  | matrix, .container base layers, old =>
    match old with
    | none => paintRegion matrix (.container base layers)
    | some o =>
      if sameProperties (.container base layers) o then
        DiffChildren assigned matrix layers o.layers
      else paintRegion matrix (.container base layers) ++ o.paintRegion matrix
  | matrix, .transform base transform_ layers, old =>
    match old with
    | none => paintRegion matrix (.transform base transform_ layers)
    | some o =>
      if sameProperties (.transform base transform_ layers) o then
        DiffChildren assigned (SkMatrix.Concat matrix transform_) layers o.layers
      else paintRegion matrix (.transform base transform_ layers) ++ o.paintRegion matrix
  | matrix, .texture base of sz id fr sm, old =>
    match old with
    | none => paintRegion matrix (.texture base of sz id fr sm)
    | some o =>
      if sameProperties (.texture base of sz id fr sm) o then
        paintRegion.regionOfList matrix o.layers
      else paintRegion matrix (.texture base of sz id fr sm) ++ o.paintRegion matrix
  | matrix, .physicalShape base c sc e p cb layers, old =>
    match old with
    | none => paintRegion matrix (.physicalShape base c sc e p cb layers)
    | some o =>
      if sameProperties (.physicalShape base c sc e p cb layers) o then
        DiffChildren assigned matrix layers o.layers
      else paintRegion matrix (.physicalShape base c sc e p cb layers) ++ o.paintRegion matrix
where
  /-- The damage of a list of children against the children of the old
  layer. -/
  DiffChildren (assigned : OldLayerAssignment) :
      SkMatrix → List Layer → List Layer → List SkRect
    | matrix, [], olds => paintRegion.regionOfList matrix olds
    | matrix, layer :: rest, [] =>
      Diff assigned matrix layer none ++ DiffChildren assigned matrix rest []
    | matrix, layer :: rest, o :: olds =>
      (if IsReplacing assigned layer o then Diff assigned matrix layer (some o)
        else Diff assigned matrix layer none ++ o.paintRegion matrix) ++
        DiffChildren assigned matrix rest olds

end Layer

/-- Modelled from the spec: the damage rectangle, the "accumulated bounding
rectangle (possibly empty)" of the damage rectangles. -/
def ComputeDamage (rects : List SkRect) : SkRect :=
  rects.foldl SkRect.join SkRect.MakeEmpty

/-- Modelled from the spec: diff the root of the new tree against the root of
the previous tree and accumulate the damage. -/
def DiffLayerTree (assigned : OldLayerAssignment) (layer_tree old_layer_tree : Layer) : SkRect :=
  ComputeDamage (Layer.Diff assigned SkMatrix.I layer_tree (some old_layer_tree))

/-- Modelled from the spec: what one layer with content of its own paints:
it draws inside the image of its paint bounds under the accumulated matrix,
and what it draws there is fixed by its own properties, that matrix and the
properties of the layers enclosing it (the clips and brackets in force). -/
structure DrawRecord where
  matrix : SkMatrix
  enclosing : List LayerProps
  props : LayerProps
  bounds : SkRect
deriving DecidableEq

/-- The screen-space rectangle a draw is confined to. -/
def DrawRecord.screenBounds (d : DrawRecord) : SkRect := d.matrix.mapRect d.bounds

/-- Whether the screen-space point lies where the draw can paint. -/
def DrawRecord.covers (d : DrawRecord) (x y : ℚ) : Bool :=
  decide (d.screenBounds.containsPoint x y)

namespace Layer

/-- Modelled from the spec: the draws of a subtree in paint order. -/
def drawRecords : SkMatrix → List LayerProps → Layer → List DrawRecord
  | matrix, enclosing, .mock base path paint _ _ =>
    [⟨matrix, enclosing, .mock path paint, base.paint_bounds⟩]
  | matrix, enclosing, .container _ layers =>
    recordsOfList matrix (enclosing ++ [.container]) layers
  | matrix, enclosing, .transform _ transform_ layers =>
    recordsOfList (SkMatrix.Concat matrix transform_) (enclosing ++ [.transform transform_])
      layers
  | matrix, enclosing, .texture base of sz id fr sm =>
    [⟨matrix, enclosing, .texture of sz id fr sm, base.paint_bounds⟩]
  | matrix, enclosing, .physicalShape base c sc e p cb layers =>
    ⟨matrix, enclosing, .physicalShape c sc e p cb, base.paint_bounds⟩ ::
      recordsOfList matrix (enclosing ++ [.physicalShape c sc e p cb]) layers
where
  /-- The draws of a list of sibling subtrees in paint order. -/
  recordsOfList : SkMatrix → List LayerProps → List Layer → List DrawRecord
    | _, _, [] => []
    | matrix, enclosing, layer :: rest =>
      drawRecords matrix enclosing layer ++ recordsOfList matrix enclosing rest

/-- Modelled from the spec: the painted output of a layer tree at a
screen-space point, as far as the tree determines it: the draws that can
paint there, in paint order. -/
def paintedAt (tree : Layer) (x y : ℚ) : List DrawRecord :=
  (tree.drawRecords SkMatrix.I []).filter fun d => d.covers x y

end Layer

/-- No rectangle of the list contains the point. -/
def uncovered (rects : List SkRect) (x y : ℚ) : Prop :=
  ∀ r ∈ rects, ¬ r.containsPoint x y

/-! ### The trees of `TEST_F(TransformLayerLayerDiffTest, Transform)` -/

namespace testing

/-- The preroll context of the layer tests: unbounded cull rectangle, no
registered texture, device pixel ratio 1. -/
def preroll_context : PrerollContext := ⟨kGiantRect, false, [], 1⟩

/-- A layer tree is a root and is prerolled under the identity matrix. -/
def prerolled (root : Layer) : Layer :=
  (root.Preroll false preroll_context SkMatrix.I).1

/-- The path `SkPath().addRect(SkRect::MakeLTRB(0, 0, 50, 50))`. -/
def path1 : SkPath := ⟨SkRect.MakeLTRB 0 0 50 50, 1⟩

/-- The leaf `m1`, shared by the trees. -/
def m1 : Layer := .mock (LayerBase.initial 1) path1 ⟨0, false⟩ SkMatrix.I SkRect.MakeEmpty

/-- The tree `t1`: `m1` under `Translate(10, 10)` (layer 2). -/
def t1 : Layer :=
  prerolled (.container (LayerBase.initial 100)
    [.transform (LayerBase.initial 2) (SkMatrix.Translate 10 10) [m1]])

/-- The tree `t2`: `m1` under `Translate(20, 20)` (layer 3). -/
def t2 : Layer :=
  prerolled (.container (LayerBase.initial 101)
    [.transform (LayerBase.initial 3) (SkMatrix.Translate 20 20) [m1]])

/-- The assignments of the test: layer 3 replaces layer 2 and layer 4
replaces layer 3. -/
def assigned : OldLayerAssignment :=
  fun n => if n = 3 then some 2 else if n = 4 then some 3 else none

end testing

namespace Animator

/-- Whether the step, taken in state `s`, runs `BeginFrame`: it is the firing
of a registered vsync callback while `regenerate_layer_tree_` is set. -/
def beginsFrame (s : Animator) : Step → Bool
  | .vsync _ _ _ => s.waiter_.callbacks != 0 && s.regenerate_layer_tree_
  | _ => false

/-- The number of `BeginFrame` runs in a sequence of steps from state `s`. -/
def countBeginFrames : Animator → List Step → Nat
  | _, [] => 0
  | s, st :: rest => (if s.beginsFrame st then 1 else 0) + countBeginFrames (s.step st) rest

/-- What the idle closures depend on besides `frame_scheduled_`: the current
`notify_idle_task_id_` and the delayed closures posted so far. -/
def idleView (s : Animator) : Nat × List Nat :=
  (s.notify_idle_task_id_, s.task_runners_.ui_delayed_tasks)

end Animator

namespace Animator

/-- The state in which `OnAnimatorBeginFrame` returns: the frame deadline is
set, the delegate has been called and has made the calls of `response`. -/
def afterProducerCallback (s : Animator) (clk : BeginFrameClock) (response : List Call) :
    Animator :=
  let frame_target_time :=
    match s.frame_timings_recorder_ with
    | some r => r.GetVsyncTargetTime
    | none => 0
  let s :=
    { s with
      dart_frame_deadline_ := FxlToDartOrEarlier frame_target_time clk.dart_now clk.fxl_now }
  let s := s.emit (.OnAnimatorBeginFrame frame_target_time)
  response.foldl call s

end Animator

namespace Animator

end Animator

/-! ### The values of `TEST_F(TransformLayerTest, Simple)` and `Nested` -/

namespace testing

/-- The path `child_path.addRect(5.0f, 6.0f, 20.5f, 21.5f)`. -/
def child_path : SkPath := ⟨SkRect.MakeLTRB 5 6 (41 / 2) (43 / 2), 2⟩

/-- The cull rectangle `SkRect::MakeXYWH(2.0f, 2.0f, 14.0f, 14.0f)`. -/
def cull_rect : SkRect := SkRect.MakeXYWH 2 2 14 14

/-- The matrix `SkMatrix::Translate(-0.5f, -0.5f)` the tests preroll under. -/
def initial_transform : SkMatrix := SkMatrix.Translate (-1 / 2) (-1 / 2)

/-- The matrix `SkMatrix::Translate(2.5f, 2.5f)` of the transform layers. -/
def layer_transform : SkMatrix := SkMatrix.Translate (5 / 2) (5 / 2)

/-- The inverse of `layer_transform`. -/
def inverse_layer_transform : SkMatrix := SkMatrix.Translate (-5 / 2) (-5 / 2)

/-- The leaf `MockLayer(child_path, SkPaint())`. -/
def mock_layer : Layer :=
  .mock (LayerBase.initial 1) child_path ⟨0, false⟩ SkMatrix.I SkRect.MakeEmpty

/-- The preroll context of the test, with its cull rectangle set. -/
def preroll_context_culled : PrerollContext := { preroll_context with cull_rect := cull_rect }

end testing

namespace testing

/-- A shear: `(x, y)` maps to `(x + y, y)`. -/
def shear : SkMatrix := ⟨1, 1, 0, 0, 1, 0⟩

/-- A leaf whose path is a vertical segment: its bounds (0, 0, 0, 10) have no
width. -/
def segment_layer : Layer :=
  .mock (LayerBase.initial 1) ⟨SkRect.MakeLTRB 0 0 0 10, 3⟩ ⟨0, false⟩ SkMatrix.I
    SkRect.MakeEmpty

end testing

/-! ### Trees that stand unchanged for the tree of the previous frame -/

namespace Layer

/-- Whether the subtree `layer` stands unchanged for the subtree `old`: the
own properties of the two roots are the same, they have the same number of
children, and each child replaces the old child at its position and stands
unchanged for it. -/
def unchangedFrom (assigned : OldLayerAssignment) : Layer → Layer → Bool
  | .mock base path paint pm pc, old =>
    sameProperties (.mock base path paint pm pc) old
  | .container base layers, old =>
    sameProperties (.container base layers) old && childrenUnchanged assigned layers old.layers
  | .transform base transform_ layers, old =>
    sameProperties (.transform base transform_ layers) old &&
      childrenUnchanged assigned layers old.layers
  | .texture base of sz id fr sm, old =>
    sameProperties (.texture base of sz id fr sm) old
  | .physicalShape base c sc e p cb layers, old =>
    sameProperties (.physicalShape base c sc e p cb layers) old &&
      childrenUnchanged assigned layers old.layers
where
  /-- The children stand unchanged, position by position, for the old
  children. -/
  childrenUnchanged (assigned : OldLayerAssignment) : List Layer → List Layer → Bool
    | [], [] => true
    | [], _ :: _ => false
    | _ :: _, [] => false
    | layer :: rest, o :: olds =>
      IsReplacing assigned layer o && unchangedFrom assigned layer o &&
        childrenUnchanged assigned rest olds

/-- Whether the tree `layer`, before preroll, has the shape and the
properties of the tree `old`: the own properties (transforms, clips, paint
parameters) of the two roots are equal, they have the same number of children,
and each child replaces the old child at its position and has its shape and
properties. -/
def sameTree (assigned : OldLayerAssignment) : Layer → Layer → Bool
  | .mock _ path paint _ _, old => LayerProps.mock path paint == old.props
  | .container _ layers, old =>
    LayerProps.container == old.props && sameChildren assigned layers old.layers
  | .transform _ transform_ layers, old =>
    LayerProps.transform transform_ == old.props && sameChildren assigned layers old.layers
  | .texture _ of sz id fr sm, old => LayerProps.texture of sz id fr sm == old.props
  | .physicalShape _ c sc e p cb layers, old =>
    LayerProps.physicalShape c sc e p cb == old.props && sameChildren assigned layers old.layers
where
  /-- The children have, position by position, the shape and the properties
  of the old children. -/
  sameChildren (assigned : OldLayerAssignment) : List Layer → List Layer → Bool
    | [], [] => true
    | [], _ :: _ => false
    | _ :: _, [] => false
    | layer :: rest, o :: olds =>
      IsReplacing assigned layer o && sameTree assigned layer o &&
        sameChildren assigned rest olds

end Layer

namespace testing

/-- The tree `t3`: `m1` under `Translate(20, 20)` (layer 4). -/
def t3 : Layer :=
  prerolled (.container (LayerBase.initial 102)
    [.transform (LayerBase.initial 4) (SkMatrix.Translate 20 20) [m1]])

end testing

/-- The rectangle translated by `(dx, dy)`. -/
def SkRect.makeOffset (r : SkRect) (dx dy : ℚ) : SkRect :=
  ⟨r.fLeft + dx, r.fTop + dy, r.fRight + dx, r.fBottom + dy⟩

/-- The new subtree `layer` differs from the old subtree `old` in one
transform layer only: somewhere below, a transform layer with matrix
`transform_` over the single child `child` stands where the old tree has a
transform layer with matrix `old_transform_` over `old_child`, and `child`
stands unchanged for `old_child`; on the way down to it every layer has the
properties of its counterpart, the layer on the way replaces the old layer at
its position, and the siblings before and after it stand unchanged for their
counterparts. The first matrix is the one accumulated above `layer`, the last
one the one accumulated above the transform layer that changed. -/
inductive Layer.DiffersInOneTransform (assigned : OldLayerAssignment)
    (transform_ old_transform_ : SkMatrix) (child old_child : Layer) :
    SkMatrix → Layer → Layer → SkMatrix → Prop where
  | here (matrix : SkMatrix) (base old_base : LayerBase) :
    child.unchangedFrom assigned old_child = true →
    Layer.DiffersInOneTransform assigned transform_ old_transform_ child old_child matrix
      (.transform base transform_ [child]) (.transform old_base old_transform_ [old_child])
      matrix
  | under (matrix at_matrix : SkMatrix) (parent old_parent layer old : Layer)
      (before old_before after old_after : List Layer) :
    parent.sameProperties old_parent = true →
    parent.layers = before ++ layer :: after →
    old_parent.layers = old_before ++ old :: old_after →
    Layer.unchangedFrom.childrenUnchanged assigned before old_before = true →
    Layer.unchangedFrom.childrenUnchanged assigned after old_after = true →
    Layer.IsReplacing assigned layer old = true →
    Layer.DiffersInOneTransform assigned transform_ old_transform_ child old_child
      (parent.props.childMatrix matrix) layer old at_matrix →
    Layer.DiffersInOneTransform assigned transform_ old_transform_ child old_child matrix
      parent old_parent at_matrix

namespace Layer

end Layer

namespace testing

/-- The previous tree of a first frame, `MockLayerTree()`: a root without
children. -/
def empty_tree : Layer := .container (LayerBase.initial 0) []

end testing

/-! ### The trees of `TEST_F(TransformLayerLayerDiffTest, TransformNested)` -/

namespace testing.TransformNested

/-- The helper `CreateContainerLayer(std::make_shared<MockLayer>(path1))`. -/
def CreateContainerLayer (container_id mock_id : Nat) : Layer :=
  .container (LayerBase.initial container_id)
    [.mock (LayerBase.initial mock_id) path1 ⟨0, false⟩ SkMatrix.I SkRect.MakeEmpty]

def m1 : Layer := CreateContainerLayer 21 31

def m2 : Layer := CreateContainerLayer 22 32

def m3 : Layer := CreateContainerLayer 23 33

def transform1_1 : Layer := .transform (LayerBase.initial 11) (SkMatrix.Translate 10 10) [m1]

def transform1_2 : Layer := .transform (LayerBase.initial 12) (SkMatrix.Translate 100 100) [m2]

def transform1_3 : Layer := .transform (LayerBase.initial 13) (SkMatrix.Translate 200 200) [m3]

def transform1 : Layer :=
  .transform (LayerBase.initial 10) (SkMatrix.Scale 2 2) [transform1_1, transform1_2, transform1_3]

/-- The tree `l1`. -/
def l1 : Layer := prerolled (.container (LayerBase.initial 200) [transform1])

def transform2_1 : Layer := .transform (LayerBase.initial 41) (SkMatrix.Translate 10 10) [m1]

def transform2_2 : Layer := .transform (LayerBase.initial 42) (SkMatrix.Translate 100 101) [m2]

def transform2_3 : Layer := .transform (LayerBase.initial 43) (SkMatrix.Translate 200 200) [m3]

def transform2 : Layer :=
  .transform (LayerBase.initial 40) (SkMatrix.Scale 2 2) [transform2_1, transform2_2, transform2_3]

/-- The tree `l2`. -/
def l2 : Layer := prerolled (.container (LayerBase.initial 201) [transform2])

/-- The assignments of the first diff of `l2`: the three inner transform
layers replace their counterparts, `transform2` replaces nothing. -/
def assigned_inner : OldLayerAssignment :=
  fun n => if n = 41 then some 11 else if n = 42 then some 12 else if n = 43 then some 13 else none

/-- The assignments after `transform2->AssignOldLayer(transform1.get())`. -/
def assigned_all : OldLayerAssignment :=
  fun n => if n = 40 then some 10 else assigned_inner n

end testing.TransformNested

namespace Animator

/-- The method `FrameParity`: the tag the timeline uses for the current
frame. -/
def FrameParity (s : Animator) : String :=
  match s.frame_timings_recorder_ with
  | none => "even"
  | some r =>
    let frame_number := r.GetFrameNumber
    if frame_number % 2 ≠ 0 then "even" else "odd"

end Animator

/-- Whether the event is a call of the pipeline's `Produce`. -/
def Event.isProduce : Event → Bool
  | .Produce _ => true
  | _ => false

/-- Whether the event is a call of `OnAnimatorBeginFrame`. -/
def Event.isOnAnimatorBeginFrame : Event → Bool
  | .OnAnimatorBeginFrame _ => true
  | _ => false

/-- Whether the slot is reserved by a continuation that has not been
completed. -/
def Slot.isReserved {R : Type} (s : Slot R) : Bool :=
  match s.state with
  | .reserved => true
  | _ => false

namespace Animator

/-- The number of calls of `Produce` the animator has made so far. -/
def produceCalls (s : Animator) : Nat :=
  s.events.countP Event.isProduce

/-- The number of calls of `OnAnimatorBeginFrame` the animator has made so
far. -/
def beginFrameCalls (s : Animator) : Nat :=
  s.events.countP Event.isOnAnimatorBeginFrame

/-- The number of slots of the pipeline that are reserved and not yet
completed. -/
def reservedSlots (s : Animator) : Nat :=
  s.layer_tree_pipeline_.slots.countP Slot.isReserved

/-- Whether the call is a `Render`. -/
def Call.isRender : Call → Bool
  | .Render _ _ => true
  | _ => false

/-- Whether the step can complete the held continuation: it is a `Render`
call, or a vsync firing whose producer callback calls `Render`. -/
def Step.renders : Step → Bool
  | .call c => c.isRender
  | .vsync _ _ response => response.any Call.isRender
  | _ => false

/-- The held continuation and the reserved slots agree: the animator holds no
continuation and no slot is reserved, or it holds a continuation bound to a
reserved slot and that is the only reserved slot. -/
def ContinuationInv (s : Animator) : Prop :=
  (s.producer_continuation_.slot = none ∧ s.reservedSlots = 0) ∨
    ∃ (i g : Nat), s.producer_continuation_.slot = some i ∧
      s.layer_tree_pipeline_.slots[i]? = some ⟨g, .reserved⟩ ∧ s.reservedSlots = 1

end Animator

/-! ## Locale parsing (`shell/platform/linux/fl_engine.cc`) -/

/-- The C library function `strrchr` on the characters of a string (the
characters before its terminator): the position of the last occurrence of the
character, if there is one. -/
def strrchr : List Char → Char → Option Nat
  | [], _ => none
  | x :: xs, c =>
    match strrchr xs c with
    | some i => some (i + 1)
    | none => if x = c then some 0 else none

/-- The four outputs of `parse_locale`; a null output is `none`. -/
structure ParsedLocale where
  language : List Char
  territory : Option (List Char)
  codeset : Option (List Char)
  modifier : Option (List Char)
deriving DecidableEq, Repr

/-- The function `parse_locale`. Writing the terminator at the match cuts
the working copy `l` there; the output is the copy of what follows the
match. -/
def parse_locale (locale : List Char) : ParsedLocale :=
  let l := locale
  let (modifier, l) :=
    match strrchr l '@' with
    | some i => (some (l.drop (i + 1)), l.take i)
    | none => (none, l)
  let (codeset, l) :=
    match strrchr l '.' with
    | some i => (some (l.drop (i + 1)), l.take i)
    | none => (none, l)
  let (territory, l) :=
    match strrchr l '_' with
    | some i => (some (l.drop (i + 1)), l.take i)
    | none => (none, l)
  { language := l, territory := territory, codeset := codeset, modifier := modifier }

/-- One step of `parse_locale`: cut the string at the last occurrence of the
separator, giving what follows it and what precedes it; without an occurrence
the first part is null and the string stays whole. -/
def cut_at_last (l : List Char) (separator : Char) : Option (List Char) × List Char :=
  match strrchr l separator with
  | some i => (some (l.drop (i + 1)), l.take i)
  | none => (none, l)

/-- An optional part of a locale name with its separator in front; nothing
when the part is omitted. -/
def locale_part (separator : Char) (part : Option (List Char)) : List Char :=
  match part with
  | some p => separator :: p
  | none => []

/-- The composition of a locale name, "language[_territory][.codeset][@modifier]":
each optional part that is present follows its separator. -/
def compose_locale (language : List Char) (territory codeset modifier : Option (List Char)) :
    List Char :=
  language ++ locale_part '_' territory ++ locale_part '.' codeset ++ locale_part '@' modifier

/-! ## The commands of a physical-shape layer, by clip behaviour -/

/-- The commands a physical-shape layer issues before it paints its children,
listed by clip behaviour: a shadow first when the elevation is not 0; then, for
none, hard-edge and anti-aliased, the fill with `drawPath`, the save and no
clip, `clipPath(path, false)` or `clipPath(path, true)`; for
anti-aliased-with-save-layer the save, `clipPath(path, true)`,
`saveLayer(paint_bounds)` and `drawPaint`. -/
def expectedPaintCommands (color shadow_color : SkColor) (elevation : ℚ) (path : SkPath)
    (clip_behavior : Clip) (paint_bounds : SkRect) (frame_device_pixel_ratio : ℚ) :
    List DrawCall :=
  (if elevation ≠ 0 then
      [⟨.leaf_nodes_canvas,
        .drawShadow path shadow_color elevation (SkColorGetA color != 0xff)
          frame_device_pixel_ratio⟩]
    else []) ++
    match clip_behavior with
    | .none =>
      [⟨.leaf_nodes_canvas, .drawPath path ⟨color, true⟩⟩, ⟨.internal_nodes_canvas, .save⟩]
    | .hardEdge =>
      [⟨.leaf_nodes_canvas, .drawPath path ⟨color, true⟩⟩, ⟨.internal_nodes_canvas, .save⟩,
        ⟨.internal_nodes_canvas, .clipPath path false⟩]
    | .antiAlias =>
      [⟨.leaf_nodes_canvas, .drawPath path ⟨color, true⟩⟩, ⟨.internal_nodes_canvas, .save⟩,
        ⟨.internal_nodes_canvas, .clipPath path true⟩]
    | .antiAliasWithSaveLayer =>
      [⟨.internal_nodes_canvas, .save⟩, ⟨.internal_nodes_canvas, .clipPath path true⟩,
        ⟨.internal_nodes_canvas, .saveLayer paint_bounds⟩,
        ⟨.leaf_nodes_canvas, .drawPaint ⟨color, true⟩⟩]

/-- The number of saves among the commands a physical-shape layer issues
before its children: the save, and the save layer when there is one. -/
def expectedSaves (clip_behavior : Clip) : Nat :=
  if clip_behavior = .antiAliasWithSaveLayer then 2 else 1

namespace testing

/-- The layer of `TEST_F(TextureLayerTest, InvalidTexture)`: offset (0, 0),
size 8x8, texture id 0, not frozen. -/
def texture_layer : Layer := .texture (LayerBase.initial 1) (0, 0) (8, 8) 0 false 0

/-- The paint context of the layer tests: nothing drawn yet, no texture
registered. -/
def paint_context : PaintContext := ⟨[], 1, [], [], 1⟩

end testing

namespace Layer

end Layer

/-! ### A shape whose child paints outside it -/

namespace testing.Overflow

/-- A leaf with the bounds (-50, -50, 200, 200). -/
def leaf : Layer :=
  .mock (LayerBase.initial 5) ⟨SkRect.MakeLTRB (-50) (-50) 200 200, 3⟩ ⟨0, false⟩ SkMatrix.I
    SkRect.MakeEmpty

/-- A physical-shape layer with the path of bounds (0, 0, 50, 50), elevation 0
and no clip, over the leaf. -/
def shape : Layer := .physicalShape (LayerBase.initial 6) 0 0 0 path1 Clip.none [leaf]

/-- The previous tree: the shape under `Translate(10, 10)` (layer 2). -/
def t1 : Layer :=
  prerolled (.container (LayerBase.initial 100)
    [.transform (LayerBase.initial 2) (SkMatrix.Translate 10 10) [shape]])

/-- The new tree: the shape under `Translate(20, 20)` (layer 3, which replaces
layer 2). -/
def t2 : Layer :=
  prerolled (.container (LayerBase.initial 101)
    [.transform (LayerBase.initial 3) (SkMatrix.Translate 20 20) [shape]])

end testing.Overflow

/-! ### A change two levels below an unchanged container -/

namespace testing.NestedChange

/-- The assignments: the layers 60, 61 and 62 replace 50, 51 and 52. -/
def assigned : OldLayerAssignment :=
  fun n => if n = 60 then some 50 else if n = 61 then some 51 else if n = 62 then some 52
    else none

end testing.NestedChange

/-! # Theorems -/

/-! ### List bookkeeping used by the pipeline invariant -/

theorem countP_modify_of_getElem? {α : Type} (q : α → Bool) (f : α → α) :
    ∀ (l : List α) (i : Nat) (a : α), l[i]? = some a →
      (l.modify f i).countP q + (if q a then 1 else 0)
        = l.countP q + (if q (f a) then 1 else 0) := by
  intro l
  induction l with
  | nil => intro i a h; simp at h
  | cons x xs ih =>
    intro i a h
    cases i with
    | zero =>
      simp at h
      subst h
      simp [List.modify, List.countP_cons]
      omega
    | succ n =>
      simp at h
      have := ih n a h
      simp [List.modify, List.countP_cons] at this ⊢
      omega

theorem exists_free_of_countP_lt {R : Type} (l : List (Slot R))
    (h : l.countP Slot.isOccupied < l.length) : ∃ x, x ∈ l ∧ Slot.isFree x = true := by
  by_contra hne
  push_neg at hne
  have hall : ∀ x ∈ l, Slot.isOccupied x = true := by
    intro x hx
    have := hne x hx
    simp [Slot.isOccupied, this]
  have : l.countP Slot.isOccupied = l.length := List.countP_eq_length.mpr hall
  omega

/-! ### The pipeline invariant -/

theorem PipelineClient.inv_init (R : Type) (d : Nat) :
    (PipelineClient.init R d).Inv d := by
  refine ⟨by simp [PipelineClient.init, Pipeline.create], ?_, ?_, ?_, ?_, ?_, ?_⟩
  · have : (List.replicate d (⟨0, .empty⟩ : Slot R)).countP Slot.isOccupied = 0 := by
      rw [List.countP_eq_zero]
      intro a ha
      rw [List.eq_of_mem_replicate ha]
      simp [Slot.isOccupied, Slot.isFree]
    simp [PipelineClient.init, Pipeline.create, this]
  · have : (List.replicate d (⟨0, .empty⟩ : Slot R)).countP Slot.isOccupied = 0 := by
      rw [List.countP_eq_zero]
      intro a ha
      rw [List.eq_of_mem_replicate ha]
      simp [Slot.isOccupied, Slot.isFree]
    simp [PipelineClient.init, Pipeline.create, this]
  · simp [PipelineClient.init, Pipeline.create]
  · simp [PipelineClient.init, Pipeline.create]
  · simp [PipelineClient.init]
  · simp [PipelineClient.init]

theorem Slot.isFree_iff {R : Type} (a : Slot R) :
    a.isFree = true ↔ a.state = .empty := by
  cases a with
  | mk g st => cases st <;> simp [Slot.isFree]

theorem Pipeline.Produce_of_count_zero {R : Type} (p : Pipeline R)
    (h : p.empty_.count = 0) : p.Produce = (ProducerContinuation.none, p) := by
  simp [Pipeline.Produce, Semaphore.TryWait, h]

theorem Pipeline.Produce_of_free {R : Type} (p : Pipeline R)
    (h : p.empty_.count ≠ 0)
    (hfree : p.slots.countP Slot.isOccupied < p.slots.length) :
    ∃ i g, p.slots[i]? = some ⟨g, .empty⟩ ∧
      p.Produce = (⟨some i⟩,
        { p with
          empty_ := ⟨p.empty_.count - 1⟩
          slots := p.slots.modify (fun s => ⟨s.generation + 1, .reserved⟩) i }) := by
  have hsome : (p.slots.findIdx? Slot.isFree).isSome = true := by
    rw [List.findIdx?_isSome, List.any_eq_true]
    exact exists_free_of_countP_lt p.slots hfree
  obtain ⟨i, hi⟩ := Option.isSome_iff_exists.mp hsome
  have hspec := List.findIdx?_eq_some_iff_getElem.mp hi
  obtain ⟨hlt, hfr, -⟩ := hspec
  have hst := (Slot.isFree_iff _).mp hfr
  refine ⟨i, (p.slots[i]).generation, ?_, ?_⟩
  · rw [List.getElem?_eq_getElem hlt]
    congr 1
    cases hs : p.slots[i] with
    | mk g st =>
      rw [hs] at hst
      simp at hst
      simp [hst]
  · simp [Pipeline.Produce, Semaphore.TryWait, h, hi]

theorem PipelineClient.Inv.produce {R : Type} {d : Nat} {s : PipelineClient R}
    (h : s.Inv d) : (s.step .produce).Inv d := by
  by_cases hc : s.pipeline.empty_.count = 0
  · have hp := Pipeline.Produce_of_count_zero s.pipeline hc
    have hstep : s.step .produce = { s with held := s.held ++ [ProducerContinuation.none] } := by
      simp [PipelineClient.step, hp, ProducerContinuation.none, ProducerContinuation.valid]
    rw [hstep]
    refine ⟨h.length_slots, h.sem, h.counters, h.queue_nodup, h.queue_ready, ?_, ?_⟩
    · intro k i hk
      rcases Nat.lt_or_ge k s.held.length with hlt | hge
      · rw [List.getElem?_append_left hlt] at hk
        exact h.held_reserved k i hk
      · rw [List.getElem?_append_right hge] at hk
        cases hkk : k - s.held.length <;> simp [hkk, ProducerContinuation.none] at hk
    · intro k k' i hk hk'
      rcases Nat.lt_or_ge k s.held.length with hlt | hge
      · rcases Nat.lt_or_ge k' s.held.length with hlt' | hge'
        · rw [List.getElem?_append_left hlt] at hk
          rw [List.getElem?_append_left hlt'] at hk'
          exact h.held_inj k k' i hk hk'
        · rw [List.getElem?_append_right hge'] at hk'
          cases hkk : k' - s.held.length <;> simp [hkk, ProducerContinuation.none] at hk'
      · rw [List.getElem?_append_right hge] at hk
        cases hkk : k - s.held.length <;> simp [hkk, ProducerContinuation.none] at hk
  · have hfree : s.pipeline.slots.countP Slot.isOccupied < s.pipeline.slots.length := by
      have h1 := h.sem
      have h2 := h.length_slots
      omega
    obtain ⟨i, g, hi, hp⟩ := Pipeline.Produce_of_free s.pipeline hc hfree
    have hstep : s.step .produce =
        { s with
          pipeline :=
            { s.pipeline with
              empty_ := ⟨s.pipeline.empty_.count - 1⟩
              slots := s.pipeline.slots.modify (fun s => ⟨s.generation + 1, .reserved⟩) i }
          held := s.held ++ [⟨some i⟩]
          produced := s.produced + 1 } := by
      simp [PipelineClient.step, hp, ProducerContinuation.valid]
    rw [hstep]
    have hcount := countP_modify_of_getElem? Slot.isOccupied
      (fun s : Slot R => ⟨s.generation + 1, .reserved⟩) s.pipeline.slots i _ hi
    simp [Slot.isOccupied, Slot.isFree] at hcount
    have hne_ready : ∀ j ∈ s.pipeline.queue, i ≠ j := by
      intro j hj hij
      obtain ⟨g', x, hx⟩ := h.queue_ready j hj
      rw [← hij, hi] at hx
      simp at hx
    have hne_held : ∀ (k j : Nat), s.held[k]? = some ⟨some j⟩ → i ≠ j := by
      intro k j hk hij
      obtain ⟨g', hx⟩ := h.held_reserved k j hk
      rw [← hij, hi] at hx
      simp at hx
    refine ⟨by simpa using h.length_slots, ?_, ?_, h.queue_nodup, ?_, ?_, ?_⟩
    · have h1 := h.sem
      show s.pipeline.empty_.count - 1 + List.countP Slot.isOccupied
        (s.pipeline.slots.modify (fun s => ⟨s.generation + 1, .reserved⟩) i) = d
      omega
    · have h1 := h.counters
      show s.consumed + List.countP Slot.isOccupied
        (s.pipeline.slots.modify (fun s => ⟨s.generation + 1, .reserved⟩) i) = s.produced + 1
      omega
    · intro j hj
      obtain ⟨g', x, hx⟩ := h.queue_ready j hj
      refine ⟨g', x, ?_⟩
      simp only []
      rw [List.getElem?_modify_ne _ _ (hne_ready j hj)]
      exact hx
    · intro k j hk
      simp only [] at hk ⊢
      rcases Nat.lt_or_ge k s.held.length with hlt | hge
      · rw [List.getElem?_append_left hlt] at hk
        obtain ⟨g', hx⟩ := h.held_reserved k j hk
        refine ⟨g', ?_⟩
        rw [List.getElem?_modify_ne _ _ (hne_held k j hk)]
        exact hx
      · rw [List.getElem?_append_right hge] at hk
        cases hkk : k - s.held.length with
        | zero =>
          simp [hkk] at hk
          subst hk
          refine ⟨g + 1, ?_⟩
          rw [List.getElem?_modify_eq, hi]
          rfl
        | succ n => simp [hkk] at hk
    · intro k k' j hk hk'
      simp only [] at hk hk'
      rcases Nat.lt_or_ge k s.held.length with hlt | hge
      · rcases Nat.lt_or_ge k' s.held.length with hlt' | hge'
        · rw [List.getElem?_append_left hlt] at hk
          rw [List.getElem?_append_left hlt'] at hk'
          exact h.held_inj k k' j hk hk'
        · rw [List.getElem?_append_left hlt] at hk
          rw [List.getElem?_append_right hge'] at hk'
          cases hkk : k' - s.held.length with
          | zero =>
            simp [hkk] at hk'
            exact absurd hk' (hne_held k j hk)
          | succ n => simp [hkk] at hk'
      · rw [List.getElem?_append_right hge] at hk
        cases hkk : k - s.held.length with
        | zero =>
          simp [hkk] at hk
          rcases Nat.lt_or_ge k' s.held.length with hlt' | hge'
          · rw [List.getElem?_append_left hlt'] at hk'
            exact absurd hk (hne_held k' j hk')
          · rw [List.getElem?_append_right hge'] at hk'
            cases hkk' : k' - s.held.length with
            | zero => omega
            | succ n => simp [hkk'] at hk'
        | succ n => simp [hkk] at hk

theorem PipelineClient.Inv.complete {R : Type} {d : Nat} {s : PipelineClient R}
    (h : s.Inv d) (k : Nat) (x : R) : (s.step (.complete k x)).Inv d := by
  cases hk : s.held[k]? with
  | none =>
    have : s.step (.complete k x) = s := by simp [PipelineClient.step, hk]
    rw [this]; exact h
  | some c =>
    cases c with
    | mk slot =>
      cases slot with
      | none =>
        have hset : s.held.set k ⟨Option.none⟩ = s.held := by
          apply List.ext_getElem?
          intro j
          rw [List.getElem?_set]
          by_cases hjk : k = j
          · subst hjk
            have hlt : k < s.held.length := (List.getElem?_eq_some_iff.mp hk).1
            simp [hlt, hk]
          · simp [hjk]
        have : s.step (.complete k x) = s := by
          simp [PipelineClient.step, hk, ProducerContinuation.Complete, hset]
        rw [this]; exact h
      | some i =>
        obtain ⟨g, hi⟩ := h.held_reserved k i hk
        have hstep : s.step (.complete k x) =
            { s with
              pipeline :=
                { s.pipeline with
                  slots := s.pipeline.slots.modify (fun s => ⟨s.generation, .ready x⟩) i
                  queue := s.pipeline.queue ++ [i] }
              held := s.held.set k ProducerContinuation.none } := by
          simp [PipelineClient.step, hk, ProducerContinuation.Complete]
        rw [hstep]
        have hcount := countP_modify_of_getElem? Slot.isOccupied
          (fun s : Slot R => ⟨s.generation, .ready x⟩) s.pipeline.slots i _ hi
        simp [Slot.isOccupied, Slot.isFree] at hcount
        have hnot_mem : i ∉ s.pipeline.queue := by
          intro hmem
          obtain ⟨g', y, hy⟩ := h.queue_ready i hmem
          rw [hi] at hy
          simp at hy
        have hheld : ∀ (k' j : Nat),
            (s.held.set k ProducerContinuation.none)[k']? = some ⟨some j⟩ →
            k' ≠ k ∧ s.held[k']? = some ⟨some j⟩ := by
          intro k' j hk'
          rw [List.getElem?_set] at hk'
          by_cases hkk : k = k'
          · subst hkk
            rw [if_pos rfl] at hk'
            split at hk' <;> simp [ProducerContinuation.none] at hk'
          · simp [hkk] at hk'
            exact ⟨fun e => hkk e.symm, hk'⟩
        refine ⟨by simpa using h.length_slots, ?_, ?_, ?_, ?_, ?_, ?_⟩
        · have h1 := h.sem
          show s.pipeline.empty_.count + List.countP Slot.isOccupied
            (s.pipeline.slots.modify (fun s => ⟨s.generation, .ready x⟩) i) = d
          omega
        · have h1 := h.counters
          show s.consumed + List.countP Slot.isOccupied
            (s.pipeline.slots.modify (fun s => ⟨s.generation, .ready x⟩) i) = s.produced
          omega
        · show (s.pipeline.queue ++ [i]).Nodup
          rw [List.nodup_append]
          refine ⟨h.queue_nodup, List.nodup_singleton i, ?_⟩
          intro a ha hb
          simp at hb
          subst hb
          exact hnot_mem ha
        · intro j hj
          show ∃ (g : Nat) (y : R),
            (s.pipeline.slots.modify (fun s => ⟨s.generation, .ready x⟩) i)[j]? = _
          have hj' : j ∈ s.pipeline.queue ∨ j = i := by
            simpa using hj
          rcases hj' with hj' | hj'
          · obtain ⟨g', y, hy⟩ := h.queue_ready j hj'
            have hne : i ≠ j := fun e => hnot_mem (e ▸ hj')
            exact ⟨g', y, by rw [List.getElem?_modify_ne _ _ hne]; exact hy⟩
          · subst hj'
            exact ⟨g, x, by rw [List.getElem?_modify_eq, hi]; rfl⟩
        · intro k' j hk'
          obtain ⟨hne, hold⟩ := hheld k' j hk'
          obtain ⟨g', hg'⟩ := h.held_reserved k' j hold
          have hij : i ≠ j := by
            intro e
            subst e
            exact hne (h.held_inj k' k i hold hk)
          exact ⟨g', by
            show (s.pipeline.slots.modify (fun s => ⟨s.generation, .ready x⟩) i)[j]? = _
            rw [List.getElem?_modify_ne _ _ hij]; exact hg'⟩
        · intro k1 k2 j h1 h2
          exact h.held_inj k1 k2 j (hheld k1 j h1).2 (hheld k2 j h2).2

theorem PipelineClient.Inv.consume {R : Type} {d : Nat} {s : PipelineClient R}
    (h : s.Inv d) : (s.step .consume).Inv d := by
  cases hq : s.pipeline.queue with
  | nil =>
    have : s.step .consume = s := by
      simp [PipelineClient.step, Pipeline.Consume, hq]
    rw [this]; exact h
  | cons i rest =>
    obtain ⟨g, x, hi⟩ := h.queue_ready i (by simp [hq])
    have hstep : s.step .consume =
        { s with
          pipeline :=
            { s.pipeline with
              empty_ := ⟨s.pipeline.empty_.count + 1⟩
              slots := s.pipeline.slots.modify (fun s => ⟨s.generation, .empty⟩) i
              queue := rest }
          consumed := s.consumed + 1 } := by
      simp [PipelineClient.step, Pipeline.Consume, hq, hi, Semaphore.Signal]
    rw [hstep]
    have hcount := countP_modify_of_getElem? Slot.isOccupied
      (fun s : Slot R => ⟨s.generation, .empty⟩) s.pipeline.slots i _ hi
    simp [Slot.isOccupied, Slot.isFree] at hcount
    have hnd := h.queue_nodup
    rw [hq, List.nodup_cons] at hnd
    refine ⟨by simpa using h.length_slots, ?_, ?_, hnd.2, ?_, ?_, h.held_inj⟩
    · have h1 := h.sem
      show s.pipeline.empty_.count + 1 + List.countP Slot.isOccupied
        (s.pipeline.slots.modify (fun s => ⟨s.generation, .empty⟩) i) = d
      omega
    · have h1 := h.counters
      show s.consumed + 1 + List.countP Slot.isOccupied
        (s.pipeline.slots.modify (fun s => ⟨s.generation, .empty⟩) i) = s.produced
      omega
    · intro j hj
      have hj' : j ∈ rest := hj
      obtain ⟨g', y, hy⟩ := h.queue_ready j (by simp [hq, hj'])
      have hne : i ≠ j := fun e => hnd.1 (e ▸ hj')
      exact ⟨g', y, by
        show (s.pipeline.slots.modify (fun s => ⟨s.generation, .empty⟩) i)[j]? = _
        rw [List.getElem?_modify_ne _ _ hne]; exact hy⟩
    · intro k j hk
      obtain ⟨g', hg'⟩ := h.held_reserved k j hk
      have hne : i ≠ j := by
        intro e
        subst e
        rw [hi] at hg'
        simp at hg'
      exact ⟨g', by
        show (s.pipeline.slots.modify (fun s => ⟨s.generation, .empty⟩) i)[j]? = _
        rw [List.getElem?_modify_ne _ _ hne]; exact hg'⟩

theorem PipelineClient.Inv.step {R : Type} {d : Nat} {s : PipelineClient R}
    (h : s.Inv d) (op : PipelineOp R) : (s.step op).Inv d := by
  cases op with
  | produce => exact h.produce
  | complete k x => exact h.complete k x
  | consume => exact h.consume

theorem PipelineClient.Inv.run {R : Type} {d : Nat} (ops : List (PipelineOp R)) :
    ∀ {s : PipelineClient R}, s.Inv d → (s.run ops).Inv d := by
  induction ops with
  | nil => intro s h; exact h
  | cons op ops ih => intro s h; exact ih (h.step op)

theorem PipelineClient.Inv.outstanding_eq {R : Type} {d : Nat} {s : PipelineClient R}
    (h : s.Inv d) : s.outstanding + s.pipeline.empty_.count = d := by
  have h1 := h.sem
  have h2 := h.counters
  unfold PipelineClient.outstanding
  omega

theorem PipelineClient.Inv.produce_valid_iff {R : Type} {d : Nat} {s : PipelineClient R}
    (h : s.Inv d) : s.pipeline.Produce.1.valid = true ↔ s.outstanding < d := by
  have ho := h.outstanding_eq
  by_cases hc : s.pipeline.empty_.count = 0
  · rw [Pipeline.Produce_of_count_zero s.pipeline hc]
    simp [ProducerContinuation.none, ProducerContinuation.valid]
    omega
  · have hfree : s.pipeline.slots.countP Slot.isOccupied < s.pipeline.slots.length := by
      have h1 := h.sem
      have h2 := h.length_slots
      omega
    obtain ⟨i, g, -, hp⟩ := Pipeline.Produce_of_free s.pipeline hc hfree
    rw [hp]
    simp [ProducerContinuation.valid]
    omega

theorem PipelineClient.consumed_run_of_no_consume {R : Type} (ops : List (PipelineOp R)) :
    ∀ (s : PipelineClient R), (∀ op ∈ ops, op.isConsume = false) →
      (s.run ops).consumed = s.consumed := by
  induction ops with
  | nil => intro s _; rfl
  | cons op ops ih =>
    intro s hops
    have hop : op.isConsume = false := hops op (by simp)
    have hrest : ∀ o ∈ ops, o.isConsume = false := fun o ho => hops o (by simp [ho])
    show ((s.step op).run ops).consumed = s.consumed
    rw [ih (s.step op) hrest]
    cases op with
    | produce => rfl
    | complete k x =>
      simp only [PipelineClient.step]
      split <;> rfl
    | consume => simp [PipelineOp.isConsume] at hop

/-- C1: on a fresh pipeline of any depth `d`, after every finite sequence of
Produce / Complete / Consume operations the number of slots produced and not
yet consumed is at most `d`; and when the sequence holds no Consume and `d`
of its Produce calls succeeded, the next Produce (a total function, so it
returns) yields the empty continuation. -/
theorem pipeline_outstanding_le_depth (R : Type) (d : Nat) (ops : List (PipelineOp R)) :
    ((PipelineClient.init R d).run ops).outstanding ≤ d ∧
    ((∀ op ∈ ops, op.isConsume = false) →
      ((PipelineClient.init R d).run ops).produced = d →
      ((PipelineClient.init R d).run ops).pipeline.Produce.1.valid = false) := by
  have hinv : ((PipelineClient.init R d).run ops).Inv d :=
    PipelineClient.Inv.run ops (PipelineClient.inv_init R d)
  refine ⟨?_, ?_⟩
  · have := hinv.outstanding_eq
    omega
  · intro hno hprod
    have hcons := PipelineClient.consumed_run_of_no_consume ops (PipelineClient.init R d) hno
    have hout : ((PipelineClient.init R d).run ops).outstanding = d := by
      unfold PipelineClient.outstanding
      rw [hcons, hprod]
      rfl
    have hiff := hinv.produce_valid_iff
    cases hv : ((PipelineClient.init R d).run ops).pipeline.Produce.1.valid with
    | false => rfl
    | true =>
      have := hiff.mp hv
      omega

/-- Witness for C1 at depth 2: two successful Produce calls (one of them
completed) fill the pipeline and the third Produce is refused. -/
theorem pipeline_outstanding_le_depth_witness :
    ((PipelineClient.init Nat 2).run [.produce, .complete 0 7, .produce]).outstanding ≤ 2 ∧
    ((PipelineClient.init Nat 2).run
      [.produce, .complete 0 7, .produce]).pipeline.Produce.1.valid = false :=
  ⟨(pipeline_outstanding_le_depth Nat 2 [.produce, .complete 0 7, .produce]).1,
   (pipeline_outstanding_le_depth Nat 2 [.produce, .complete 0 7, .produce]).2
     (by decide) (by decide)⟩

/-- C7: for a (valid) continuation obtained from Produce and payloads `x1`,
`x2`, the first Complete returns true and leaves the bound slot ready with
payload `x1`; a second Complete on the same continuation returns false and
changes nothing, neither in the pipeline state left by the first call nor in
any later pipeline state `q`. -/
theorem continuation_second_complete_noop {R : Type} (p : Pipeline R) (x1 x2 : R)
    (hvalid : p.Produce.1.valid = true) :
    (p.Produce.1.Complete p.Produce.2 x1).1 = true ∧
    (∃ (i g : Nat), p.Produce.1.slot = some i ∧
      (p.Produce.1.Complete p.Produce.2 x1).2.2.slots[i]? = some ⟨g, .ready x1⟩) ∧
    (p.Produce.1.Complete p.Produce.2 x1).2.1.Complete
        (p.Produce.1.Complete p.Produce.2 x1).2.2 x2
      = (false, (p.Produce.1.Complete p.Produce.2 x1).2.1,
          (p.Produce.1.Complete p.Produce.2 x1).2.2) ∧
    ∀ q : Pipeline R,
      (p.Produce.1.Complete p.Produce.2 x1).2.1.Complete q x2
        = (false, (p.Produce.1.Complete p.Produce.2 x1).2.1, q) := by
  by_cases hc : p.empty_.count = 0
  · rw [Pipeline.Produce_of_count_zero p hc] at hvalid
    simp [ProducerContinuation.none, ProducerContinuation.valid] at hvalid
  · cases hf : p.slots.findIdx? Slot.isFree with
    | none =>
      have : p.Produce = (ProducerContinuation.none, p) := by
        simp [Pipeline.Produce, Semaphore.TryWait, hc, hf]
      rw [this] at hvalid
      simp [ProducerContinuation.none, ProducerContinuation.valid] at hvalid
    | some i =>
      have hp : p.Produce = (⟨some i⟩,
          { p with
            empty_ := ⟨p.empty_.count - 1⟩
            slots := p.slots.modify (fun s => ⟨s.generation + 1, .reserved⟩) i }) := by
        simp [Pipeline.Produce, Semaphore.TryWait, hc, hf]
      have hlt : i < p.slots.length := (List.findIdx?_eq_some_iff_getElem.mp hf).1
      rw [hp]
      refine ⟨rfl, ⟨i, (p.slots[i]).generation + 1, rfl, ?_⟩, rfl, fun q => rfl⟩
      simp [ProducerContinuation.Complete, List.getElem?_modify_eq,
        List.getElem?_eq_getElem hlt]

/-- Witness for C7 on a fresh pipeline of depth 2. -/
theorem continuation_second_complete_noop_witness :
    ((Pipeline.create Nat 2).Produce.1.Complete (Pipeline.create Nat 2).Produce.2 5).1 = true ∧
    ((Pipeline.create Nat 2).Produce.1.Complete (Pipeline.create Nat 2).Produce.2 5).2.1.Complete
        ((Pipeline.create Nat 2).Produce.1.Complete (Pipeline.create Nat 2).Produce.2 5).2.2 9
      = (false,
          ((Pipeline.create Nat 2).Produce.1.Complete (Pipeline.create Nat 2).Produce.2 5).2.1,
          ((Pipeline.create Nat 2).Produce.1.Complete (Pipeline.create Nat 2).Produce.2 5).2.2) :=
  ⟨(continuation_second_complete_noop (Pipeline.create Nat 2) 5 9 (by decide)).1,
   (continuation_second_complete_noop (Pipeline.create Nat 2) 5 9 (by decide)).2.2.1⟩

/-! ### Frame scheduler -/

/-- C3: with `paused_` set and no dimension change pending, `RequestFrame`
(with either argument) posts no `AwaitVSync` closure, registers nothing with
the vsync source, leaves the pending-frame semaphore and `frame_scheduled_`
as they were and does nothing to its collaborators. -/
theorem request_frame_paused_registers_nothing (s : Animator) (regenerate_layer_tree : Bool)
    (hpaused : s.paused_ = true) (hdim : s.dimension_change_pending_ = false) :
    (s.RequestFrame regenerate_layer_tree).task_runners_ = s.task_runners_ ∧
    (s.RequestFrame regenerate_layer_tree).waiter_ = s.waiter_ ∧
    (s.RequestFrame regenerate_layer_tree).pending_frame_semaphore_
      = s.pending_frame_semaphore_ ∧
    (s.RequestFrame regenerate_layer_tree).frame_scheduled_ = s.frame_scheduled_ ∧
    (s.RequestFrame regenerate_layer_tree).events = s.events := by
  cases regenerate_layer_tree <;> simp [Animator.RequestFrame, hpaused, hdim]

/-- Witness for C3: the freshly created animator after `Stop`. -/
theorem request_frame_paused_registers_nothing_witness :
    ((Animator.create false false).Stop.RequestFrame true).task_runners_
      = (Animator.create false false).Stop.task_runners_ ∧
    ((Animator.create false false).Stop.RequestFrame true).pending_frame_semaphore_
      = (Animator.create false false).Stop.pending_frame_semaphore_ ∧
    ((Animator.create false false).Stop.RequestFrame true).frame_scheduled_
      = (Animator.create false false).Stop.frame_scheduled_ :=
  have h := request_frame_paused_registers_nothing (Animator.create false false).Stop true
    (by decide) (by decide)
  ⟨h.1, h.2.2.1, h.2.2.2.1⟩

/-- C6: the callback registered with the vsync source runs `DrawLastLayerTree`
when `regenerate_layer_tree_` is false and `BeginFrame` when it is true. The
reuse path appends exactly one event to the record, the call
`OnAnimatorDrawLastLayerTree` with the received timings whose build start and
build end both hold the one clock reading; so it calls neither
`OnAnimatorBeginFrame` nor `Produce`, and it leaves the pipeline and the held
continuation untouched. -/
theorem vsync_callback_reuses_iff_not_regenerate (s : Animator)
    (frame_timings_recorder : FrameTimingsRecorder) (clk : Animator.BeginFrameClock)
    (response : List Animator.Call) :
    s.VsyncCallback frame_timings_recorder clk response
      = (if s.regenerate_layer_tree_ then s.BeginFrame frame_timings_recorder clk response
         else s.DrawLastLayerTree frame_timings_recorder clk.build_start) ∧
    (s.DrawLastLayerTree frame_timings_recorder clk.build_start).events
      = s.events ++ [.OnAnimatorDrawLastLayerTree
          { frame_timings_recorder with
            build_start := some clk.build_start
            build_end := some clk.build_start }] ∧
    (s.DrawLastLayerTree frame_timings_recorder clk.build_start).layer_tree_pipeline_
      = s.layer_tree_pipeline_ ∧
    (s.DrawLastLayerTree frame_timings_recorder clk.build_start).producer_continuation_
      = s.producer_continuation_ := by
  refine ⟨?_, rfl, rfl, rfl⟩
  cases h : s.regenerate_layer_tree_ <;>
    simp [Animator.VsyncCallback, Animator.CanReuseLastLayerTree, h]

theorem Animator.RequestFrame_of_not_canRegister (s : Animator) (b : Bool)
    (h : s.canRegister = false) :
    s.RequestFrame b = { s with regenerate_layer_tree_ := b || s.regenerate_layer_tree_ } := by
  unfold Animator.canRegister at h
  cases s
  rename_i tr w dl pl sem rec pc sz paused regen fs nid dim tf ev
  cases b <;> cases paused <;> cases dim <;>
    simp at h <;>
    simp [Animator.RequestFrame, Semaphore.TryWait, h]

theorem Animator.RequestFrame_of_canRegister (s : Animator) (b : Bool)
    (h : s.canRegister = true) :
    s.RequestFrame b =
      { s with
        regenerate_layer_tree_ := b || s.regenerate_layer_tree_
        pending_frame_semaphore_ := ⟨s.pending_frame_semaphore_.count - 1⟩
        task_runners_ := s.task_runners_.PostTask s.requestFrameNumber
        events := s.events ++ [.PostTask s.requestFrameNumber]
        frame_scheduled_ := true } := by
  unfold Animator.canRegister at h
  cases s
  rename_i tr w dl pl sem rec pc sz paused regen fs nid dim tf ev
  cases b <;> cases paused <;> cases dim <;>
    simp at h <;>
    simp [Animator.RequestFrame, Semaphore.TryWait, h, Animator.requestFrameNumber]

theorem Animator.RequestFrame_sem (s : Animator) (b : Bool) :
    (s.RequestFrame b).pending_frame_semaphore_.count + (s.RequestFrame b).outstandingVsyncWaits
      = s.pending_frame_semaphore_.count + s.outstandingVsyncWaits := by
  cases h : s.canRegister with
  | false => rw [Animator.RequestFrame_of_not_canRegister s b h]; rfl
  | true =>
    rw [Animator.RequestFrame_of_canRegister s b h]
    have hc : s.pending_frame_semaphore_.count ≠ 0 := by
      unfold Animator.canRegister at h
      simp at h
      exact h.2
    simp [Animator.outstandingVsyncWaits, TaskRunners.PostTask]
    omega

theorem Animator.call_sem (s : Animator) (c : Animator.Call) :
    (s.call c).pending_frame_semaphore_.count + (s.call c).outstandingVsyncWaits
      = s.pending_frame_semaphore_.count + s.outstandingVsyncWaits := by
  cases c with
  | Stop => rfl
  | Start =>
    simp only [Animator.call, Animator.Start]
    split
    · rfl
    · rw [Animator.RequestFrame_sem]; rfl
  | SetDimensionChangePending => rfl
  | EnqueueTraceFlowId id => rfl
  | Render layer_tree clk =>
    simp only [Animator.call, Animator.Render]
    split <;> rfl
  | RequestFrame b => exact Animator.RequestFrame_sem s b
  | ScheduleSecondaryVsyncCallback id => rfl

theorem Animator.foldl_call_sem (cs : List Animator.Call) :
    ∀ s : Animator,
      (cs.foldl Animator.call s).pending_frame_semaphore_.count
          + (cs.foldl Animator.call s).outstandingVsyncWaits
        = s.pending_frame_semaphore_.count + s.outstandingVsyncWaits := by
  induction cs with
  | nil => intro s; rfl
  | cons c cs ih =>
    intro s
    rw [List.foldl_cons, ih, Animator.call_sem]

theorem Animator.ServiceFrame_sem (s : Animator) (clk : Animator.BeginFrameClock)
    (response : List Animator.Call) :
    (s.ServiceFrame clk response).pending_frame_semaphore_.count
        + (s.ServiceFrame clk response).outstandingVsyncWaits
      = s.pending_frame_semaphore_.count + s.outstandingVsyncWaits := by
  unfold Animator.ServiceFrame
  simp only []
  split
  · simp only [Animator.outstandingVsyncWaits, TaskRunners.PostDelayedTask]
    exact Animator.foldl_call_sem response _
  · exact Animator.foldl_call_sem response _

theorem Animator.BeginFrame_sem (s : Animator) (r : FrameTimingsRecorder)
    (clk : Animator.BeginFrameClock) (response : List Animator.Call) :
    (s.BeginFrame r clk response).pending_frame_semaphore_.count
        + (s.BeginFrame r clk response).outstandingVsyncWaits
      = s.pending_frame_semaphore_.count + 1 + s.outstandingVsyncWaits := by
  unfold Animator.BeginFrame
  simp only []
  split
  · split
    · rw [Animator.RequestFrame_sem]; rfl
    · rw [Animator.ServiceFrame_sem]; rfl
  · rw [Animator.ServiceFrame_sem]; rfl

theorem Animator.step_sem (s : Animator) (st : Animator.Step) :
    (s.step st).pending_frame_semaphore_.count + (s.step st).outstandingVsyncWaits
      = s.pending_frame_semaphore_.count + s.outstandingVsyncWaits := by
  cases st with
  | call c => exact Animator.call_sem s c
  | runTask =>
    simp only [Animator.step]
    split
    · rfl
    · rename_i n rest hq
      simp [Animator.AwaitVSync, Animator.emit, Animator.outstandingVsyncWaits,
        VsyncWaiter.AsyncWaitForVsync, hq]
      omega
  | runDelayedTask dart_now =>
    simp only [Animator.step]
    split
    · rfl
    · simp only [Animator.NotifyIdleTask]
      split <;> rfl
  | vsync r clk response =>
    simp only [Animator.step]
    split
    · rfl
    · rename_i hcb
      simp only [Animator.VsyncCallback]
      split
      · simp [Animator.DrawLastLayerTree, Animator.emit, Animator.outstandingVsyncWaits,
          Semaphore.Signal]
        omega
      · rw [Animator.BeginFrame_sem]
        simp [Animator.outstandingVsyncWaits]
        omega
  | secondary =>
    simp only [Animator.step]
    split
    · simp only [Animator.MaybeClearTraceFlowIds]
      split <;> rfl
    · rfl
  | consume => rfl

theorem Animator.run_cons (s : Animator) (st : Animator.Step) (steps : List Animator.Step) :
    s.run (st :: steps) = (s.step st).run steps := rfl

theorem Animator.run_append (s : Animator) (xs ys : List Animator.Step) :
    s.run (xs ++ ys) = (s.run xs).run ys := by
  simp [Animator.run, List.foldl_append]

theorem Animator.run_sem (steps : List Animator.Step) :
    ∀ s : Animator,
      (s.run steps).pending_frame_semaphore_.count + (s.run steps).outstandingVsyncWaits
        = s.pending_frame_semaphore_.count + s.outstandingVsyncWaits := by
  induction steps with
  | nil => intro s; rfl
  | cons st steps ih =>
    intro s
    rw [Animator.run_cons, ih, Animator.step_sem]

theorem Animator.reachable_sem (shell_enable_metal platform_is_raster : Bool)
    (steps : List Animator.Step) :
    ((Animator.create shell_enable_metal platform_is_raster).run
        steps).pending_frame_semaphore_.count
      + ((Animator.create shell_enable_metal platform_is_raster).run
        steps).outstandingVsyncWaits = 1 := by
  rw [Animator.run_sem]
  rfl

theorem Animator.RequestFrame_regenerate (s : Animator) (b : Bool) :
    (s.RequestFrame b).regenerate_layer_tree_ = (b || s.regenerate_layer_tree_) := by
  cases h : s.canRegister with
  | false => rw [Animator.RequestFrame_of_not_canRegister s b h]
  | true => rw [Animator.RequestFrame_of_canRegister s b h]

theorem Animator.call_regenerate (s : Animator) (c : Animator.Call)
    (h : s.regenerate_layer_tree_ = true) : (s.call c).regenerate_layer_tree_ = true := by
  cases c with
  | Stop => exact h
  | Start =>
    simp only [Animator.call, Animator.Start]
    split
    · exact h
    · rw [Animator.RequestFrame_regenerate]; simp [h]
  | SetDimensionChangePending => exact h
  | EnqueueTraceFlowId id => exact h
  | Render layer_tree clk =>
    simp only [Animator.call, Animator.Render]
    split <;> exact h
  | RequestFrame b =>
    simp only [Animator.call]
    rw [Animator.RequestFrame_regenerate]; simp [h]
  | ScheduleSecondaryVsyncCallback id => exact h

theorem Animator.step_regenerate (s : Animator) (st : Animator.Step)
    (hst : st.isVsync = false) (h : s.regenerate_layer_tree_ = true) :
    (s.step st).regenerate_layer_tree_ = true := by
  cases st with
  | call c => exact Animator.call_regenerate s c h
  | runTask =>
    simp only [Animator.step]
    split
    · exact h
    · exact h
  | runDelayedTask dart_now =>
    simp only [Animator.step]
    split
    · exact h
    · simp only [Animator.NotifyIdleTask]
      split <;> exact h
  | vsync r clk response => simp [Animator.Step.isVsync] at hst
  | secondary =>
    simp only [Animator.step]
    split
    · simp only [Animator.MaybeClearTraceFlowIds]
      split <;> exact h
    · exact h
  | consume => exact h

theorem Animator.run_regenerate (steps : List Animator.Step) :
    ∀ s : Animator, (∀ st ∈ steps, st.isVsync = false) →
      s.regenerate_layer_tree_ = true → (s.run steps).regenerate_layer_tree_ = true := by
  induction steps with
  | nil => intro s _ h; exact h
  | cons st steps ih =>
    intro s hsteps h
    rw [Animator.run_cons]
    exact ih _ (fun x hx => hsteps x (by simp [hx]))
      (Animator.step_regenerate s st (hsteps st (by simp)) h)

/-- C5: when an unpaused animator runs `BeginFrame` holding no continuation
and `Produce` returns the empty continuation, `BeginFrame` records exactly
the failed `Produce` and the posting of one `AwaitVSync` closure (so
`OnAnimatorBeginFrame` is not called), leaves the vsync source as it was, and
sets `regenerate_layer_tree_`; the flag survives every later step other than
a vsync firing, so the vsync callback that follows runs `BeginFrame` again
and not the reuse path. -/
theorem begin_frame_pipeline_full_reschedules (s : Animator) (r : FrameTimingsRecorder)
    (clk : Animator.BeginFrameClock) (response : List Animator.Call)
    (hpaused : s.paused_ = false)
    (hcont : s.producer_continuation_.valid = false)
    (hfull : s.layer_tree_pipeline_.Produce.1.valid = false) :
    (s.BeginFrame r clk response).events
      = s.events ++ [.Produce false, .PostTask r.frame_number] ∧
    (s.BeginFrame r clk response).task_runners_.ui_tasks
      = s.task_runners_.ui_tasks ++ [r.frame_number] ∧
    (s.BeginFrame r clk response).waiter_ = s.waiter_ ∧
    (s.BeginFrame r clk response).frame_scheduled_ = true ∧
    (s.BeginFrame r clk response).regenerate_layer_tree_ = true ∧
    ∀ (steps : List Animator.Step) (r2 : FrameTimingsRecorder) (clk2 : Animator.BeginFrameClock)
      (response2 : List Animator.Call),
      (∀ st ∈ steps, st.isVsync = false) →
      ((s.BeginFrame r clk response).run steps).waiter_.callbacks ≠ 0 →
      ((s.BeginFrame r clk response).run steps).step (.vsync r2 clk2 response2)
        = Animator.BeginFrame
            { (s.BeginFrame r clk response).run steps with
              waiter_ :=
                { ((s.BeginFrame r clk response).run steps).waiter_ with
                  callbacks := ((s.BeginFrame r clk response).run steps).waiter_.callbacks - 1 } }
            r2 clk2 response2 := by
  have hbf : s.BeginFrame r clk response =
      { s with
        frame_timings_recorder_ := some (r.RecordBuildStart clk.build_start)
        trace_flow_ids_ := Animator.drainTraceFlowIds s.trace_flow_ids_
        notify_idle_task_id_ := s.notify_idle_task_id_ + 1
        producer_continuation_ := s.layer_tree_pipeline_.Produce.1
        layer_tree_pipeline_ := s.layer_tree_pipeline_.Produce.2
        regenerate_layer_tree_ := true
        pending_frame_semaphore_ := ⟨s.pending_frame_semaphore_.count⟩
        task_runners_ := s.task_runners_.PostTask r.frame_number
        events := s.events ++ [.Produce false, .PostTask r.frame_number]
        frame_scheduled_ := true } := by
    unfold Animator.BeginFrame
    simp only [hcont, hfull, Bool.not_false, if_true]
    rw [Animator.RequestFrame_of_canRegister]
    · simp [Animator.kRequestFrameDefault, Semaphore.Signal, Animator.requestFrameNumber,
        FrameTimingsRecorder.GetFrameNumber, FrameTimingsRecorder.RecordBuildStart]
    · simp [Animator.canRegister, hpaused, Semaphore.Signal]
  have hregen : (s.BeginFrame r clk response).regenerate_layer_tree_ = true := by
    rw [hbf]
  refine ⟨by rw [hbf], by rw [hbf]; rfl, by rw [hbf], by rw [hbf], hregen, ?_⟩
  intro steps r2 clk2 response2 hsteps hcb
  have hkeep := Animator.run_regenerate steps _ hsteps hregen
  simp [Animator.step, hcb, Animator.VsyncCallback, Animator.CanReuseLastLayerTree, hkeep]

/-- Witness for C5: the depth-1 animator whose only slot is occupied; after the
rescheduling `BeginFrame` and the posted closure, the vsync runs `BeginFrame`. -/
theorem begin_frame_pipeline_full_reschedules_witness :
    (Animator.fullPipelineExample.BeginFrame (Animator.exampleTimings 2 18000 34000)
        ⟨18100, 60, 18100⟩ []).events
      = Animator.fullPipelineExample.events ++ [.Produce false, .PostTask 2] ∧
    (Animator.fullPipelineExample.BeginFrame (Animator.exampleTimings 2 18000 34000)
        ⟨18100, 60, 18100⟩ []).regenerate_layer_tree_ = true :=
  have h := begin_frame_pipeline_full_reschedules Animator.fullPipelineExample
    (Animator.exampleTimings 2 18000 34000) ⟨18100, 60, 18100⟩ []
    (by decide) (by decide) (by decide)
  ⟨h.1, h.2.2.2.2.1⟩

theorem Animator.requestFrames_of_count_zero (bs : List Bool) :
    ∀ s : Animator, s.pending_frame_semaphore_.count = 0 →
      ∃ g : Bool, s.requestFrames bs = { s with regenerate_layer_tree_ := g } := by
  induction bs with
  | nil => intro s _; exact ⟨s.regenerate_layer_tree_, rfl⟩
  | cons b bs ih =>
    intro s hs
    have hblocked : s.canRegister = false := by simp [Animator.canRegister, hs]
    have hstep := Animator.RequestFrame_of_not_canRegister s b hblocked
    obtain ⟨g, hg⟩ := ih (s.RequestFrame b) (by rw [hstep]; exact hs)
    refine ⟨g, ?_⟩
    show (s.RequestFrame b).requestFrames bs = _
    rw [hg, hstep]

theorem Animator.call_registrationView (s : Animator) (c : Animator.Call)
    (hc : c.schedules = false) : (s.call c).registrationView = s.registrationView := by
  cases c with
  | Stop => simp [Animator.Call.schedules] at hc
  | Start => simp [Animator.Call.schedules] at hc
  | SetDimensionChangePending => rfl
  | EnqueueTraceFlowId id => rfl
  | Render layer_tree clk =>
    simp only [Animator.call, Animator.Render]
    split <;> rfl
  | RequestFrame b => simp [Animator.Call.schedules] at hc
  | ScheduleSecondaryVsyncCallback id => rfl

theorem Animator.foldl_call_registrationView (cs : List Animator.Call) :
    ∀ s : Animator, (∀ c ∈ cs, c.schedules = false) →
      (cs.foldl Animator.call s).registrationView = s.registrationView := by
  induction cs with
  | nil => intro s _; rfl
  | cons c cs ih =>
    intro s h
    rw [List.foldl_cons, ih _ (fun x hx => h x (by simp [hx])),
      Animator.call_registrationView s c (h c (by simp))]

theorem Animator.ServiceFrame_registrationView (s : Animator) (clk : Animator.BeginFrameClock)
    (response : List Animator.Call) (h : ∀ c ∈ response, c.schedules = false) :
    (s.ServiceFrame clk response).registrationView = s.registrationView := by
  unfold Animator.ServiceFrame
  simp only []
  split
  · simp only [Animator.registrationView, TaskRunners.PostDelayedTask]
    exact Animator.foldl_call_registrationView response _ h
  · exact Animator.foldl_call_registrationView response _ h

theorem Animator.BeginFrame_registrationView (s : Animator) (r : FrameTimingsRecorder)
    (clk : Animator.BeginFrameClock) (response : List Animator.Call)
    (havail : s.producer_continuation_.valid = true ∨
      s.layer_tree_pipeline_.Produce.1.valid = true)
    (h : ∀ c ∈ response, c.schedules = false) :
    (s.BeginFrame r clk response).registrationView
      = (s.paused_, s.pending_frame_semaphore_.count + 1, s.task_runners_.ui_tasks,
          s.waiter_.callbacks) := by
  unfold Animator.BeginFrame
  simp only []
  cases hv : s.producer_continuation_.valid with
  | true =>
    simp only [Bool.not_true, Bool.false_eq_true, if_false]
    rw [Animator.ServiceFrame_registrationView _ _ _ h]
    rfl
  | false =>
    have hp : s.layer_tree_pipeline_.Produce.1.valid = true := by
      rcases havail with h1 | h1
      · rw [hv] at h1; exact absurd h1 (by simp)
      · exact h1
    simp only [Bool.not_false, if_true, hp, Bool.not_true, Bool.false_eq_true, if_false]
    rw [Animator.ServiceFrame_registrationView _ _ _ h]
    rfl

/-- C2, as the claim states its last sentence, fails: the depth-1 animator
`fullPipelineExample` is reachable, unpaused and has no vsync wait
outstanding; one `RequestFrame(true)` registers a wait, the vsync fires and
`BeginFrame` runs, finds the pipeline full and registers the next wait itself
(the last two events); a further `RequestFrame`, with either argument, then
registers nothing. -/
theorem request_frame_after_begin_frame_counterexample :
    Animator.fullPipelineExample.paused_ = false ∧
    Animator.fullPipelineExample.outstandingVsyncWaits = 0 ∧
    Animator.fullPipelineAfterBeginFrame.events
      = Animator.fullPipelineExample.events ++
          [.PostTask 0, .AsyncWaitForVsync, .OnAnimatorNotifyIdle 15950,
            .Produce false, .PostTask 2] ∧
    Animator.fullPipelineAfterBeginFrame.notify_idle_task_id_
      = Animator.fullPipelineExample.notify_idle_task_id_ + 1 ∧
    (Animator.fullPipelineAfterBeginFrame.RequestFrame true).events
      = Animator.fullPipelineAfterBeginFrame.events ∧
    (Animator.fullPipelineAfterBeginFrame.RequestFrame true).task_runners_
      = Animator.fullPipelineAfterBeginFrame.task_runners_ ∧
    (Animator.fullPipelineAfterBeginFrame.RequestFrame true).waiter_
      = Animator.fullPipelineAfterBeginFrame.waiter_ ∧
    (Animator.fullPipelineAfterBeginFrame.RequestFrame false)
      = Animator.fullPipelineAfterBeginFrame := by
  decide

/-- C2, amended: in every reachable state `s` that is unpaused with no vsync
wait outstanding, the first `RequestFrame` takes the pending-frame semaphore
and posts one `AwaitVSync` closure, any number of later calls change neither
the posted closures, the vsync source, the semaphore nor the record of events,
and running the closure registers exactly one callback. After that callback
has fired and `BeginFrame` has run with a continuation available (held, or
granted by `Produce`) and a delegate response that makes no `RequestFrame`,
`Start` or `Stop` call, no wait is outstanding and one further `RequestFrame`
registers exactly one new wait. -/
theorem request_frame_coalesces (shell_enable_metal platform_is_raster : Bool)
    (steps : List Animator.Step) (s : Animator) (b : Bool) (bs : List Bool)
    (r : FrameTimingsRecorder) (clk : Animator.BeginFrameClock)
    (response : List Animator.Call) (b' : Bool)
    (hs : s = (Animator.create shell_enable_metal platform_is_raster).run steps)
    (hpaused : s.paused_ = false)
    (hwait : s.outstandingVsyncWaits = 0) :
    ((s.RequestFrame b).pending_frame_semaphore_.count = 0 ∧
      (s.RequestFrame b).events = s.events ++ [.PostTask s.requestFrameNumber] ∧
      (s.RequestFrame b).task_runners_.ui_tasks = [s.requestFrameNumber] ∧
      (s.RequestFrame b).waiter_ = s.waiter_) ∧
    (((s.RequestFrame b).requestFrames bs).events = (s.RequestFrame b).events ∧
      ((s.RequestFrame b).requestFrames bs).task_runners_ = (s.RequestFrame b).task_runners_ ∧
      ((s.RequestFrame b).requestFrames bs).waiter_ = s.waiter_ ∧
      ((s.RequestFrame b).requestFrames bs).pending_frame_semaphore_.count = 0) ∧
    ((s.afterRequests b bs).waiter_.callbacks = 1 ∧
      (s.afterRequests b bs).task_runners_.ui_tasks = []) ∧
    ((s.afterRequests b bs).regenerate_layer_tree_ = true →
      (s.producer_continuation_.valid = true ∨
        s.layer_tree_pipeline_.Produce.1.valid = true) →
      (∀ c ∈ response, c.schedules = false) →
      ((s.afterRequests b bs).step (.vsync r clk response)).outstandingVsyncWaits = 0 ∧
      (((s.afterRequests b bs).step (.vsync r clk response)).RequestFrame b').events
        = ((s.afterRequests b bs).step (.vsync r clk response)).events ++
            [.PostTask ((s.afterRequests b bs).step (.vsync r clk response)).requestFrameNumber] ∧
      (((s.afterRequests b bs).step
        (.vsync r clk response)).RequestFrame b').outstandingVsyncWaits = 1) := by
  have hinv := Animator.reachable_sem shell_enable_metal platform_is_raster steps
  rw [← hs] at hinv
  have hcount : s.pending_frame_semaphore_.count = 1 := by omega
  have htasks : s.task_runners_.ui_tasks = [] := by
    unfold Animator.outstandingVsyncWaits at hwait
    exact List.length_eq_zero.mp (by omega)
  have hcb : s.waiter_.callbacks = 0 := by
    unfold Animator.outstandingVsyncWaits at hwait
    omega
  have hcan : s.canRegister = true := by simp [Animator.canRegister, hpaused, hcount]
  have h1 := Animator.RequestFrame_of_canRegister s b hcan
  have h1count : (s.RequestFrame b).pending_frame_semaphore_.count = 0 := by
    rw [h1]; simp [hcount]
  obtain ⟨g, hg⟩ := Animator.requestFrames_of_count_zero bs (s.RequestFrame b) h1count
  have hafter : s.afterRequests b bs =
      Animator.AwaitVSync
        { s with
          regenerate_layer_tree_ := g
          pending_frame_semaphore_ := ⟨0⟩
          task_runners_ := { s.task_runners_ with ui_tasks := [] }
          events := s.events ++ [.PostTask s.requestFrameNumber]
          frame_scheduled_ := true } := by
    unfold Animator.afterRequests
    rw [hg, h1]
    simp [Animator.step, TaskRunners.PostTask, htasks, hcount]
  refine ⟨⟨h1count, by rw [h1], by rw [h1]; simp [TaskRunners.PostTask, htasks], by rw [h1]⟩,
    ⟨by rw [hg], by rw [hg], by rw [hg, h1], by rw [hg]; exact h1count⟩,
    ⟨by rw [hafter]; simp [Animator.AwaitVSync, Animator.emit, VsyncWaiter.AsyncWaitForVsync, hcb],
      by rw [hafter]; rfl⟩, ?_⟩
  intro hregen havail hresp
  have hview : ((s.afterRequests b bs).step (.vsync r clk response)).registrationView
      = (false, 1, [], 0) := by
    have hcb1 : (s.afterRequests b bs).waiter_.callbacks = 1 := by
      rw [hafter]; simp [Animator.AwaitVSync, Animator.emit, VsyncWaiter.AsyncWaitForVsync, hcb]
    simp only [Animator.step, hcb1, Nat.one_ne_zero, if_false, Animator.VsyncCallback,
      Animator.CanReuseLastLayerTree, hregen, Bool.not_true, Bool.false_eq_true]
    rw [Animator.BeginFrame_registrationView _ _ _ _ ?_ hresp]
    · rw [hafter]
      simp [Animator.AwaitVSync, Animator.emit, hpaused]
    · rw [hafter]
      exact havail
  simp only [Animator.registrationView, Prod.mk.injEq] at hview
  obtain ⟨hp', hc', ht', hw'⟩ := hview
  have hcan' : ((s.afterRequests b bs).step (.vsync r clk response)).canRegister = true := by
    simp [Animator.canRegister, hp', hc']
  refine ⟨by simp [Animator.outstandingVsyncWaits, ht', hw'], ?_, ?_⟩
  · rw [Animator.RequestFrame_of_canRegister _ b' hcan']
  · rw [Animator.RequestFrame_of_canRegister _ b' hcan']
    simp [Animator.outstandingVsyncWaits, TaskRunners.PostTask, ht', hw']

/-- Witness for the amended C2: three rapid `RequestFrame` calls on a fresh
animator with a pipeline of depth 2, then a vsync whose `BeginFrame` obtains a
continuation and whose delegate renders, then a fourth `RequestFrame`. -/
theorem request_frame_coalesces_witness :
    (((Animator.create false false).RequestFrame true).requestFrames [true, true]).events
      = ((Animator.create false false).RequestFrame true).events ∧
    ((Animator.create false false).afterRequests true [true, true]).waiter_.callbacks = 1 ∧
    ((((Animator.create false false).afterRequests true [true, true]).step
      (.vsync (Animator.exampleTimings 1 1000 17000) ⟨1100, 50, 1100⟩
        [.Render ⟨(800, 600)⟩ ⟨0, 0, 1500⟩])).RequestFrame true).outstandingVsyncWaits = 1 :=
  have h := request_frame_coalesces false false [] (Animator.create false false) true
    [true, true] (Animator.exampleTimings 1 1000 17000) ⟨1100, 50, 1100⟩
    [.Render ⟨(800, 600)⟩ ⟨0, 0, 1500⟩] true rfl (by decide) (by decide)
  ⟨h.2.1.1, h.2.2.1.1, (h.2.2.2 (by decide) (by decide) (by decide)).2.2⟩

/-! ### Layers -/

/-- C9: over exact arithmetic, `ComputeShadowBounds(bounds, elevation,
pixel_ratio)` is `bounds` with the left and right edges moved outwards by
`elevation * (800 * pixel_ratio + width / 2) / 600` and the top and bottom
edges by `elevation * (800 * pixel_ratio + height / 2) / 600`; for pixel ratio
1 and a rectangle of width 100 the x-outset is `elevation * 850 / 600`. -/
theorem compute_shadow_bounds_outset (bounds : SkRect) (elevation pixel_ratio : ℚ) :
    ComputeShadowBounds bounds elevation pixel_ratio
      = bounds.outset (elevation * (800 * pixel_ratio + bounds.width / 2) / 600)
          (elevation * (800 * pixel_ratio + bounds.height / 2) / 600) ∧
    (ComputeShadowBounds bounds elevation pixel_ratio).fLeft
      = bounds.fLeft - elevation * (800 * pixel_ratio + bounds.width / 2) / 600 ∧
    (ComputeShadowBounds bounds elevation pixel_ratio).fRight
      = bounds.fRight + elevation * (800 * pixel_ratio + bounds.width / 2) / 600 ∧
    (ComputeShadowBounds bounds elevation pixel_ratio).fTop
      = bounds.fTop - elevation * (800 * pixel_ratio + bounds.height / 2) / 600 ∧
    (ComputeShadowBounds bounds elevation pixel_ratio).fBottom
      = bounds.fBottom + elevation * (800 * pixel_ratio + bounds.height / 2) / 600 ∧
    ∀ l t b : ℚ,
      (ComputeShadowBounds (SkRect.MakeLTRB l t (l + 100) b) elevation 1).fLeft
        = l - elevation * 850 / 600 ∧
      (ComputeShadowBounds (SkRect.MakeLTRB l t (l + 100) b) elevation 1).fRight
        = l + 100 + elevation * 850 / 600 := by
  have hx : elevation * ((kLightRadius * pixel_ratio + bounds.width * (1 / 2)) / kLightHeight)
      = elevation * (800 * pixel_ratio + bounds.width / 2) / 600 := by
    simp only [kLightRadius, kLightHeight]; ring
  have hy : elevation * ((kLightRadius * pixel_ratio + bounds.height * (1 / 2)) / kLightHeight)
      = elevation * (800 * pixel_ratio + bounds.height / 2) / 600 := by
    simp only [kLightRadius, kLightHeight]; ring
  have hmain : ComputeShadowBounds bounds elevation pixel_ratio
      = bounds.outset (elevation * (800 * pixel_ratio + bounds.width / 2) / 600)
          (elevation * (800 * pixel_ratio + bounds.height / 2) / 600) := by
    simp only [ComputeShadowBounds, hx, hy]
  refine ⟨hmain, by rw [hmain]; rfl, by rw [hmain]; rfl, by rw [hmain]; rfl,
    by rw [hmain]; rfl, ?_⟩
  intro l t b
  simp only [ComputeShadowBounds, SkRect.outset, SkRect.MakeLTRB, SkRect.width, kLightRadius,
    kLightHeight]
  constructor <;> ring

/-- C10: for a physical-shape layer with elevation 0 that is not system
composited, whatever its path, children, clip behaviour, preroll context and
parent matrix, the paint bounds after `Preroll` are exactly the bounds of the
path: no shadow outset is applied and the bounds of the children are not
joined in. -/
theorem physical_shape_preroll_zero_elevation (base : LayerBase) (color shadow_color : SkColor)
    (path : SkPath) (clip_behavior : Clip) (layers : List Layer) (context : PrerollContext)
    (matrix : SkMatrix) :
    ((Layer.physicalShape base color shadow_color 0 path clip_behavior layers).Preroll false
      context matrix).1.paint_bounds = path.getBounds := by
  simp [Layer.Preroll, Layer.paint_bounds, Layer.base]

theorem Layer.Paint_of_not_needs_painting (l : Layer) (context : PaintContext)
    (h : l.needs_painting = false) : l.Paint context = .error .needs_painting := by
  cases l <;> simp [Layer.needs_painting, Layer.base] at h <;> simp [Layer.Paint, h]

mutual

theorem Layer.Paint_ok_of_needs_painting :
    ∀ (l : Layer) (context : PaintContext), l.needs_painting = true →
      ∃ c, l.Paint context = .ok c
  | .mock base path paint pm pc, context, h => by
    simp [Layer.needs_painting, Layer.base] at h
    simp only [Layer.Paint, h, Bool.not_true, Bool.false_eq_true, if_false]
    exact ⟨_, rfl⟩
  | .container base layers, context, h => by
    simp [Layer.needs_painting, Layer.base] at h
    obtain ⟨c, hc⟩ := Layer.PaintChildren_ok layers context
    exact ⟨c, by simp [Layer.Paint, h, hc]⟩
  | .transform base transform_ layers, context, h => by
    simp [Layer.needs_painting, Layer.base] at h
    obtain ⟨c, hc⟩ := Layer.PaintChildren_ok layers
      (context.save.2.draw .internal_nodes_canvas (.concat transform_))
    simp only [Layer.Paint, h, Bool.not_true, Bool.false_eq_true, if_false, hc]
    exact ⟨_, rfl⟩
  | .texture base offset_ size_ texture_id_ freeze_ sampling_, context, h => by
    simp [Layer.needs_painting, Layer.base] at h
    by_cases hreg : texture_id_ ∈ context.texture_registry
    · simp only [Layer.Paint, h, Bool.not_true, Bool.false_eq_true, if_false, hreg, if_true]
      exact ⟨_, rfl⟩
    · simp only [Layer.Paint, h, Bool.not_true, Bool.false_eq_true, if_false, hreg]
      exact ⟨_, rfl⟩
  | .physicalShape base color shadow_color_ elevation path_ clip_behavior_ layers, context,
      h => by
    simp [Layer.needs_painting, Layer.base] at h
    simp only [Layer.Paint, h, Bool.not_true, Bool.false_eq_true, if_false]
    generalize hctx : (match clip_behavior_ with
      | Clip.hardEdge => _
      | Clip.antiAlias => _
      | Clip.antiAliasWithSaveLayer => _
      | Clip.none => _ : PaintContext) = ctx1
    obtain ⟨c, hc⟩ := Layer.PaintChildren_ok layers
      (if clip_behavior_ = Clip.antiAliasWithSaveLayer then
        ctx1.draw .leaf_nodes_canvas (.drawPaint ⟨color, true⟩) else ctx1)
    exact ⟨_, by rw [hc]⟩

theorem Layer.PaintChildren_ok :
    ∀ (layers : List Layer) (context : PaintContext),
      ∃ c, Layer.Paint.PaintChildren layers context = .ok c
  | [], context => ⟨context, by simp [Layer.Paint.PaintChildren]⟩
  | layer :: rest, context => by
    by_cases hn : layer.base.needs_painting = true
    · obtain ⟨c, hc⟩ := Layer.Paint_ok_of_needs_painting layer context hn
      obtain ⟨c', hc'⟩ := Layer.PaintChildren_ok rest c
      exact ⟨c', by simp [Layer.Paint.PaintChildren, hn, hc, hc']⟩
    · obtain ⟨c', hc'⟩ := Layer.PaintChildren_ok rest context
      exact ⟨c', by simp [Layer.Paint.PaintChildren, hn, hc']⟩

end

/-- C8: in a debug build `Paint` fails (on the `needs_painting` assertion)
exactly when `needs_painting` is false and succeeds exactly when it is true,
for every layer variant; `needs_painting` is false for a transform, texture or
physical-shape layer that was never prerolled, for a transform layer without
children after `Preroll`, and for a texture layer of size 0x0 after
`Preroll`. -/
theorem paint_fails_iff_not_needs_painting :
    (∀ (l : Layer) (context : PaintContext),
      ((∃ e, l.Paint context = .error e) ↔ l.needs_painting = false) ∧
      ((∃ c, l.Paint context = .ok c) ↔ l.needs_painting = true)) ∧
    (∀ (id : Nat) (m : SkMatrix) (layers : List Layer),
      (Layer.transform (LayerBase.initial id) m layers).needs_painting = false) ∧
    (∀ (id : Nat) (offset size : ℚ × ℚ) (texture_id : Int) (freeze : Bool) (sampling : Nat),
      (Layer.texture (LayerBase.initial id) offset size texture_id freeze
        sampling).needs_painting = false) ∧
    (∀ (id : Nat) (color shadow_color : SkColor) (elevation : ℚ) (path : SkPath) (clip : Clip)
        (layers : List Layer),
      (Layer.physicalShape (LayerBase.initial id) color shadow_color elevation path clip
        layers).needs_painting = false) ∧
    (∀ (base : LayerBase) (m : SkMatrix) (can_system_composite : Bool)
        (context : PrerollContext) (matrix : SkMatrix),
      ((Layer.transform base m []).Preroll can_system_composite context
        matrix).1.needs_painting = false) ∧
    (∀ (base : LayerBase) (offset : ℚ × ℚ) (texture_id : Int) (freeze : Bool) (sampling : Nat)
        (can_system_composite : Bool) (context : PrerollContext) (matrix : SkMatrix),
      ((Layer.texture base offset (0, 0) texture_id freeze sampling).Preroll
        can_system_composite context matrix).1.needs_painting = false) := by
  refine ⟨?_, ?_, ?_, ?_, ?_, ?_⟩
  · intro l context
    cases hn : l.needs_painting with
    | false =>
      have hfail := Layer.Paint_of_not_needs_painting l context hn
      refine ⟨⟨fun _ => rfl, fun _ => ⟨_, hfail⟩⟩, ⟨?_, fun h => absurd h (by simp)⟩⟩
      rintro ⟨c, hc⟩
      rw [hfail] at hc
      cases hc
    | true =>
      obtain ⟨c, hc⟩ := Layer.Paint_ok_of_needs_painting l context hn
      refine ⟨⟨?_, fun h => absurd h (by simp)⟩, ⟨fun _ => rfl, fun _ => ⟨c, hc⟩⟩⟩
      rintro ⟨e, he⟩
      rw [hc] at he
      cases he
  · intro id m layers
    simp [Layer.needs_painting, Layer.base, LayerBase.needs_painting, LayerBase.initial,
      SkRect.MakeEmpty, SkRect.isEmpty]
  · intro id offset size texture_id freeze sampling
    simp [Layer.needs_painting, Layer.base, LayerBase.needs_painting, LayerBase.initial,
      SkRect.MakeEmpty, SkRect.isEmpty]
  · intro id color shadow_color elevation path clip layers
    simp [Layer.needs_painting, Layer.base, LayerBase.needs_painting, LayerBase.initial,
      SkRect.MakeEmpty, SkRect.isEmpty]
  · intro base m can_system_composite context matrix
    simp [Layer.Preroll, Layer.Preroll.PrerollChildren, Layer.needs_painting, Layer.base,
      LayerBase.needs_painting, SkRect.MakeEmpty, SkRect.isEmpty, SkMatrix.mapRect,
      SkMatrix.mapX, SkMatrix.mapY]
  · intro base offset texture_id freeze sampling can_system_composite context matrix
    simp [Layer.Preroll, Layer.needs_painting, Layer.base, LayerBase.needs_painting,
      SkRect.MakeXYWH, SkRect.isEmpty]

/-! ### Damage -/

theorem SkRect.isEmpty_eq_false_of_containsPoint (r : SkRect) (x y : ℚ)
    (h : r.containsPoint x y) : r.isEmpty = false := by
  obtain ⟨h1, h2, h3, h4⟩ := h
  have hx : r.fLeft < r.fRight := lt_of_le_of_lt h1 h2
  have hy : r.fTop < r.fBottom := lt_of_le_of_lt h3 h4
  simp [SkRect.isEmpty, hx, hy]

theorem SkRect.join_contains_left (r a : SkRect) (x y : ℚ) (h : r.containsPoint x y) :
    (r.join a).containsPoint x y := by
  have hr := SkRect.isEmpty_eq_false_of_containsPoint r x y h
  unfold SkRect.join
  split
  · exact h
  · simp only [hr, Bool.false_eq_true, if_false]
    obtain ⟨h1, h2, h3, h4⟩ := h
    exact ⟨le_trans (min_le_left _ _) h1, lt_of_lt_of_le h2 (le_max_left _ _),
      le_trans (min_le_left _ _) h3, lt_of_lt_of_le h4 (le_max_left _ _)⟩

theorem SkRect.join_contains_right (r a : SkRect) (x y : ℚ) (h : a.containsPoint x y) :
    (r.join a).containsPoint x y := by
  have ha := SkRect.isEmpty_eq_false_of_containsPoint a x y h
  unfold SkRect.join
  simp only [ha, Bool.false_eq_true, if_false]
  split
  · exact h
  · obtain ⟨h1, h2, h3, h4⟩ := h
    exact ⟨le_trans (min_le_right _ _) h1, lt_of_lt_of_le h2 (le_max_right _ _),
      le_trans (min_le_right _ _) h3, lt_of_lt_of_le h4 (le_max_right _ _)⟩

theorem foldl_join_contains_init (rects : List SkRect) (x y : ℚ) :
    ∀ acc : SkRect, acc.containsPoint x y →
      (rects.foldl SkRect.join acc).containsPoint x y := by
  induction rects with
  | nil => intro acc h; exact h
  | cons r rects ih =>
    intro acc h
    exact ih _ (SkRect.join_contains_left acc r x y h)

theorem foldl_join_contains_mem (rects : List SkRect) (x y : ℚ) :
    ∀ (acc r : SkRect), r ∈ rects → r.containsPoint x y →
      (rects.foldl SkRect.join acc).containsPoint x y := by
  induction rects with
  | nil => intro acc r hr; simp at hr
  | cons r0 rects ih =>
    intro acc r hr h
    rcases List.mem_cons.mp hr with heq | hmem
    · subst heq
      exact foldl_join_contains_init rects x y _ (SkRect.join_contains_right acc r x y h)
    · exact ih _ r hmem h

theorem ComputeDamage_contains (rects : List SkRect) (r : SkRect) (x y : ℚ)
    (hr : r ∈ rects) (h : r.containsPoint x y) : (ComputeDamage rects).containsPoint x y :=
  foldl_join_contains_mem rects x y _ r hr h

theorem uncovered_append {xs ys : List SkRect} {x y : ℚ} :
    uncovered (xs ++ ys) x y ↔ uncovered xs x y ∧ uncovered ys x y := by
  unfold uncovered
  constructor
  · intro h
    exact ⟨fun r hr => h r (List.mem_append.mpr (Or.inl hr)),
      fun r hr => h r (List.mem_append.mpr (Or.inr hr))⟩
  · rintro ⟨h1, h2⟩ r hr
    rcases List.mem_append.mp hr with h | h
    · exact h1 r h
    · exact h2 r h

theorem Layer.drawRecords_eq (matrix : SkMatrix) (enclosing : List LayerProps) (l : Layer) :
    l.drawRecords matrix enclosing
      = (if l.props.hasContent then [⟨matrix, enclosing, l.props, l.paint_bounds⟩] else []) ++
          Layer.drawRecords.recordsOfList (l.props.childMatrix matrix)
            (enclosing ++ [l.props]) l.layers := by
  cases l <;>
    simp [Layer.drawRecords, Layer.drawRecords.recordsOfList, Layer.props, Layer.layers,
      LayerProps.hasContent, LayerProps.childMatrix, Layer.paint_bounds, Layer.base]

theorem Layer.paintRegion_eq (matrix : SkMatrix) (l : Layer) :
    l.paintRegion matrix
      = (if l.props.hasContent then [matrix.mapRect l.paint_bounds] else []) ++
          Layer.paintRegion.regionOfList (l.props.childMatrix matrix) l.layers := by
  cases l <;>
    simp [Layer.paintRegion, Layer.paintRegion.regionOfList, Layer.props, Layer.layers,
      LayerProps.hasContent, LayerProps.childMatrix, Layer.paint_bounds, Layer.base]

theorem Layer.Diff_none_eq (assigned : OldLayerAssignment) (matrix : SkMatrix) (l : Layer) :
    Layer.Diff assigned matrix l none = l.paintRegion matrix := by
  cases l <;> simp [Layer.Diff]

theorem Layer.Diff_some_eq (assigned : OldLayerAssignment) (matrix : SkMatrix) (l o : Layer) :
    Layer.Diff assigned matrix l (some o)
      = if l.sameProperties o then
          Layer.Diff.DiffChildren assigned (l.props.childMatrix matrix) l.layers o.layers
        else l.paintRegion matrix ++ o.paintRegion matrix := by
  cases l <;>
    simp [Layer.Diff, Layer.Diff.DiffChildren, Layer.props, Layer.layers,
      LayerProps.childMatrix]

mutual

theorem Layer.map_screenBounds_drawRecords :
    ∀ (l : Layer) (matrix : SkMatrix) (enclosing : List LayerProps),
      (l.drawRecords matrix enclosing).map DrawRecord.screenBounds = l.paintRegion matrix
  | .mock base path paint pm pc, matrix, enclosing => by
    simp [Layer.drawRecords, Layer.paintRegion, DrawRecord.screenBounds]
  | .container base layers, matrix, enclosing => by
    simp only [Layer.drawRecords, Layer.paintRegion]
    exact Layer.map_screenBounds_recordsOfList layers _ _
  | .transform base transform_ layers, matrix, enclosing => by
    simp only [Layer.drawRecords, Layer.paintRegion]
    exact Layer.map_screenBounds_recordsOfList layers _ _
  | .texture base of sz id fr sm, matrix, enclosing => by
    simp [Layer.drawRecords, Layer.paintRegion, DrawRecord.screenBounds]
  | .physicalShape base c sc e p cb layers, matrix, enclosing => by
    simp only [Layer.drawRecords, Layer.paintRegion, List.map_cons]
    rw [Layer.map_screenBounds_recordsOfList layers _ _]
    rfl

theorem Layer.map_screenBounds_recordsOfList :
    ∀ (layers : List Layer) (matrix : SkMatrix) (enclosing : List LayerProps),
      (Layer.drawRecords.recordsOfList matrix enclosing layers).map DrawRecord.screenBounds
        = Layer.paintRegion.regionOfList matrix layers
  | [], matrix, enclosing => by
    simp [Layer.drawRecords.recordsOfList, Layer.paintRegion.regionOfList]
  | layer :: rest, matrix, enclosing => by
    simp only [Layer.drawRecords.recordsOfList, Layer.paintRegion.regionOfList, List.map_append]
    rw [Layer.map_screenBounds_drawRecords layer, Layer.map_screenBounds_recordsOfList rest]

end

theorem filter_covers_eq_nil (records : List DrawRecord) (x y : ℚ)
    (h : uncovered (records.map DrawRecord.screenBounds) x y) :
    records.filter (fun d => d.covers x y) = [] := by
  rw [List.filter_eq_nil_iff]
  intro d hd hcov
  have hmem : d.screenBounds ∈ records.map DrawRecord.screenBounds :=
    List.mem_map.mpr ⟨d, hd, rfl⟩
  exact h _ hmem (by simpa [DrawRecord.covers] using hcov)

theorem Layer.filter_drawRecords_of_uncovered (l : Layer) (matrix : SkMatrix)
    (enclosing : List LayerProps) (x y : ℚ) (h : uncovered (l.paintRegion matrix) x y) :
    (l.drawRecords matrix enclosing).filter (fun d => d.covers x y) = [] := by
  apply filter_covers_eq_nil
  rw [Layer.map_screenBounds_drawRecords]
  exact h

theorem Layer.filter_recordsOfList_of_uncovered (layers : List Layer) (matrix : SkMatrix)
    (enclosing : List LayerProps) (x y : ℚ)
    (h : uncovered (Layer.paintRegion.regionOfList matrix layers) x y) :
    (Layer.drawRecords.recordsOfList matrix enclosing layers).filter (fun d => d.covers x y)
      = [] := by
  apply filter_covers_eq_nil
  rw [Layer.map_screenBounds_recordsOfList]
  exact h

/-- One node of the lock-step walk: if the children are handled, so is the
node. -/
theorem Layer.diff_node_sound (assigned : OldLayerAssignment) (x y : ℚ) (l o : Layer)
    (matrix : SkMatrix) (enclosing : List LayerProps)
    (hchildren : ∀ (olds : List Layer) (m : SkMatrix) (enc : List LayerProps),
      uncovered (Layer.Diff.DiffChildren assigned m l.layers olds) x y →
      (Layer.drawRecords.recordsOfList m enc l.layers).filter (fun d => d.covers x y)
        = (Layer.drawRecords.recordsOfList m enc olds).filter (fun d => d.covers x y))
    (h : uncovered (Layer.Diff assigned matrix l (some o)) x y) :
    (l.drawRecords matrix enclosing).filter (fun d => d.covers x y)
      = (o.drawRecords matrix enclosing).filter (fun d => d.covers x y) := by
  rw [Layer.Diff_some_eq] at h
  by_cases hsame : l.sameProperties o = true
  · rw [if_pos hsame] at h
    simp only [Layer.sameProperties, Bool.and_eq_true, beq_iff_eq, Bool.or_eq_true,
      Bool.not_eq_true'] at hsame
    obtain ⟨hprops, hbounds⟩ := hsame
    rw [Layer.drawRecords_eq matrix enclosing l, Layer.drawRecords_eq matrix enclosing o,
      List.filter_append, List.filter_append, ← hprops, hchildren o.layers _ _ h]
    congr 2
    cases hc : l.props.hasContent with
    | false => rfl
    | true =>
      rw [hc] at hbounds
      have hb : l.paint_bounds = o.paint_bounds := by simpa using hbounds
      rw [hb]
  · rw [if_neg hsame] at h
    obtain ⟨hl, ho⟩ := uncovered_append.mp h
    rw [Layer.filter_drawRecords_of_uncovered l matrix enclosing x y hl,
      Layer.filter_drawRecords_of_uncovered o matrix enclosing x y ho]

theorem Layer.diffChildren_nil_sound (assigned : OldLayerAssignment) (x y : ℚ)
    (olds : List Layer) (matrix : SkMatrix) (enclosing : List LayerProps)
    (h : uncovered (Layer.Diff.DiffChildren assigned matrix [] olds) x y) :
    (Layer.drawRecords.recordsOfList matrix enclosing []).filter (fun d => d.covers x y)
      = (Layer.drawRecords.recordsOfList matrix enclosing olds).filter
          (fun d => d.covers x y) := by
  simp only [Layer.Diff.DiffChildren] at h
  rw [Layer.filter_recordsOfList_of_uncovered olds matrix enclosing x y h]
  rfl

mutual

theorem Layer.diff_sound (assigned : OldLayerAssignment) (x y : ℚ) :
    ∀ (l o : Layer) (matrix : SkMatrix) (enclosing : List LayerProps),
      uncovered (Layer.Diff assigned matrix l (some o)) x y →
      (l.drawRecords matrix enclosing).filter (fun d => d.covers x y)
        = (o.drawRecords matrix enclosing).filter (fun d => d.covers x y)
  | .mock _ _ _ _ _, o, matrix, enclosing, h =>
    Layer.diff_node_sound assigned x y _ o matrix enclosing
      (fun olds m enc => Layer.diffChildren_nil_sound assigned x y olds m enc) h
  | .container _ layers, o, matrix, enclosing, h =>
    Layer.diff_node_sound assigned x y _ o matrix enclosing
      (fun olds m enc => Layer.diffChildren_sound assigned x y layers olds m enc) h
  | .transform _ _ layers, o, matrix, enclosing, h =>
    Layer.diff_node_sound assigned x y _ o matrix enclosing
      (fun olds m enc => Layer.diffChildren_sound assigned x y layers olds m enc) h
  | .texture _ _ _ _ _ _, o, matrix, enclosing, h =>
    Layer.diff_node_sound assigned x y _ o matrix enclosing
      (fun olds m enc => Layer.diffChildren_nil_sound assigned x y olds m enc) h
  | .physicalShape _ _ _ _ _ _ layers, o, matrix, enclosing, h =>
    Layer.diff_node_sound assigned x y _ o matrix enclosing
      (fun olds m enc => Layer.diffChildren_sound assigned x y layers olds m enc) h

theorem Layer.diffChildren_sound (assigned : OldLayerAssignment) (x y : ℚ) :
    ∀ (layers olds : List Layer) (matrix : SkMatrix) (enclosing : List LayerProps),
      uncovered (Layer.Diff.DiffChildren assigned matrix layers olds) x y →
      (Layer.drawRecords.recordsOfList matrix enclosing layers).filter (fun d => d.covers x y)
        = (Layer.drawRecords.recordsOfList matrix enclosing olds).filter
            (fun d => d.covers x y)
  | [], olds, matrix, enclosing, h =>
    Layer.diffChildren_nil_sound assigned x y olds matrix enclosing h
  | layer :: rest, [], matrix, enclosing, h => by
    simp only [Layer.Diff.DiffChildren] at h
    obtain ⟨h1, h2⟩ := uncovered_append.mp h
    rw [Layer.Diff_none_eq] at h1
    have hrest := Layer.diffChildren_sound assigned x y rest [] matrix enclosing h2
    simp only [Layer.drawRecords.recordsOfList, List.filter_append]
    rw [Layer.filter_drawRecords_of_uncovered layer matrix enclosing x y h1, hrest]
    rfl
  | layer :: rest, o :: olds, matrix, enclosing, h => by
    simp only [Layer.Diff.DiffChildren] at h
    obtain ⟨h1, h2⟩ := uncovered_append.mp h
    have hrest := Layer.diffChildren_sound assigned x y rest olds matrix enclosing h2
    simp only [Layer.drawRecords.recordsOfList, List.filter_append]
    rw [hrest]
    congr 1
    by_cases hrep : Layer.IsReplacing assigned layer o = true
    · rw [if_pos hrep] at h1
      exact Layer.diff_sound assigned x y layer o matrix enclosing h1
    · rw [if_neg hrep] at h1
      obtain ⟨hl, ho⟩ := uncovered_append.mp h1
      rw [Layer.Diff_none_eq] at hl
      rw [Layer.filter_drawRecords_of_uncovered layer matrix enclosing x y hl,
        Layer.filter_drawRecords_of_uncovered o matrix enclosing x y ho]

end

/-- C4: for every pair of layer trees (new, old) and every old-layer
assignment, the damage rectangle returned by the diff contains every
screen-space point at which the painted output of the new tree differs from
that of the old tree. -/
theorem damage_contains_visual_difference (assigned : OldLayerAssignment)
    (layer_tree old_layer_tree : Layer) (x y : ℚ)
    (hdiff : layer_tree.paintedAt x y ≠ old_layer_tree.paintedAt x y) :
    (DiffLayerTree assigned layer_tree old_layer_tree).containsPoint x y := by
  by_contra hout
  apply hdiff
  apply Layer.diff_sound assigned x y layer_tree old_layer_tree SkMatrix.I []
  intro r hr hcontains
  exact hout (ComputeDamage_contains _ r x y hr hcontains)

/-- Witness for C4 on the trees of the unit test: moving the leaf from
`Translate(10, 10)` to `Translate(20, 20)` changes the output at the point
(15, 15), which the old leaf covers and the new one does not, and the damage
contains that point. -/
theorem damage_contains_visual_difference_witness :
    testing.t2.paintedAt 15 15 ≠ testing.t1.paintedAt 15 15 ∧
    (DiffLayerTree testing.assigned testing.t2 testing.t1).containsPoint 15 15 :=
  have hdiff : testing.t2.paintedAt 15 15 ≠ testing.t1.paintedAt 15 15 := by
    simp [testing.t2, testing.t1, testing.m1, testing.prerolled, testing.path1,
      Layer.Preroll, Layer.Preroll.PrerollChildren, SkPath.getBounds, SkMatrix.invert,
      SkMatrix.det, Layer.paintedAt, Layer.drawRecords, Layer.drawRecords.recordsOfList,
      DrawRecord.covers, DrawRecord.screenBounds, SkMatrix.mapRect, SkMatrix.mapX,
      SkMatrix.mapY, SkMatrix.Concat, SkMatrix.I, SkMatrix.Translate, SkRect.MakeLTRB,
      SkRect.containsPoint, List.filter]
    norm_num
  ⟨hdiff, damage_contains_visual_difference testing.assigned testing.t2 testing.t1 15 15 hdiff⟩

/-- C17: when `Render` is called while the animator holds no frame timings
record, the one record it hands to `OnAnimatorDraw` has vsync start, vsync
target and build start all equal to the single clock reading taken at the
call, and as build end the reading taken afterwards; so the build end is not
before the build start whenever the second reading is not before the first.
No record is held after the call. -/
theorem render_without_recorder_synthesizes_timings (s : Animator) (layer_tree : LayerTree)
    (clk : Animator.RenderClock) (hnone : s.frame_timings_recorder_ = none) :
    (s.Render layer_tree clk).events
      = s.events ++ [.OnAnimatorDraw
          { frame_number := clk.frame_number
            vsync_start := some clk.placeholder_time
            vsync_target := some clk.placeholder_time
            build_start := some clk.placeholder_time
            build_end := some clk.build_end }] ∧
    (s.Render layer_tree clk).frame_timings_recorder_ = none ∧
    (clk.placeholder_time ≤ clk.build_end →
      ∀ r ∈ (s.Render layer_tree clk).events.drop s.events.length,
        ∃ build_start build_end : TimePoint,
          r = .OnAnimatorDraw ⟨clk.frame_number, some build_start, some build_start,
            some build_start, some build_end⟩ ∧ build_start ≤ build_end) := by
  have hev : (s.Render layer_tree clk).events
      = s.events ++ [.OnAnimatorDraw
          { frame_number := clk.frame_number
            vsync_start := some clk.placeholder_time
            vsync_target := some clk.placeholder_time
            build_start := some clk.placeholder_time
            build_end := some clk.build_end }] := by
    simp only [Animator.Render]
    split <;>
      simp [hnone, FrameTimingsRecorder.create, FrameTimingsRecorder.RecordVsync,
        FrameTimingsRecorder.RecordBuildStart, FrameTimingsRecorder.RecordBuildEnd]
  refine ⟨hev, by simp [Animator.Render], ?_⟩
  intro hmono r hr
  rw [hev, List.drop_left] at hr
  simp only [List.mem_singleton] at hr
  exact ⟨clk.placeholder_time, clk.build_end, hr, hmono⟩

/-- Witness for C17: a direct render request on a freshly created animator. -/
theorem render_without_recorder_synthesizes_timings_witness :
    ((Animator.create false false).Render ⟨(800, 600)⟩ ⟨7, 1000, 1400⟩).events
      = [.OnAnimatorDraw ⟨7, some 1000, some 1000, some 1000, some 1400⟩] :=
  (render_without_recorder_synthesizes_timings (Animator.create false false) ⟨(800, 600)⟩
    ⟨7, 1000, 1400⟩ rfl).1

theorem Animator.RequestFrame_idleView (s : Animator) (b : Bool) :
    (s.RequestFrame b).idleView = s.idleView := by
  cases h : s.canRegister with
  | false => rw [Animator.RequestFrame_of_not_canRegister s b h]; rfl
  | true => rw [Animator.RequestFrame_of_canRegister s b h]; rfl

theorem Animator.call_idleView (s : Animator) (c : Animator.Call) :
    (s.call c).idleView = s.idleView := by
  cases c with
  | Stop => rfl
  | Start =>
    simp only [Animator.call, Animator.Start]
    split
    · rfl
    · rw [Animator.RequestFrame_idleView]; rfl
  | SetDimensionChangePending => rfl
  | EnqueueTraceFlowId id => rfl
  | Render layer_tree clk =>
    simp only [Animator.call, Animator.Render]
    split <;> rfl
  | RequestFrame b => exact Animator.RequestFrame_idleView s b
  | ScheduleSecondaryVsyncCallback id => rfl

theorem Animator.foldl_call_idleView (cs : List Animator.Call) :
    ∀ s : Animator, (cs.foldl Animator.call s).idleView = s.idleView := by
  induction cs with
  | nil => intro s; rfl
  | cons c cs ih =>
    intro s
    rw [List.foldl_cons, ih, Animator.call_idleView]

theorem Animator.ServiceFrame_eq (s : Animator) (clk : Animator.BeginFrameClock)
    (response : List Animator.Call) :
    s.ServiceFrame clk response
      = if !(s.afterProducerCallback clk response).frame_scheduled_ then
          { s.afterProducerCallback clk response with
            task_runners_ :=
              (s.afterProducerCallback clk response).task_runners_.PostDelayedTask
                (s.afterProducerCallback clk response).notify_idle_task_id_
            events :=
              (s.afterProducerCallback clk response).events ++
                [.PostDelayedTask (s.afterProducerCallback clk response).notify_idle_task_id_
                  Animator.kNotifyIdleTaskWaitTime] }
        else s.afterProducerCallback clk response := rfl

theorem Animator.afterProducerCallback_idleView (s : Animator) (clk : Animator.BeginFrameClock)
    (response : List Animator.Call) :
    (s.afterProducerCallback clk response).idleView = s.idleView := by
  unfold Animator.afterProducerCallback
  simp only []
  rw [Animator.foldl_call_idleView]
  rfl

/-- The idle closure `ServiceFrame` may post: it is posted exactly when no
frame is scheduled once the delegate has returned, and it captures the
current id. -/
theorem Animator.ServiceFrame_idle (s : Animator) (clk : Animator.BeginFrameClock)
    (response : List Animator.Call) :
    (s.ServiceFrame clk response).notify_idle_task_id_ = s.notify_idle_task_id_ ∧
    (s.ServiceFrame clk response).frame_scheduled_
      = (s.afterProducerCallback clk response).frame_scheduled_ ∧
    ((s.afterProducerCallback clk response).frame_scheduled_ = false →
      (s.ServiceFrame clk response).task_runners_.ui_delayed_tasks
          = s.task_runners_.ui_delayed_tasks ++ [s.notify_idle_task_id_] ∧
        (s.ServiceFrame clk response).events
          = (s.afterProducerCallback clk response).events ++
              [.PostDelayedTask s.notify_idle_task_id_ 51]) ∧
    ((s.afterProducerCallback clk response).frame_scheduled_ = true →
      (s.ServiceFrame clk response).task_runners_.ui_delayed_tasks
          = s.task_runners_.ui_delayed_tasks ∧
        (s.ServiceFrame clk response).events = (s.afterProducerCallback clk response).events) := by
  have hview := Animator.afterProducerCallback_idleView s clk response
  simp only [Animator.idleView, Prod.mk.injEq] at hview
  obtain ⟨hid, hdel⟩ := hview
  rw [Animator.ServiceFrame_eq]
  cases hfs : (s.afterProducerCallback clk response).frame_scheduled_ with
  | false =>
    simp [TaskRunners.PostDelayedTask, hid, hdel, hfs, Animator.kNotifyIdleTaskWaitTime]
  | true =>
    simp [hid, hdel, hfs]

theorem Animator.BeginFrame_idle (s : Animator) (r : FrameTimingsRecorder)
    (clk : Animator.BeginFrameClock) (response : List Animator.Call) :
    (s.BeginFrame r clk response).notify_idle_task_id_ = s.notify_idle_task_id_ + 1 ∧
    ((s.BeginFrame r clk response).task_runners_.ui_delayed_tasks
        = s.task_runners_.ui_delayed_tasks ∨
      ((s.BeginFrame r clk response).task_runners_.ui_delayed_tasks
          = s.task_runners_.ui_delayed_tasks ++ [s.notify_idle_task_id_ + 1] ∧
        (s.BeginFrame r clk response).frame_scheduled_ = false ∧
        (s.BeginFrame r clk response).events.getLast?
          = some (.PostDelayedTask (s.notify_idle_task_id_ + 1) 51))) := by
  have hservice : ∀ t : Animator, t.notify_idle_task_id_ = s.notify_idle_task_id_ + 1 →
      t.task_runners_.ui_delayed_tasks = s.task_runners_.ui_delayed_tasks →
      (t.ServiceFrame clk response).notify_idle_task_id_ = s.notify_idle_task_id_ + 1 ∧
      ((t.ServiceFrame clk response).task_runners_.ui_delayed_tasks
          = s.task_runners_.ui_delayed_tasks ∨
        ((t.ServiceFrame clk response).task_runners_.ui_delayed_tasks
            = s.task_runners_.ui_delayed_tasks ++ [s.notify_idle_task_id_ + 1] ∧
          (t.ServiceFrame clk response).frame_scheduled_ = false ∧
          (t.ServiceFrame clk response).events.getLast?
            = some (.PostDelayedTask (s.notify_idle_task_id_ + 1) 51))) := by
    intro t hid hdel
    obtain ⟨h1, h2, h3, h4⟩ := Animator.ServiceFrame_idle t clk response
    refine ⟨by rw [h1, hid], ?_⟩
    cases hfs : (t.afterProducerCallback clk response).frame_scheduled_ with
    | false =>
      obtain ⟨h5, h6⟩ := h3 hfs
      right
      refine ⟨by rw [h5, hid, hdel], by rw [h2, hfs], ?_⟩
      rw [h6, hid]
      simp
    | true =>
      left
      rw [(h4 hfs).1, hdel]
  unfold Animator.BeginFrame
  simp only []
  split
  · split
    · rw [show ∀ t : Animator, (t.RequestFrame Animator.kRequestFrameDefault).notify_idle_task_id_
          = t.notify_idle_task_id_ from fun t =>
            congrArg Prod.fst (Animator.RequestFrame_idleView t _),
        show ∀ t : Animator,
          (t.RequestFrame Animator.kRequestFrameDefault).task_runners_.ui_delayed_tasks
            = t.task_runners_.ui_delayed_tasks from fun t =>
            congrArg Prod.snd (Animator.RequestFrame_idleView t _)]
      exact ⟨rfl, Or.inl rfl⟩
    · exact hservice _ rfl rfl
  · exact hservice _ rfl rfl

theorem Animator.step_notify_idle_task_id (s : Animator) (st : Animator.Step) :
    (s.step st).notify_idle_task_id_
      = s.notify_idle_task_id_ + (if s.beginsFrame st then 1 else 0) := by
  cases st with
  | call c =>
    have := congrArg Prod.fst (Animator.call_idleView s c)
    simpa [Animator.step, Animator.beginsFrame, Animator.idleView] using this
  | runTask =>
    simp only [Animator.step, Animator.beginsFrame]
    split <;> rfl
  | runDelayedTask dart_now =>
    simp only [Animator.step, Animator.beginsFrame]
    split
    · rfl
    · simp only [Animator.NotifyIdleTask]
      split <;> rfl
  | vsync r clk response =>
    simp only [Animator.step, Animator.beginsFrame]
    by_cases hcb : s.waiter_.callbacks = 0
    · simp [hcb]
    · by_cases hre : s.regenerate_layer_tree_ = true
      · simp only [hcb, if_false, Animator.VsyncCallback, Animator.CanReuseLastLayerTree, hre,
          Bool.not_true, Bool.false_eq_true]
        rw [(Animator.BeginFrame_idle _ r clk response).1]
        simp [hcb]
      · simp only [Bool.not_eq_true] at hre
        simp [hcb, hre, Animator.VsyncCallback, Animator.CanReuseLastLayerTree,
          Animator.DrawLastLayerTree, Animator.emit]
  | secondary =>
    simp only [Animator.step, Animator.beginsFrame]
    split
    · simp only [Animator.MaybeClearTraceFlowIds]
      split <;> rfl
    · rfl
  | consume => rfl

theorem Animator.run_notify_idle_task_id (steps : List Animator.Step) :
    ∀ s : Animator,
      (s.run steps).notify_idle_task_id_ = s.notify_idle_task_id_ + s.countBeginFrames steps := by
  induction steps with
  | nil => intro s; rfl
  | cons st steps ih =>
    intro s
    rw [Animator.run_cons, ih, Animator.step_notify_idle_task_id]
    simp only [Animator.countBeginFrames]
    omega

/-- C18: `BeginFrame` increases `notify_idle_task_id_` by exactly one and no
step decreases it: after any steps it has grown by the number of `BeginFrame`
runs among them. `BeginFrame` posts at most one idle closure, with a delay of
51 ms, capturing the new id, and only when `frame_scheduled_` is false once
the delegate has returned (the part past the continuation posts it exactly
then). When the closure runs it calls `OnAnimatorNotifyIdle` if and only if
the id it captured is still the current one and `frame_scheduled_` is false;
so a closure that captured the id of state `s` and runs after further steps
notifies if and only if no `BeginFrame` ran among them and no frame is
scheduled. -/
theorem idle_task_notifies_iff_current :
    (∀ (s : Animator) (r : FrameTimingsRecorder) (clk : Animator.BeginFrameClock)
        (response : List Animator.Call),
      (s.BeginFrame r clk response).notify_idle_task_id_ = s.notify_idle_task_id_ + 1 ∧
      ((s.BeginFrame r clk response).task_runners_.ui_delayed_tasks
          = s.task_runners_.ui_delayed_tasks ∨
        ((s.BeginFrame r clk response).task_runners_.ui_delayed_tasks
            = s.task_runners_.ui_delayed_tasks ++ [s.notify_idle_task_id_ + 1] ∧
          (s.BeginFrame r clk response).frame_scheduled_ = false ∧
          (s.BeginFrame r clk response).events.getLast?
            = some (.PostDelayedTask (s.notify_idle_task_id_ + 1) 51)))) ∧
    (∀ (s : Animator) (clk : Animator.BeginFrameClock) (response : List Animator.Call),
      ((s.ServiceFrame clk response).task_runners_.ui_delayed_tasks
          = s.task_runners_.ui_delayed_tasks ++ [s.notify_idle_task_id_]
        ↔ (s.afterProducerCallback clk response).frame_scheduled_ = false) ∧
      ((s.ServiceFrame clk response).task_runners_.ui_delayed_tasks
          = s.task_runners_.ui_delayed_tasks
        ↔ (s.afterProducerCallback clk response).frame_scheduled_ = true)) ∧
    (∀ (s : Animator) (steps : List Animator.Step),
      (s.run steps).notify_idle_task_id_
        = s.notify_idle_task_id_ + s.countBeginFrames steps) ∧
    (∀ (s : Animator) (st : Animator.Step),
      s.notify_idle_task_id_ ≤ (s.step st).notify_idle_task_id_) ∧
    (∀ (s : Animator) (notify_idle_task_id : Nat) (dart_now : Int),
      s.NotifyIdleTask notify_idle_task_id dart_now
        = if notify_idle_task_id = s.notify_idle_task_id_ ∧ s.frame_scheduled_ = false then
            { s with events := s.events ++ [.OnAnimatorNotifyIdle (dart_now + 100000)] }
          else s) ∧
    (∀ (s : Animator) (steps : List Animator.Step) (dart_now : Int),
      (s.run steps).NotifyIdleTask s.notify_idle_task_id_ dart_now
        = if s.countBeginFrames steps = 0 ∧ (s.run steps).frame_scheduled_ = false then
            { s.run steps with
              events := (s.run steps).events ++ [.OnAnimatorNotifyIdle (dart_now + 100000)] }
          else s.run steps) := by
  have hnotify : ∀ (s : Animator) (notify_idle_task_id : Nat) (dart_now : Int),
      s.NotifyIdleTask notify_idle_task_id dart_now
        = if notify_idle_task_id = s.notify_idle_task_id_ ∧ s.frame_scheduled_ = false then
            { s with events := s.events ++ [.OnAnimatorNotifyIdle (dart_now + 100000)] }
          else s := by
    intro s k dart_now
    unfold Animator.NotifyIdleTask
    by_cases hk : k = s.notify_idle_task_id_ <;> cases hfs : s.frame_scheduled_ <;>
      simp [hk, hfs, Animator.emit]
  refine ⟨fun s r clk response => Animator.BeginFrame_idle s r clk response, ?_,
    fun s steps => Animator.run_notify_idle_task_id steps s, ?_, hnotify, ?_⟩
  · intro s clk response
    obtain ⟨-, -, h3, h4⟩ := Animator.ServiceFrame_idle s clk response
    cases hfs : (s.afterProducerCallback clk response).frame_scheduled_ with
    | false =>
      rw [(h3 hfs).1]
      simp
    | true =>
      rw [(h4 hfs).1]
      simp
  · intro s st
    rw [Animator.step_notify_idle_task_id]
    omega
  · intro s steps dart_now
    rw [hnotify]
    have hid := Animator.run_notify_idle_task_id steps s
    by_cases hc : s.countBeginFrames steps = 0
    · have heq : s.notify_idle_task_id_ = (s.run steps).notify_idle_task_id_ := by omega
      by_cases hfs : (s.run steps).frame_scheduled_ = false
      · rw [if_pos ⟨heq, hfs⟩, if_pos ⟨hc, hfs⟩]
      · rw [if_neg (fun h => hfs h.2), if_neg (fun h => hfs h.2)]
    · have hne : ¬ s.notify_idle_task_id_ = (s.run steps).notify_idle_task_id_ := by omega
      rw [if_neg (fun h => hne h.1), if_neg (fun h => hc h.1)]

/-- Witness for C18: on the animator that rendered one frame, the idle closure
posted by that `BeginFrame` (it captured id 1) notifies when it runs at once,
and no longer notifies after a further frame was requested and begun. -/
theorem idle_task_notifies_iff_current_witness :
    (Animator.fullPipelineExample.run []).NotifyIdleTask
        Animator.fullPipelineExample.notify_idle_task_id_ 500
      = { Animator.fullPipelineExample with
          events := Animator.fullPipelineExample.events ++ [.OnAnimatorNotifyIdle 100500] } ∧
    Animator.fullPipelineAfterBeginFrame.NotifyIdleTask
        Animator.fullPipelineExample.notify_idle_task_id_ 500
      = Animator.fullPipelineAfterBeginFrame :=
  ⟨(idle_task_notifies_iff_current.2.2.2.2.2 Animator.fullPipelineExample [] 500).trans
      (by decide),
   (idle_task_notifies_iff_current.2.2.2.2.2 Animator.fullPipelineExample
      [ .call (.RequestFrame true), .runTask,
        .vsync (Animator.exampleTimings 2 18000 34000) ⟨18100, 60, 18100⟩ [] ] 500).trans
      (by decide)⟩

/-- C19: `Stop` sets `paused_` and changes nothing else, so a second `Stop`
changes nothing. `Start` on an animator that is not paused returns it
unchanged; on a paused animator it clears `paused_` and makes the one call
`RequestFrame()`, which, when the pending-frame semaphore is free, posts one
`AwaitVSync` closure. -/
theorem stop_start_toggle_paused (s : Animator) :
    s.Stop = { s with paused_ := true } ∧
    s.Stop.Stop = s.Stop ∧
    s.Start
      = (if s.paused_ then
          Animator.RequestFrame { s with paused_ := false } Animator.kRequestFrameDefault
        else s) ∧
    (s.paused_ = false → s.Start = s) ∧
    (s.paused_ = true →
      s.Start.paused_ = false ∧
      (s.pending_frame_semaphore_.count ≠ 0 →
        s.Start.events = s.events ++ [.PostTask s.requestFrameNumber] ∧
        s.Start.task_runners_.ui_tasks = s.task_runners_.ui_tasks ++ [s.requestFrameNumber]) ∧
      (s.pending_frame_semaphore_.count = 0 →
        s.Start.events = s.events ∧ s.Start.task_runners_ = s.task_runners_)) := by
  refine ⟨rfl, rfl, ?_, ?_, ?_⟩
  · cases h : s.paused_ <;> simp [Animator.Start, h]
  · intro h
    simp [Animator.Start, h]
  · intro h
    have hstart : s.Start
        = Animator.RequestFrame { s with paused_ := false } Animator.kRequestFrameDefault := by
      simp [Animator.Start, h]
    rw [hstart]
    refine ⟨?_, ?_, ?_⟩
    · cases hc : Animator.canRegister { s with paused_ := false }
      · rw [Animator.RequestFrame_of_not_canRegister _ _ hc]
      · rw [Animator.RequestFrame_of_canRegister _ _ hc]
    · intro hcount
      have hc : Animator.canRegister { s with paused_ := false } = true := by
        simp [Animator.canRegister, hcount]
      rw [Animator.RequestFrame_of_canRegister _ _ hc]
      exact ⟨rfl, rfl⟩
    · intro hcount
      have hc : Animator.canRegister { s with paused_ := false } = false := by
        simp [Animator.canRegister, hcount]
      rw [Animator.RequestFrame_of_not_canRegister _ _ hc]
      exact ⟨rfl, rfl⟩

/-- Witness for C19: `Start` after `Stop` on a freshly created animator posts
one closure, and `Start` on the fresh (unpaused) animator does nothing. -/
theorem stop_start_toggle_paused_witness :
    (Animator.create false false).Stop.Start.events = [.PostTask 0] ∧
    (Animator.create false false).Stop.Start.paused_ = false ∧
    (Animator.create false false).Start = Animator.create false false :=
  ⟨((stop_start_toggle_paused (Animator.create false false).Stop).2.2.2.2 rfl).2.1
      (by decide) |>.1,
   ((stop_start_toggle_paused (Animator.create false false).Stop).2.2.2.2 rfl).1,
   (stop_start_toggle_paused (Animator.create false false)).2.2.2.1 rfl⟩

mutual

theorem Layer.Preroll_context (can_system_composite : Bool) :
    ∀ (l : Layer) (context : PrerollContext) (matrix : SkMatrix),
      (l.Preroll can_system_composite context matrix).2 = context
  | .mock _ _ _ _ _, context, matrix => by simp [Layer.Preroll]
  | .container base layers, context, matrix => by
    simp only [Layer.Preroll]
    exact Layer.PrerollChildren_context can_system_composite layers context matrix _ _
  | .transform base transform_ layers, context, matrix => by
    simp only [Layer.Preroll]
    rw [Layer.PrerollChildren_context can_system_composite layers]
    cases transform_.invert <;> rfl
  | .texture _ _ _ _ _ _, context, matrix => by simp [Layer.Preroll]
  | .physicalShape base c sc e p cb layers, context, matrix => by
    simp only [Layer.Preroll]
    split <;> exact Layer.PrerollChildren_context can_system_composite layers context matrix _ _

theorem Layer.PrerollChildren_context (can_system_composite : Bool) :
    ∀ (layers : List Layer) (context : PrerollContext) (matrix : SkMatrix)
      (child_paint_bounds : SkRect) (needs_system_composite : Bool),
      (Layer.Preroll.PrerollChildren can_system_composite layers context matrix
        child_paint_bounds needs_system_composite).context = context
  | [], context, matrix, child_paint_bounds, needs_system_composite => by
    simp [Layer.Preroll.PrerollChildren]
  | layer :: rest, context, matrix, child_paint_bounds, needs_system_composite => by
    simp only [Layer.Preroll.PrerollChildren]
    rw [Layer.PrerollChildren_context can_system_composite rest,
      Layer.Preroll_context can_system_composite layer]

end

theorem Layer.PrerollChildren_layers (can_system_composite : Bool) (layers : List Layer)
    (context : PrerollContext) (matrix : SkMatrix) :
    ∀ (child_paint_bounds : SkRect) (needs_system_composite : Bool),
      (Layer.Preroll.PrerollChildren can_system_composite layers context matrix
        child_paint_bounds needs_system_composite).layers
        = layers.map fun c => (c.Preroll can_system_composite context matrix).1 := by
  induction layers with
  | nil => intro _ _; simp [Layer.Preroll.PrerollChildren]
  | cons layer rest ih =>
    intro child_paint_bounds needs_system_composite
    simp only [Layer.Preroll.PrerollChildren, List.map_cons]
    rw [Layer.Preroll_context, ih]

theorem Layer.PrerollChildren_child_paint_bounds (can_system_composite : Bool)
    (layers : List Layer) (context : PrerollContext) (matrix : SkMatrix) :
    ∀ (child_paint_bounds : SkRect) (needs_system_composite : Bool),
      (Layer.Preroll.PrerollChildren can_system_composite layers context matrix
        child_paint_bounds needs_system_composite).child_paint_bounds
        = ((layers.map fun c => (c.Preroll can_system_composite context matrix).1).map
            Layer.paint_bounds).foldl SkRect.join child_paint_bounds := by
  induction layers with
  | nil => intro _ _; simp [Layer.Preroll.PrerollChildren]
  | cons layer rest ih =>
    intro child_paint_bounds needs_system_composite
    simp only [Layer.Preroll.PrerollChildren, List.map_cons, List.foldl_cons]
    rw [Layer.Preroll_context, ih]

theorem SkMatrix.Concat_invert (m inverse : SkMatrix) (h : m.invert = some inverse) :
    SkMatrix.Concat m inverse = SkMatrix.I ∧ SkMatrix.Concat inverse m = SkMatrix.I := by
  unfold SkMatrix.invert at h
  split at h
  · cases h
  · rename_i hdet
    cases h
    have hd : m.sx * m.sy - m.kx * m.ky ≠ 0 := hdet
    constructor <;>
      simp only [SkMatrix.Concat, SkMatrix.I, SkMatrix.det, SkMatrix.mk.injEq] <;>
      refine ⟨?_, ?_, ?_, ?_, ?_, ?_⟩ <;>
      field_simp <;> ring

theorem Layer.Preroll_transform_layers (can_system_composite : Bool) (base : LayerBase)
    (M inverse : SkMatrix) (layers : List Layer) (context : PrerollContext) (P : SkMatrix)
    (hinv : M.invert = some inverse) :
    ((Layer.transform base M layers).Preroll can_system_composite context P).1.layers
      = layers.map fun c =>
          (c.Preroll can_system_composite
            { context with cull_rect := inverse.mapRect context.cull_rect }
            (SkMatrix.Concat P M)).1 := by
  simp only [Layer.Preroll, hinv, Layer.layers]
  rw [Layer.PrerollChildren_layers]

/-- C11: a transform layer with invertible matrix `M`, prerolled under parent
matrix `P` with cull rectangle `C`, prerolls every child under the matrix
`Concat(P, M)` and the cull rectangle `M⁻¹.mapRect(C)`, and hands the context
back as it got it; a test leaf records exactly the matrix and the cull
rectangle it is prerolled with. For a transform layer with invertible matrix
`M2` among the children, its children in turn are prerolled under
`Concat(Concat(P, M), M2)` and the cull rectangle mapped through `M⁻¹` and
then `M2⁻¹`. -/
theorem transform_preroll_children_matrix_and_cull (can_system_composite : Bool)
    (base : LayerBase) (M inverse : SkMatrix) (layers : List Layer) (context : PrerollContext)
    (P : SkMatrix) (hinv : M.invert = some inverse) :
    (SkMatrix.Concat M inverse = SkMatrix.I ∧ SkMatrix.Concat inverse M = SkMatrix.I) ∧
    ((Layer.transform base M layers).Preroll can_system_composite context P).1.layers
      = (layers.map fun c =>
          (c.Preroll can_system_composite
            { context with cull_rect := inverse.mapRect context.cull_rect }
            (SkMatrix.Concat P M)).1) ∧
    ((Layer.transform base M layers).Preroll can_system_composite context P).2 = context ∧
    (∀ (b : LayerBase) (path : SkPath) (paint : SkPaint) (pm : SkMatrix) (pc : SkRect)
        (ctx : PrerollContext) (matrix : SkMatrix),
      ((Layer.mock b path paint pm pc).Preroll can_system_composite ctx matrix).1
        = .mock { b with paint_bounds := path.getBounds } path paint matrix ctx.cull_rect) ∧
    (∀ (base2 : LayerBase) (M2 inverse2 : SkMatrix) (layers2 : List Layer),
      M2.invert = some inverse2 → Layer.transform base2 M2 layers2 ∈ layers →
      ∃ t2 ∈ ((Layer.transform base M layers).Preroll can_system_composite context P).1.layers,
        t2.props = .transform M2 ∧
        t2.layers = layers2.map fun c =>
          (c.Preroll can_system_composite
            { context with
              cull_rect := inverse2.mapRect (inverse.mapRect context.cull_rect) }
            (SkMatrix.Concat (SkMatrix.Concat P M) M2)).1) := by
  refine ⟨SkMatrix.Concat_invert M inverse hinv,
    Layer.Preroll_transform_layers can_system_composite base M inverse layers context P hinv,
    Layer.Preroll_context can_system_composite _ context P, fun _ _ _ _ _ _ _ => rfl, ?_⟩
  intro base2 M2 inverse2 layers2 hinv2 hmem
  rw [Layer.Preroll_transform_layers can_system_composite base M inverse layers context P hinv]
  refine ⟨_, List.mem_map.mpr ⟨_, hmem, rfl⟩, ?_, ?_⟩
  · simp [Layer.Preroll, Layer.props]
  · exact Layer.Preroll_transform_layers can_system_composite base2 M2 inverse2 layers2 _ _ hinv2

/-- Witness for C11 with the values of the unit test: the leaf under
`Translate(2.5, 2.5)`, prerolled under `Translate(-0.5, -0.5)` with the cull
rectangle (2, 2, 16, 16), records the concatenated matrix and the cull
rectangle moved back by (2.5, 2.5). -/
theorem transform_preroll_children_matrix_and_cull_witness :
    ((Layer.transform (LayerBase.initial 2) testing.layer_transform
        [testing.mock_layer]).Preroll false testing.preroll_context_culled
        testing.initial_transform).1.layers
      = [.mock { LayerBase.initial 1 with paint_bounds := testing.child_path.getBounds }
          testing.child_path ⟨0, false⟩
          (SkMatrix.Concat testing.initial_transform testing.layer_transform)
          (testing.inverse_layer_transform.mapRect testing.cull_rect)] :=
  (transform_preroll_children_matrix_and_cull false (LayerBase.initial 2)
    testing.layer_transform testing.inverse_layer_transform [testing.mock_layer]
    testing.preroll_context_culled testing.initial_transform
    (by
      simp [SkMatrix.invert, SkMatrix.det, testing.layer_transform,
        testing.inverse_layer_transform, SkMatrix.Translate]
      norm_num)).2.1

theorem Layer.Preroll_transform_paint_bounds (can_system_composite : Bool) (base : LayerBase)
    (M : SkMatrix) (layers : List Layer) (context : PrerollContext) (P : SkMatrix) :
    ((Layer.transform base M layers).Preroll can_system_composite context P).1.paint_bounds
      = M.mapRect
          ((((Layer.transform base M layers).Preroll can_system_composite context
              P).1.layers.map Layer.paint_bounds).foldl SkRect.join SkRect.MakeEmpty) := by
  simp only [Layer.Preroll, Layer.paint_bounds, Layer.base, Layer.layers]
  rw [Layer.PrerollChildren_child_paint_bounds, Layer.PrerollChildren_layers]

theorem SkRect.MakeEmpty_join (a : SkRect) (h : a.isEmpty = false) :
    SkRect.MakeEmpty.join a = a := by
  have he : SkRect.MakeEmpty.isEmpty = true := by simp [SkRect.MakeEmpty, SkRect.isEmpty]
  unfold SkRect.join
  simp only [h, he, if_true, Bool.false_eq_true, if_false]

/-- C12, as the claim states its consequence, fails for a leaf whose bounds
are empty: under the shear `(x, y) ↦ (x + y, y)` the leaf with bounds
(0, 0, 0, 10) keeps these bounds, the join ignores them, and the transform
layer gets the bounds (0, 0, 0, 0), not the image (0, 0, 10, 10) of the
leaf's bounds. -/
theorem transform_bounds_of_empty_leaf_counterexample :
    ((Layer.transform (LayerBase.initial 2) testing.shear [testing.segment_layer]).Preroll
        false testing.preroll_context SkMatrix.I).1.paint_bounds
      = SkRect.MakeLTRB 0 0 0 0 ∧
    testing.shear.mapRect (SkRect.MakeLTRB 0 0 0 10) = SkRect.MakeLTRB 0 0 10 10 ∧
    ((Layer.transform (LayerBase.initial 2) testing.shear [testing.segment_layer]).Preroll
        false testing.preroll_context SkMatrix.I).1.layers.map Layer.paint_bounds
      = [SkRect.MakeLTRB 0 0 0 10] := by
  refine ⟨?_, ?_, ?_⟩
  · simp [Layer.Preroll, Layer.Preroll.PrerollChildren, Layer.paint_bounds, Layer.base,
      testing.shear, testing.segment_layer, SkMatrix.invert, SkMatrix.det, SkPath.getBounds,
      SkRect.join, SkRect.isEmpty, SkRect.MakeEmpty, SkRect.MakeLTRB, SkMatrix.mapRect,
      SkMatrix.mapX, SkMatrix.mapY]
  · simp [testing.shear, SkRect.MakeLTRB, SkMatrix.mapRect, SkMatrix.mapX, SkMatrix.mapY]
  · simp [Layer.Preroll, Layer.Preroll.PrerollChildren, Layer.paint_bounds, Layer.base,
      Layer.layers, testing.shear, testing.segment_layer, SkMatrix.invert, SkMatrix.det,
      SkPath.getBounds]

/-- C12, amended: the paint bounds of a transform layer with matrix `M` after
`Preroll` are `M.mapRect` of the union (the join, starting from the empty
rectangle) of the paint bounds of its prerolled children. For nested transform
layers `T1(M1)` containing `T2(M2)` containing a leaf with bounds `B` that are
not empty, the leaf keeps the bounds `B`, the bounds of `T2` are
`M2.mapRect(B)`, and, when these are not empty either, the bounds of `T1` are
`M1.mapRect(M2.mapRect(B))`. -/
theorem transform_preroll_paint_bounds (can_system_composite : Bool) (base : LayerBase)
    (M : SkMatrix) (layers : List Layer) (context : PrerollContext) (P : SkMatrix) :
    ((Layer.transform base M layers).Preroll can_system_composite context P).1.paint_bounds
      = M.mapRect
          ((((Layer.transform base M layers).Preroll can_system_composite context
              P).1.layers.map Layer.paint_bounds).foldl SkRect.join SkRect.MakeEmpty) ∧
    ∀ (base2 : LayerBase) (M2 : SkMatrix) (b : LayerBase) (path : SkPath) (paint : SkPaint)
      (pm : SkMatrix) (pc : SkRect),
      path.getBounds.isEmpty = false →
      ((Layer.transform base M
          [Layer.transform base2 M2 [Layer.mock b path paint pm pc]]).Preroll
          can_system_composite context P).1.layers.map
          (fun t2 => t2.layers.map Layer.paint_bounds) = [[path.getBounds]] ∧
      ((Layer.transform base M
          [Layer.transform base2 M2 [Layer.mock b path paint pm pc]]).Preroll
          can_system_composite context P).1.layers.map Layer.paint_bounds
        = [M2.mapRect path.getBounds] ∧
      ((M2.mapRect path.getBounds).isEmpty = false →
        ((Layer.transform base M
            [Layer.transform base2 M2 [Layer.mock b path paint pm pc]]).Preroll
            can_system_composite context P).1.paint_bounds
          = M.mapRect (M2.mapRect path.getBounds)) := by
  refine ⟨Layer.Preroll_transform_paint_bounds can_system_composite base M layers context P, ?_⟩
  intro base2 M2 b path paint pm pc hB
  have hjoin := SkRect.MakeEmpty_join _ hB
  refine ⟨?_, ?_, ?_⟩
  · simp [Layer.Preroll, Layer.Preroll.PrerollChildren, Layer.layers, Layer.paint_bounds,
      Layer.base]
  · simp [Layer.Preroll, Layer.Preroll.PrerollChildren, Layer.layers, Layer.paint_bounds,
      Layer.base, hjoin]
  · intro hB2
    have hjoin2 := SkRect.MakeEmpty_join _ hB2
    simp [Layer.Preroll, Layer.Preroll.PrerollChildren, Layer.paint_bounds, Layer.base, hjoin,
      hjoin2]

/-- Witness for the amended C12 with the values of the unit test `Nested`:
the leaf with bounds (5, 6, 20.5, 21.5) under two layers `Translate(2.5, 2.5)`
gives the outer layer the bounds (10, 11, 25.5, 26.5). -/
theorem transform_preroll_paint_bounds_witness :
    ((Layer.transform (LayerBase.initial 3) testing.layer_transform
        [Layer.transform (LayerBase.initial 2) testing.layer_transform
          [testing.mock_layer]]).Preroll false testing.preroll_context_culled
        testing.initial_transform).1.paint_bounds
      = SkRect.MakeLTRB 10 11 (51 / 2) (53 / 2) := by
  have hB : testing.child_path.getBounds.isEmpty = false := by
    simp [testing.child_path, SkPath.getBounds, SkRect.MakeLTRB, SkRect.isEmpty]
    norm_num
  have hB2 : (testing.layer_transform.mapRect testing.child_path.getBounds).isEmpty = false := by
    simp [testing.child_path, testing.layer_transform, SkMatrix.Translate, SkPath.getBounds,
      SkRect.MakeLTRB, SkRect.isEmpty, SkMatrix.mapRect, SkMatrix.mapX, SkMatrix.mapY]
    norm_num
  have h := ((transform_preroll_paint_bounds false (LayerBase.initial 3)
    testing.layer_transform [] testing.preroll_context_culled testing.initial_transform).2
    (LayerBase.initial 2) testing.layer_transform (LayerBase.initial 1) testing.child_path
    ⟨0, false⟩ SkMatrix.I SkRect.MakeEmpty hB).2.2 hB2
  simp only [testing.mock_layer]
  rw [h]
  simp [testing.child_path, testing.layer_transform, SkMatrix.Translate, SkPath.getBounds,
    SkRect.MakeLTRB, SkMatrix.mapRect, SkMatrix.mapX, SkMatrix.mapY]
  norm_num

/-! ### Diff of unchanged trees -/

theorem Layer.layers_eq_nil_of_props_mock (o : Layer) (path : SkPath) (paint : SkPaint)
    (h : LayerProps.mock path paint = o.props) : o.layers = [] := by
  cases o <;> simp_all [Layer.props, Layer.layers]

theorem Layer.layers_eq_nil_of_props_texture (o : Layer) (of sz : ℚ × ℚ) (id : Int) (fr : Bool)
    (sm : Nat) (h : LayerProps.texture of sz id fr sm = o.props) : o.layers = [] := by
  cases o <;> simp_all [Layer.props, Layer.layers]

theorem Layer.props_eq_of_sameProperties {l o : Layer} (h : l.sameProperties o = true) :
    l.props = o.props := by
  simp only [Layer.sameProperties, Bool.and_eq_true, beq_iff_eq] at h
  exact h.1

theorem Layer.DiffChildren_nil_nil (assigned : OldLayerAssignment) (matrix : SkMatrix) :
    Layer.Diff.DiffChildren assigned matrix [] [] = [] := by
  simp [Layer.Diff.DiffChildren, Layer.paintRegion.regionOfList]

mutual

theorem Layer.Diff_of_unchangedFrom (assigned : OldLayerAssignment) :
    ∀ (l o : Layer) (matrix : SkMatrix), l.unchangedFrom assigned o = true →
      Layer.Diff assigned matrix l (some o) = []
  | .mock base path paint pm pc, o, matrix, h => by
    simp only [Layer.unchangedFrom] at h
    have ho := Layer.layers_eq_nil_of_props_mock o path paint (Layer.props_eq_of_sameProperties h)
    rw [Layer.Diff_some_eq, if_pos h, ho]
    exact Layer.DiffChildren_nil_nil assigned _
  | .container base layers, o, matrix, h => by
    simp only [Layer.unchangedFrom, Bool.and_eq_true] at h
    rw [Layer.Diff_some_eq, if_pos h.1]
    exact Layer.DiffChildren_of_childrenUnchanged assigned layers o.layers _ h.2
  | .transform base transform_ layers, o, matrix, h => by
    simp only [Layer.unchangedFrom, Bool.and_eq_true] at h
    rw [Layer.Diff_some_eq, if_pos h.1]
    exact Layer.DiffChildren_of_childrenUnchanged assigned layers o.layers _ h.2
  | .texture base of sz id fr sm, o, matrix, h => by
    simp only [Layer.unchangedFrom] at h
    have ho := Layer.layers_eq_nil_of_props_texture o of sz id fr sm
      (Layer.props_eq_of_sameProperties h)
    rw [Layer.Diff_some_eq, if_pos h, ho]
    exact Layer.DiffChildren_nil_nil assigned _
  | .physicalShape base c sc e p cb layers, o, matrix, h => by
    simp only [Layer.unchangedFrom, Bool.and_eq_true] at h
    rw [Layer.Diff_some_eq, if_pos h.1]
    exact Layer.DiffChildren_of_childrenUnchanged assigned layers o.layers _ h.2

theorem Layer.DiffChildren_of_childrenUnchanged (assigned : OldLayerAssignment) :
    ∀ (layers olds : List Layer) (matrix : SkMatrix),
      Layer.unchangedFrom.childrenUnchanged assigned layers olds = true →
      Layer.Diff.DiffChildren assigned matrix layers olds = []
  | [], [], matrix, _ => Layer.DiffChildren_nil_nil assigned matrix
  | [], _ :: _, matrix, h => by simp [Layer.unchangedFrom.childrenUnchanged] at h
  | _ :: _, [], matrix, h => by simp [Layer.unchangedFrom.childrenUnchanged] at h
  | layer :: rest, o :: olds, matrix, h => by
    simp only [Layer.unchangedFrom.childrenUnchanged, Bool.and_eq_true] at h
    simp only [Layer.Diff.DiffChildren]
    rw [if_pos h.1.1, Layer.Diff_of_unchangedFrom assigned layer o matrix h.1.2,
      Layer.DiffChildren_of_childrenUnchanged assigned rest olds matrix h.2]
    rfl

end

theorem ComputeDamage_nil : ComputeDamage [] = SkRect.MakeEmpty := rfl
theorem Layer.Preroll_props (can_system_composite : Bool) (l : Layer) (context : PrerollContext)
    (matrix : SkMatrix) : (l.Preroll can_system_composite context matrix).1.props = l.props := by
  cases l with
  | physicalShape base c sc e p cb layers =>
    simp only [Layer.Preroll]
    split <;> rfl
  | _ => rfl

theorem Layer.Preroll_unique_id (can_system_composite : Bool) (l : Layer)
    (context : PrerollContext) (matrix : SkMatrix) :
    (l.Preroll can_system_composite context matrix).1.base.unique_id = l.base.unique_id := by
  cases l with
  | physicalShape base c sc e p cb layers =>
    simp only [Layer.Preroll]
    split
    · simp only [Layer.base]
      split <;> rfl
    · simp only [Layer.base]
      split <;> rfl
  | _ => rfl

theorem Layer.Preroll_IsReplacing (assigned : OldLayerAssignment) (can_system_composite : Bool)
    (l o : Layer) (context : PrerollContext) (matrix : SkMatrix) :
    Layer.IsReplacing assigned (l.Preroll can_system_composite context matrix).1
        (o.Preroll can_system_composite context matrix).1
      = Layer.IsReplacing assigned l o := by
  have hid : Layer.IsReplacingByIdentity assigned
      (l.Preroll can_system_composite context matrix).1
      (o.Preroll can_system_composite context matrix).1
      = Layer.IsReplacingByIdentity assigned l o := by
    simp only [Layer.IsReplacingByIdentity, Layer.Preroll_unique_id]
  have htex : (o.Preroll can_system_composite context matrix).1.as_texture_layer.isSome
      = o.as_texture_layer.isSome := by
    cases o with
    | physicalShape base c sc e p cb layers =>
      simp only [Layer.Preroll]
      split <;> rfl
    | _ => rfl
  cases l with
  | physicalShape base c sc e p cb layers =>
    have hl : Layer.IsReplacing assigned
        ((Layer.physicalShape base c sc e p cb layers).Preroll can_system_composite context
          matrix).1 (o.Preroll can_system_composite context matrix).1
        = Layer.IsReplacingByIdentity assigned
            ((Layer.physicalShape base c sc e p cb layers).Preroll can_system_composite context
              matrix).1 (o.Preroll can_system_composite context matrix).1 := by
      simp only [Layer.Preroll]
      split <;> rfl
    rw [hl, hid]
    rfl
  | texture base of sz id fr sm => exact htex
  | mock base path paint pm pc => exact hid
  | container base layers => exact hid
  | transform base transform_ layers => exact hid

theorem Layer.sameProperties_of_props_of_bounds (l o : Layer) (hp : l.props = o.props)
    (hb : l.paint_bounds = o.paint_bounds) : l.sameProperties o = true := by
  simp [Layer.sameProperties, hp, hb]
mutual

theorem Layer.Preroll_sameTree (assigned : OldLayerAssignment) (can_system_composite : Bool) :
    ∀ (l o : Layer) (context : PrerollContext) (matrix : SkMatrix),
      l.sameTree assigned o = true →
      (l.Preroll can_system_composite context matrix).1.paint_bounds
          = (o.Preroll can_system_composite context matrix).1.paint_bounds ∧
        (l.Preroll can_system_composite context matrix).1.unchangedFrom assigned
          (o.Preroll can_system_composite context matrix).1 = true
  | .mock base path paint pm pc, o, context, matrix, h => by
    cases o with
    | mock b2 path2 paint2 pm2 pc2 =>
      simp only [Layer.sameTree, Layer.props, beq_iff_eq, LayerProps.mock.injEq] at h
      obtain ⟨rfl, rfl⟩ := h
      simp [Layer.Preroll, Layer.unchangedFrom, Layer.sameProperties, Layer.props,
        Layer.paint_bounds, Layer.base]
    | _ => simp [Layer.sameTree, Layer.props] at h
  | .container base layers, o, context, matrix, h => by
    cases o with
    | container b2 os =>
      simp only [Layer.sameTree, Layer.props, Layer.layers, beq_self_eq_true, Bool.true_and] at h
      have ih := Layer.Preroll_sameChildren assigned can_system_composite layers os context
        matrix h
      simp only [Layer.Preroll, Layer.unchangedFrom, Layer.layers, Layer.paint_bounds,
        Layer.base, Layer.PrerollChildren_layers, Layer.PrerollChildren_child_paint_bounds,
        ih.1, ih.2, Bool.and_true]
      simp [Layer.sameProperties, Layer.props, LayerProps.hasContent]
    | _ => simp [Layer.sameTree, Layer.props] at h
  | .transform base transform_ layers, o, context, matrix, h => by
    cases o with
    | transform b2 transform2 os =>
      simp only [Layer.sameTree, Layer.props, Layer.layers, beq_iff_eq, Bool.and_eq_true,
        LayerProps.transform.injEq] at h
      obtain ⟨rfl, h⟩ := h
      have ih := fun ctx => Layer.Preroll_sameChildren assigned can_system_composite layers os
        ctx (SkMatrix.Concat matrix transform_) h
      simp only [Layer.Preroll, Layer.unchangedFrom, Layer.layers, Layer.paint_bounds,
        Layer.base, Layer.PrerollChildren_layers, Layer.PrerollChildren_child_paint_bounds,
        (ih _).1, (ih _).2, Bool.and_true]
      simp [Layer.sameProperties, Layer.props, LayerProps.hasContent]
    | _ => simp [Layer.sameTree, Layer.props] at h
  | .texture base of sz id fr sm, o, context, matrix, h => by
    cases o with
    | texture b2 of2 sz2 id2 fr2 sm2 =>
      simp only [Layer.sameTree, Layer.props, beq_iff_eq, LayerProps.texture.injEq] at h
      obtain ⟨rfl, rfl, rfl, rfl, rfl⟩ := h
      simp [Layer.Preroll, Layer.unchangedFrom, Layer.sameProperties, Layer.props,
        Layer.paint_bounds, Layer.base]
    | _ => simp [Layer.sameTree, Layer.props] at h
  | .physicalShape base c sc e p cb layers, o, context, matrix, h => by
    cases o with
    | physicalShape b2 c2 sc2 e2 p2 cb2 os =>
      simp only [Layer.sameTree, Layer.props, Layer.layers, beq_iff_eq, Bool.and_eq_true,
        LayerProps.physicalShape.injEq] at h
      obtain ⟨⟨rfl, rfl, rfl, rfl, rfl⟩, h⟩ := h
      have ih := Layer.Preroll_sameChildren assigned can_system_composite layers os context
        matrix h
      have hb : ((Layer.physicalShape base c sc e p cb layers).Preroll can_system_composite
            context matrix).1.paint_bounds
          = ((Layer.physicalShape b2 c sc e p cb os).Preroll can_system_composite
            context matrix).1.paint_bounds := by
        simp only [Layer.Preroll, Layer.PrerollChildren_context,
          Layer.PrerollChildren_child_paint_bounds, ih.1]
        split
        · simp only [Layer.paint_bounds, Layer.base]
          split <;> rfl
        · simp only [Layer.paint_bounds, Layer.base]
          split <;> rfl
      refine ⟨hb, ?_⟩
      have hl : ∀ (b : LayerBase) (ls : List Layer),
          ((Layer.physicalShape b c sc e p cb ls).Preroll can_system_composite context
            matrix).1
            = Layer.physicalShape
                ((Layer.physicalShape b c sc e p cb ls).Preroll can_system_composite context
                  matrix).1.base c sc e p cb
                (ls.map fun x => (x.Preroll can_system_composite context matrix).1) := by
        intro b ls
        simp only [Layer.Preroll, Layer.PrerollChildren_layers]
        split <;> rfl
      have hs := Layer.sameProperties_of_props_of_bounds _ _
        ((Layer.Preroll_props can_system_composite (Layer.physicalShape base c sc e p cb layers)
            context matrix).trans
          (Layer.Preroll_props can_system_composite (Layer.physicalShape b2 c sc e p cb os)
            context matrix).symm) hb
      rw [hl base layers] at hs ⊢
      rw [Layer.unchangedFrom, hs]
      rw [hl b2 os]
      simp only [Layer.layers, ih.2, Bool.and_true]
    | _ => simp [Layer.sameTree, Layer.props] at h

theorem Layer.Preroll_sameChildren (assigned : OldLayerAssignment)
    (can_system_composite : Bool) :
    ∀ (layers olds : List Layer) (context : PrerollContext) (matrix : SkMatrix),
      Layer.sameTree.sameChildren assigned layers olds = true →
      (layers.map fun c => (c.Preroll can_system_composite context matrix).1).map
            Layer.paint_bounds
          = (olds.map fun c => (c.Preroll can_system_composite context matrix).1).map
            Layer.paint_bounds ∧
        Layer.unchangedFrom.childrenUnchanged assigned
          (layers.map fun c => (c.Preroll can_system_composite context matrix).1)
          (olds.map fun c => (c.Preroll can_system_composite context matrix).1) = true
  | [], [], _, _, _ => ⟨rfl, rfl⟩
  | [], _ :: _, _, _, h => by simp [Layer.sameTree.sameChildren] at h
  | _ :: _, [], _, _, h => by simp [Layer.sameTree.sameChildren] at h
  | layer :: rest, o :: olds, context, matrix, h => by
    simp only [Layer.sameTree.sameChildren, Bool.and_eq_true] at h
    have h1 := Layer.Preroll_sameTree assigned can_system_composite layer o context matrix h.1.2
    have h2 := Layer.Preroll_sameChildren assigned can_system_composite rest olds context
      matrix h.2
    simp only [List.map_cons, Layer.unchangedFrom.childrenUnchanged, Layer.Preroll_IsReplacing,
      h.1.1, h1.1, h1.2, h2.1, h2.2, Bool.and_self]
    exact ⟨trivial, trivial⟩

end
/-- C13: for every layer tree `t2` that stands unchanged for the previous
tree `t1` (at every position the layer replaces the layer of `t1` at that
position and has the same properties and the same number of children), the
diff of `t2` against `t1` yields the empty damage rectangle. In particular
this holds for two trees prerolled in the same context whose layers, before
preroll, correspond position by position with equal properties (transforms,
clips, paint parameters, children). -/
theorem diff_of_unchanged_tree_is_empty (assigned : OldLayerAssignment) :
    (∀ t2 t1 : Layer, t2.unchangedFrom assigned t1 = true →
      DiffLayerTree assigned t2 t1 = SkRect.MakeEmpty) ∧
    (∀ (can_system_composite : Bool) (context : PrerollContext) (matrix : SkMatrix)
      (r2 r1 : Layer), r2.sameTree assigned r1 = true →
      DiffLayerTree assigned (r2.Preroll can_system_composite context matrix).1
        (r1.Preroll can_system_composite context matrix).1 = SkRect.MakeEmpty) := by
  have h1 : ∀ t2 t1 : Layer, t2.unchangedFrom assigned t1 = true →
      DiffLayerTree assigned t2 t1 = SkRect.MakeEmpty := by
    intro t2 t1 h
    unfold DiffLayerTree
    rw [Layer.Diff_of_unchangedFrom assigned t2 t1 SkMatrix.I h]
    rfl
  refine ⟨h1, ?_⟩
  intro can_system_composite context matrix r2 r1 h
  exact h1 _ _ (Layer.Preroll_sameTree assigned can_system_composite r2 r1 context matrix h).2

/-- Witness for C13 on the trees of the unit test: `t3` (layer 4 with
`Translate(20, 20)`, assigned layer 3) against `t2` gives the empty damage
rectangle. -/
theorem diff_of_unchanged_tree_is_empty_witness :
    testing.t3.unchangedFrom testing.assigned testing.t2 = true ∧
    DiffLayerTree testing.assigned testing.t3 testing.t2 = SkRect.MakeEmpty ∧
    (Layer.container (LayerBase.initial 102)
      [.transform (LayerBase.initial 4) (SkMatrix.Translate 20 20) [testing.m1]]).sameTree
      testing.assigned
      (Layer.container (LayerBase.initial 101)
        [.transform (LayerBase.initial 3) (SkMatrix.Translate 20 20) [testing.m1]]) = true ∧
    DiffLayerTree testing.assigned
      ((Layer.container (LayerBase.initial 102)
        [.transform (LayerBase.initial 4) (SkMatrix.Translate 20 20) [testing.m1]]).Preroll
        false testing.preroll_context SkMatrix.I).1
      ((Layer.container (LayerBase.initial 101)
        [.transform (LayerBase.initial 3) (SkMatrix.Translate 20 20) [testing.m1]]).Preroll
        false testing.preroll_context SkMatrix.I).1 = SkRect.MakeEmpty :=
  have h1 : testing.t3.unchangedFrom testing.assigned testing.t2 = true := by
    simp [testing.t3, testing.t2, testing.m1, testing.prerolled, testing.assigned,
      Layer.Preroll, Layer.Preroll.PrerollChildren, Layer.unchangedFrom,
      Layer.unchangedFrom.childrenUnchanged, Layer.sameProperties, Layer.IsReplacing, Layer.IsReplacingByIdentity,
      Layer.props, Layer.layers, Layer.base, Layer.paint_bounds, LayerProps.hasContent,
      LayerBase.initial]
  have h2 : (Layer.container (LayerBase.initial 102)
      [.transform (LayerBase.initial 4) (SkMatrix.Translate 20 20) [testing.m1]]).sameTree
      testing.assigned
      (Layer.container (LayerBase.initial 101)
        [.transform (LayerBase.initial 3) (SkMatrix.Translate 20 20) [testing.m1]]) = true := by
    simp [testing.m1, testing.assigned, Layer.sameTree, Layer.sameTree.sameChildren,
      Layer.IsReplacing, Layer.IsReplacingByIdentity, Layer.props, Layer.layers, Layer.base,
      LayerBase.initial]
  ⟨h1, (diff_of_unchanged_tree_is_empty testing.assigned).1 _ _ h1, h2,
    (diff_of_unchanged_tree_is_empty testing.assigned).2 false testing.preroll_context
      SkMatrix.I _ _ h2⟩

/-! ### Diff of a tree in which one transform layer moved -/

/-- One node: layers with the same own properties whose children have the
same regions have the same region. -/
theorem Layer.paintRegion_node (l o : Layer) (matrix : SkMatrix)
    (hs : l.sameProperties o = true)
    (hchildren : ∀ m : SkMatrix,
      Layer.paintRegion.regionOfList m l.layers = Layer.paintRegion.regionOfList m o.layers) :
    l.paintRegion matrix = o.paintRegion matrix := by
  simp only [Layer.sameProperties, Bool.and_eq_true, beq_iff_eq, Bool.or_eq_true,
    Bool.not_eq_true'] at hs
  obtain ⟨hprops, hbounds⟩ := hs
  rw [Layer.paintRegion_eq matrix l, Layer.paintRegion_eq matrix o, ← hprops, hchildren]
  congr 1
  cases hc : l.props.hasContent with
  | false => rfl
  | true =>
    rw [hc] at hbounds
    have hb : l.paint_bounds = o.paint_bounds := by simpa using hbounds
    rw [hb]

mutual

theorem Layer.paintRegion_of_unchangedFrom (assigned : OldLayerAssignment) :
    ∀ (l o : Layer) (matrix : SkMatrix), l.unchangedFrom assigned o = true →
      l.paintRegion matrix = o.paintRegion matrix
  | .mock base path paint pm pc, o, matrix, h => by
    simp only [Layer.unchangedFrom] at h
    have ho := Layer.layers_eq_nil_of_props_mock o path paint (Layer.props_eq_of_sameProperties h)
    exact Layer.paintRegion_node _ o matrix h (fun m => by rw [ho]; rfl)
  | .container base layers, o, matrix, h => by
    simp only [Layer.unchangedFrom, Bool.and_eq_true] at h
    exact Layer.paintRegion_node _ o matrix h.1
      (fun m => Layer.regionOfList_of_childrenUnchanged assigned layers o.layers m h.2)
  | .transform base transform_ layers, o, matrix, h => by
    simp only [Layer.unchangedFrom, Bool.and_eq_true] at h
    exact Layer.paintRegion_node _ o matrix h.1
      (fun m => Layer.regionOfList_of_childrenUnchanged assigned layers o.layers m h.2)
  | .texture base of sz id fr sm, o, matrix, h => by
    simp only [Layer.unchangedFrom] at h
    have ho := Layer.layers_eq_nil_of_props_texture o of sz id fr sm
      (Layer.props_eq_of_sameProperties h)
    exact Layer.paintRegion_node _ o matrix h (fun m => by rw [ho]; rfl)
  | .physicalShape base c sc e p cb layers, o, matrix, h => by
    simp only [Layer.unchangedFrom, Bool.and_eq_true] at h
    exact Layer.paintRegion_node _ o matrix h.1
      (fun m => Layer.regionOfList_of_childrenUnchanged assigned layers o.layers m h.2)

theorem Layer.regionOfList_of_childrenUnchanged (assigned : OldLayerAssignment) :
    ∀ (layers olds : List Layer) (matrix : SkMatrix),
      Layer.unchangedFrom.childrenUnchanged assigned layers olds = true →
      Layer.paintRegion.regionOfList matrix layers = Layer.paintRegion.regionOfList matrix olds
  | [], [], _, _ => rfl
  | [], _ :: _, _, h => by simp [Layer.unchangedFrom.childrenUnchanged] at h
  | _ :: _, [], _, h => by simp [Layer.unchangedFrom.childrenUnchanged] at h
  | layer :: rest, o :: olds, matrix, h => by
    simp only [Layer.unchangedFrom.childrenUnchanged, Bool.and_eq_true] at h
    simp only [Layer.paintRegion.regionOfList]
    rw [Layer.paintRegion_of_unchangedFrom assigned layer o matrix h.1.2,
      Layer.regionOfList_of_childrenUnchanged assigned rest olds matrix h.2]

end

theorem Layer.DiffChildren_append_of_childrenUnchanged (assigned : OldLayerAssignment)
    (matrix : SkMatrix) (layers olds : List Layer) :
    ∀ (before old_before : List Layer),
      Layer.unchangedFrom.childrenUnchanged assigned before old_before = true →
      Layer.Diff.DiffChildren assigned matrix (before ++ layers) (old_before ++ olds)
        = Layer.Diff.DiffChildren assigned matrix layers olds
  | [], [], _ => rfl
  | [], _ :: _, h => by simp [Layer.unchangedFrom.childrenUnchanged] at h
  | _ :: _, [], h => by simp [Layer.unchangedFrom.childrenUnchanged] at h
  | layer :: rest, o :: old_rest, h => by
    simp only [Layer.unchangedFrom.childrenUnchanged, Bool.and_eq_true] at h
    simp only [List.cons_append, Layer.Diff.DiffChildren, List.append_eq]
    rw [if_pos h.1.1, Layer.Diff_of_unchangedFrom assigned layer o matrix h.1.2,
      Layer.DiffChildren_append_of_childrenUnchanged assigned matrix layers olds rest old_rest
        h.2]
    rfl

theorem SkMatrix.mapRect_Concat_Translate (m : SkMatrix) (dx dy : ℚ) (r : SkRect) :
    (SkMatrix.Concat m (SkMatrix.Translate dx dy)).mapRect r = m.mapRect (r.makeOffset dx dy) := by
  have hx : ∀ x y : ℚ, (SkMatrix.Concat m (SkMatrix.Translate dx dy)).mapX x y
      = m.mapX (x + dx) (y + dy) := by
    intro x y
    simp only [SkMatrix.Concat, SkMatrix.Translate, SkMatrix.mapX]
    ring
  have hy : ∀ x y : ℚ, (SkMatrix.Concat m (SkMatrix.Translate dx dy)).mapY x y
      = m.mapY (x + dx) (y + dy) := by
    intro x y
    simp only [SkMatrix.Concat, SkMatrix.Translate, SkMatrix.mapY]
    ring
  simp only [SkMatrix.mapRect, hx, hy, SkRect.makeOffset]

theorem Layer.Diff_of_DiffersInOneTransform (assigned : OldLayerAssignment)
    (transform_ old_transform_ : SkMatrix) (child old_child : Layer)
    (hne : transform_ ≠ old_transform_) (matrix at_matrix : SkMatrix) (layer old : Layer)
    (h : Layer.DiffersInOneTransform assigned transform_ old_transform_ child old_child matrix
      layer old at_matrix) :
    Layer.Diff assigned matrix layer (some old)
      = child.paintRegion (SkMatrix.Concat at_matrix transform_) ++
          child.paintRegion (SkMatrix.Concat at_matrix old_transform_) := by
  induction h with
  | here matrix base old_base hchild =>
    have hs : (Layer.transform base transform_ [child]).sameProperties
        (Layer.transform old_base old_transform_ [old_child]) = false := by
      simp [Layer.sameProperties, Layer.props, hne]
    rw [Layer.Diff_some_eq, hs]
    simp only [Layer.paintRegion, Layer.paintRegion.regionOfList, List.append_nil,
      Bool.false_eq_true, if_false]
    rw [Layer.paintRegion_of_unchangedFrom assigned child old_child
      (SkMatrix.Concat matrix old_transform_) hchild]
  | under matrix at_matrix parent old_parent layer old before old_before after old_after hs
      hl ho hb ha hrep _ ih =>
    rw [Layer.Diff_some_eq, if_pos hs, hl, ho,
      Layer.DiffChildren_append_of_childrenUnchanged assigned _ _ _ before old_before hb]
    simp only [Layer.Diff.DiffChildren]
    rw [if_pos hrep, ih, Layer.DiffChildren_of_childrenUnchanged assigned after old_after _ ha,
      List.append_nil]
theorem SkRect.isEmpty_makeOffset (r : SkRect) (dx dy : ℚ) :
    (r.makeOffset dx dy).isEmpty = r.isEmpty := by
  simp [SkRect.makeOffset, SkRect.isEmpty]

theorem SkMatrix.I_mapRect (r : SkRect) (h : r.isEmpty = false) : SkMatrix.I.mapRect r = r := by
  simp only [SkRect.isEmpty, Bool.not_eq_false', Bool.and_eq_true, decide_eq_true_eq] at h
  obtain ⟨h1, h2⟩ := h
  cases r with
  | mk l t r b =>
    simp only at h1 h2
    simp only [SkMatrix.mapRect, SkMatrix.mapX, SkMatrix.mapY, SkMatrix.I, one_mul, zero_mul,
      add_zero, zero_add, SkRect.mk.injEq]
    refine ⟨?_, ?_, ?_, ?_⟩
    · rw [min_eq_left h1.le, min_eq_right h1.le, min_self]
    · rw [min_self, min_self, min_eq_left h2.le]
    · rw [max_eq_right h1.le, max_eq_left h1.le, max_self]
    · rw [max_self, max_self, max_eq_right h2.le]

theorem testing.t1_eq : ∃ (rb tb : LayerBase) (pm : SkMatrix) (pc : SkRect),
    testing.t1 = .container rb [.transform tb (SkMatrix.Translate 10 10)
      [.mock ⟨SkRect.MakeLTRB 0 0 50 50, false, 1⟩ testing.path1 ⟨0, false⟩ pm pc]] ∧
    tb.unique_id = 2 := by
  simp only [testing.t1, testing.prerolled, testing.m1, Layer.Preroll,
    Layer.Preroll.PrerollChildren]
  exact ⟨_, _, _, _, rfl, rfl⟩

theorem testing.t2_eq : ∃ (rb tb : LayerBase) (pm : SkMatrix) (pc : SkRect),
    testing.t2 = .container rb [.transform tb (SkMatrix.Translate 20 20)
      [.mock ⟨SkRect.MakeLTRB 0 0 50 50, false, 1⟩ testing.path1 ⟨0, false⟩ pm pc]] ∧
    tb.unique_id = 3 := by
  simp only [testing.t2, testing.prerolled, testing.m1, Layer.Preroll,
    Layer.Preroll.PrerollChildren]
  exact ⟨_, _, _, _, rfl, rfl⟩

/-! ### Diff against an empty previous tree -/

theorem testing.TransformNested.l1_eq :
    ∃ (rb tb b1 b2 b3 c1 c2 c3 : LayerBase) (pm1 pm2 pm3 : SkMatrix) (pc1 pc2 pc3 : SkRect),
    testing.TransformNested.l1 = .container rb [.transform tb (SkMatrix.Scale 2 2)
      [.transform b1 (SkMatrix.Translate 10 10)
        [.container c1
          [.mock ⟨SkRect.MakeLTRB 0 0 50 50, false, 31⟩ testing.path1 ⟨0, false⟩ pm1 pc1]],
       .transform b2 (SkMatrix.Translate 100 100)
        [.container c2
          [.mock ⟨SkRect.MakeLTRB 0 0 50 50, false, 32⟩ testing.path1 ⟨0, false⟩ pm2 pc2]],
       .transform b3 (SkMatrix.Translate 200 200)
        [.container c3
          [.mock ⟨SkRect.MakeLTRB 0 0 50 50, false, 33⟩ testing.path1 ⟨0, false⟩ pm3 pc3]]]] ∧
    tb.unique_id = 10 ∧ b1.unique_id = 11 ∧ b2.unique_id = 12 ∧ b3.unique_id = 13 ∧
    c1.unique_id = 21 ∧ c2.unique_id = 22 ∧ c3.unique_id = 23 := by
  simp only [testing.TransformNested.l1, testing.TransformNested.transform1,
    testing.TransformNested.transform1_1, testing.TransformNested.transform1_2,
    testing.TransformNested.transform1_3, testing.TransformNested.m1,
    testing.TransformNested.m2, testing.TransformNested.m3,
    testing.TransformNested.CreateContainerLayer, testing.prerolled, Layer.Preroll,
    Layer.Preroll.PrerollChildren]
  exact ⟨_, _, _, _, _, _, _, _, _, _, _, _, _, _, rfl, rfl, rfl, rfl, rfl, rfl, rfl, rfl⟩

theorem testing.scaled_footprint (dx dy : ℚ) :
    (SkMatrix.Concat (SkMatrix.Concat SkMatrix.I (SkMatrix.Scale 2 2))
        (SkMatrix.Translate dx dy)).mapRect (SkRect.MakeLTRB 0 0 50 50)
      = SkRect.MakeLTRB (2 * dx) (2 * dy) (2 * dx + 100) (2 * dy + 100) := by
  simp only [SkMatrix.mapRect, SkMatrix.mapX, SkMatrix.mapY, SkMatrix.Concat, SkMatrix.I,
    SkMatrix.Translate, SkMatrix.Scale, SkRect.MakeLTRB, SkRect.mk.injEq]
  norm_num
  constructor <;> ring

theorem testing.TransformNested.l1_paintRegion :
    testing.TransformNested.l1.paintRegion SkMatrix.I
      = [SkRect.MakeLTRB 20 20 120 120, SkRect.MakeLTRB 200 200 300 300,
          SkRect.MakeLTRB 400 400 500 500] := by
  obtain ⟨rb, tb, b1, b2, b3, c1, c2, c3, pm1, pm2, pm3, pc1, pc2, pc3, h, _⟩ :=
    testing.TransformNested.l1_eq
  rw [h]
  simp only [Layer.paintRegion, Layer.paintRegion.regionOfList, List.append_nil,
    List.singleton_append, testing.scaled_footprint]
  norm_num

theorem testing.damage_of_three :
    ComputeDamage [SkRect.MakeLTRB 20 20 120 120, SkRect.MakeLTRB 200 200 300 300,
      SkRect.MakeLTRB 400 400 500 500] = SkRect.MakeLTRB 20 20 500 500 := by
  simp [ComputeDamage, SkRect.join, SkRect.isEmpty, SkRect.MakeEmpty, SkRect.MakeLTRB]
  norm_num
theorem testing.TransformNested.l1_paint_bounds :
    testing.TransformNested.l1.paint_bounds = SkRect.MakeLTRB 20 20 500 500 := by
  have hB : (SkRect.MakeLTRB 0 0 50 50).isEmpty = false := by
    simp [SkRect.MakeLTRB, SkRect.isEmpty]
  have hT : ∀ dx dy : ℚ, (SkMatrix.Translate dx dy).mapRect (SkRect.MakeLTRB 0 0 50 50)
      = SkRect.MakeLTRB dx dy (50 + dx) (50 + dy) := by
    intro dx dy
    simp only [SkMatrix.mapRect, SkMatrix.mapX, SkMatrix.mapY, SkMatrix.Translate,
      SkRect.MakeLTRB, SkRect.mk.injEq]
    norm_num
  simp only [testing.TransformNested.l1, testing.TransformNested.transform1,
    testing.TransformNested.transform1_1, testing.TransformNested.transform1_2,
    testing.TransformNested.transform1_3, testing.TransformNested.m1,
    testing.TransformNested.m2, testing.TransformNested.m3,
    testing.TransformNested.CreateContainerLayer, testing.prerolled, Layer.Preroll,
    Layer.Preroll.PrerollChildren, Layer.paint_bounds, Layer.base, testing.path1,
    SkPath.getBounds, SkRect.MakeEmpty_join _ hB, hT]
  simp [SkRect.join, SkRect.isEmpty, SkRect.MakeEmpty, SkRect.MakeLTRB, SkMatrix.mapRect,
    SkMatrix.mapX, SkMatrix.mapY, SkMatrix.Scale]
  norm_num
theorem testing.t1_paintRegion :
    testing.t1.paintRegion SkMatrix.I = [SkRect.MakeLTRB 10 10 60 60] := by
  obtain ⟨rb, tb, pm, pc, h, _⟩ := testing.t1_eq
  rw [h]
  simp only [Layer.paintRegion, Layer.paintRegion.regionOfList, List.append_nil,
    SkMatrix.mapRect_Concat_Translate]
  rw [SkMatrix.I_mapRect _ (by simp [SkRect.makeOffset, SkRect.MakeLTRB, SkRect.isEmpty])]
  simp only [SkRect.makeOffset, SkRect.MakeLTRB]
  norm_num

theorem testing.t1_paint_bounds : testing.t1.paint_bounds = SkRect.MakeLTRB 10 10 60 60 := by
  have hB : (SkRect.MakeLTRB 0 0 50 50).isEmpty = false := by
    simp [SkRect.MakeLTRB, SkRect.isEmpty]
  simp only [testing.t1, testing.m1, testing.prerolled, Layer.Preroll,
    Layer.Preroll.PrerollChildren, Layer.paint_bounds, Layer.base, testing.path1,
    SkPath.getBounds, SkRect.MakeEmpty_join _ hB]
  simp [SkRect.join, SkRect.isEmpty, SkRect.MakeEmpty, SkRect.MakeLTRB, SkMatrix.mapRect,
    SkMatrix.mapX, SkMatrix.mapY, SkMatrix.Translate]
  norm_num

theorem testing.damage_of_one :
    ComputeDamage [SkRect.MakeLTRB 10 10 60 60] = SkRect.MakeLTRB 10 10 60 60 := by
  simp [ComputeDamage, SkRect.join, SkRect.isEmpty, SkRect.MakeEmpty, SkRect.MakeLTRB]
  norm_num
theorem Layer.DiffChildren_nil_right (assigned : OldLayerAssignment) (matrix : SkMatrix) :
    ∀ layers : List Layer,
      Layer.Diff.DiffChildren assigned matrix layers []
        = Layer.paintRegion.regionOfList matrix layers
  | [] => rfl
  | layer :: rest => by
    simp only [Layer.Diff.DiffChildren, Layer.paintRegion.regionOfList]
    rw [Layer.Diff_none_eq, Layer.DiffChildren_nil_right assigned matrix rest]

theorem Layer.Diff_empty_tree (assigned : OldLayerAssignment) (matrix : SkMatrix)
    (layer_tree : Layer) (old_base : LayerBase) :
    Layer.Diff assigned matrix layer_tree (some (.container old_base []))
      = layer_tree.paintRegion matrix := by
  rw [Layer.Diff_some_eq]
  split
  · rw [Layer.layers, Layer.DiffChildren_nil_right, Layer.paintRegion_eq]
    rename_i hs
    have hp := Layer.props_eq_of_sameProperties hs
    rw [hp]
    rfl
  · simp [Layer.paintRegion, Layer.paintRegion.regionOfList]

/-- C15: the diff of any layer tree against an empty previous tree (a root
without children, as for a first frame) yields as damage rectangles the whole
paint region of the new tree, so the damage is the bounding rectangle of the
screen-space bounds of everything the new tree draws. The tree `t1` of the unit
test (a 50x50 leaf under `Translate(10, 10)`) gives (10, 10, 60, 60), and the
tree `l1` (three 50x50 leaves under `Scale(2)` with translations 10, 100 and
200) gives (20, 20, 500, 500); these are the paint bounds of the two roots. -/
theorem diff_against_empty_tree :
    (∀ (assigned : OldLayerAssignment) (layer_tree : Layer) (old_base : LayerBase),
      Layer.Diff assigned SkMatrix.I layer_tree (some (.container old_base []))
        = layer_tree.paintRegion SkMatrix.I ∧
      DiffLayerTree assigned layer_tree (.container old_base [])
        = ComputeDamage
            ((layer_tree.drawRecords SkMatrix.I []).map DrawRecord.screenBounds)) ∧
    (DiffLayerTree testing.assigned testing.t1 testing.empty_tree = SkRect.MakeLTRB 10 10 60 60 ∧
      testing.t1.paint_bounds = SkRect.MakeLTRB 10 10 60 60) ∧
    (DiffLayerTree testing.TransformNested.assigned_inner testing.TransformNested.l1
        testing.empty_tree = SkRect.MakeLTRB 20 20 500 500 ∧
      testing.TransformNested.l1.paint_bounds = SkRect.MakeLTRB 20 20 500 500) := by
  refine ⟨fun assigned layer_tree old_base => ⟨Layer.Diff_empty_tree _ _ _ _, ?_⟩, ⟨?_, ?_⟩,
    ⟨?_, ?_⟩⟩
  · unfold DiffLayerTree
    rw [Layer.Diff_empty_tree, Layer.map_screenBounds_drawRecords]
  · unfold DiffLayerTree testing.empty_tree
    rw [Layer.Diff_empty_tree, testing.t1_paintRegion, testing.damage_of_one]
  · exact testing.t1_paint_bounds
  · unfold DiffLayerTree testing.empty_tree
    rw [Layer.Diff_empty_tree, testing.TransformNested.l1_paintRegion, testing.damage_of_three]
  · exact testing.TransformNested.l1_paint_bounds

/-! ### Diff of the children of a container -/

theorem testing.damage_of_moved :
    ComputeDamage [SkRect.MakeLTRB 200 202 300 302, SkRect.MakeLTRB 200 200 300 300]
      = SkRect.MakeLTRB 200 200 300 302 := by
  simp [ComputeDamage, SkRect.join, SkRect.isEmpty, SkRect.MakeEmpty, SkRect.MakeLTRB]
  norm_num

/-- C24: in every state reachable from the initial animator by interface
calls (among them `RequestFrame`, `Start`, `Stop`, `SetDimensionChangePending`
and `Render`), the running of posted closures, the firing of registered vsync
callbacks (which runs `BeginFrame` or `DrawLastLayerTree`) and consumption from
the pipeline, the count of the pending-frame semaphore plus the number of
vsync waits requested and not yet fired is 1; so the count never exceeds 1 and
at most one vsync wait is outstanding. -/
theorem pending_frame_semaphore_invariant (shell_enable_metal platform_is_raster : Bool)
    (steps : List Animator.Step) :
    ((Animator.create shell_enable_metal platform_is_raster).run
        steps).pending_frame_semaphore_.count
      + ((Animator.create shell_enable_metal platform_is_raster).run
        steps).outstandingVsyncWaits = 1 ∧
    ((Animator.create shell_enable_metal platform_is_raster).run
        steps).pending_frame_semaphore_.count ≤ 1 ∧
    ((Animator.create shell_enable_metal platform_is_raster).run
        steps).outstandingVsyncWaits ≤ 1 := by
  have h := Animator.reachable_sem shell_enable_metal platform_is_raster steps
  refine ⟨h, ?_, ?_⟩ <;> omega

/-- C30: `FrameParity` returns "even" exactly when the animator holds no
frame timings record or the frame number of the record is odd, and "odd"
exactly when it holds a record whose frame number is even; so the tags of two
consecutive frame numbers differ. -/
theorem frame_parity_tags (s : Animator) :
    (s.FrameParity = "even" ↔
      s.frame_timings_recorder_ = none ∨
        ∃ r, s.frame_timings_recorder_ = some r ∧ r.GetFrameNumber % 2 = 1) ∧
    (s.FrameParity = "odd" ↔
      ∃ r, s.frame_timings_recorder_ = some r ∧ r.GetFrameNumber % 2 = 0) ∧
    ∀ r : FrameTimingsRecorder,
      Animator.FrameParity { s with frame_timings_recorder_ := some r }
        ≠ Animator.FrameParity
            { s with
              frame_timings_recorder_ := some { r with frame_number := r.frame_number + 1 } } := by
  have hne : ("even" : String) ≠ "odd" := by decide
  refine ⟨?_, ?_, ?_⟩
  · unfold Animator.FrameParity
    cases hrec : s.frame_timings_recorder_ with
    | none => simp
    | some r =>
      simp only [Option.some.injEq, exists_eq_left', false_or, reduceCtorEq]
      by_cases hodd : r.GetFrameNumber % 2 = 1
      · simp [hodd]
      · have h0 : r.GetFrameNumber % 2 = 0 := by omega
        simp [h0, hne.symm]
  · unfold Animator.FrameParity
    cases hrec : s.frame_timings_recorder_ with
    | none => simp [hne]
    | some r =>
      simp only [Option.some.injEq, exists_eq_left']
      by_cases hodd : r.GetFrameNumber % 2 = 1
      · simp [hodd, hne]
      · have h0 : r.GetFrameNumber % 2 = 0 := by omega
        simp [h0]
  · intro r
    simp only [Animator.FrameParity, FrameTimingsRecorder.GetFrameNumber]
    by_cases hodd : r.frame_number % 2 = 1
    · have h1 : (r.frame_number + 1) % 2 = 0 := by omega
      simp [hodd, h1, hne]
    · have h0 : r.frame_number % 2 = 0 := by omega
      have h1 : (r.frame_number + 1) % 2 = 1 := by omega
      simp [h0, h1, hne.symm]

theorem Animator.step_regenerate_of_not_beginsFrame (s : Animator) (st : Animator.Step)
    (hst : s.beginsFrame st = false) (h : s.regenerate_layer_tree_ = true) :
    (s.step st).regenerate_layer_tree_ = true := by
  cases hv : st.isVsync with
  | false => exact Animator.step_regenerate s st hv h
  | true =>
    cases st with
    | vsync r clk response =>
      simp only [Animator.beginsFrame, h, Bool.and_true, bne_eq_false_iff_eq] at hst
      simp only [Animator.step, hst, if_true, h]
    | _ => simp [Animator.Step.isVsync] at hv

/-- C27: `RequestFrame(true)` sets `regenerate_layer_tree_` in every state;
when the animator is paused with no dimension change pending, or the
pending-frame semaphore is taken, that is all the call does (no vsync wait is
registered). `RequestFrame(false)` leaves the flag as it is. Once set, the flag
stays set through every step that does not run `BeginFrame`, and `BeginFrame`
clears it before it calls the producer. -/
theorem request_frame_sets_regenerate (s : Animator) :
    (s.RequestFrame true).regenerate_layer_tree_ = true ∧
    (s.paused_ = true → s.dimension_change_pending_ = false →
      s.RequestFrame true = { s with regenerate_layer_tree_ := true }) ∧
    (s.pending_frame_semaphore_.count = 0 →
      s.RequestFrame true = { s with regenerate_layer_tree_ := true }) ∧
    (s.RequestFrame false).regenerate_layer_tree_ = s.regenerate_layer_tree_ ∧
    (∀ st : Animator.Step, s.regenerate_layer_tree_ = true → s.beginsFrame st = false →
      (s.step st).regenerate_layer_tree_ = true) ∧
    (∀ (r : FrameTimingsRecorder) (clk : Animator.BeginFrameClock),
      s.producer_continuation_.valid = true →
      (s.BeginFrame r clk []).regenerate_layer_tree_ = false) := by
  refine ⟨?_, ?_, ?_, ?_, ?_, ?_⟩
  · rw [Animator.RequestFrame_regenerate]; rfl
  · intro hp hd
    rw [Animator.RequestFrame_of_not_canRegister s true (by simp [Animator.canRegister, hp, hd])]
    rfl
  · intro hc
    rw [Animator.RequestFrame_of_not_canRegister s true (by simp [Animator.canRegister, hc])]
    rfl
  · rw [Animator.RequestFrame_regenerate]; rfl
  · intro st h hst
    exact Animator.step_regenerate_of_not_beginsFrame s st hst h
  · intro r clk hv
    simp only [Animator.BeginFrame, hv, Bool.not_true, Bool.false_eq_true, if_false,
      Animator.ServiceFrame, List.foldl_nil, Animator.emit]
    split <;> rfl

/-- Witness for C27: the paused animator of the example, whose flag is
clear and whose semaphore is free, gets the flag set by `RequestFrame(true)` and
nothing else, and the flag then survives a `RequestFrame(false)`; the same
holds for an animator whose semaphore is taken; and a `BeginFrame` of an
animator that holds a continuation clears the flag. -/
theorem request_frame_sets_regenerate_witness :
    (Animator.fullPipelineExample.Stop.paused_ = true ∧
      Animator.fullPipelineExample.Stop.dimension_change_pending_ = false ∧
      Animator.fullPipelineExample.Stop.RequestFrame true
        = { Animator.fullPipelineExample.Stop with regenerate_layer_tree_ := true }) ∧
    (((Animator.create false true).RequestFrame false).pending_frame_semaphore_.count = 0 ∧
      ((Animator.create false true).RequestFrame false).RequestFrame true
        = { (Animator.create false true).RequestFrame false with
            regenerate_layer_tree_ := true }) ∧
    ((Animator.fullPipelineExample.Stop.RequestFrame true).regenerate_layer_tree_ = true ∧
      ((Animator.fullPipelineExample.Stop.RequestFrame true).step
        (.call (.RequestFrame false))).regenerate_layer_tree_ = true) ∧
    (((Animator.create false true).run
        [.call (.RequestFrame true), .runTask,
          .vsync (Animator.exampleTimings 1 1000 17000)
            ⟨1100, 50, 1100⟩ []]).producer_continuation_.valid = true ∧
      ((((Animator.create false true).run
        [.call (.RequestFrame true), .runTask,
          .vsync (Animator.exampleTimings 1 1000 17000) ⟨1100, 50, 1100⟩ []]).RequestFrame
            true).BeginFrame (Animator.exampleTimings 2 18000 34000) ⟨18100, 60, 18100⟩
              []).regenerate_layer_tree_ = false) :=
  ⟨⟨by decide, by decide,
      (request_frame_sets_regenerate Animator.fullPipelineExample.Stop).2.1 (by decide)
        (by decide)⟩,
    ⟨by decide,
      (request_frame_sets_regenerate ((Animator.create false true).RequestFrame false)).2.2.1
        (by decide)⟩,
    ⟨by decide,
      (request_frame_sets_regenerate
        (Animator.fullPipelineExample.Stop.RequestFrame true)).2.2.2.2.1
        (.call (.RequestFrame false)) (by decide) (by decide)⟩,
    ⟨by decide,
      (request_frame_sets_regenerate
        (((Animator.create false true).run
          [.call (.RequestFrame true), .runTask,
            .vsync (Animator.exampleTimings 1 1000 17000) ⟨1100, 50, 1100⟩ []]).RequestFrame
              true)).2.2.2.2.2
        (Animator.exampleTimings 2 18000 34000) ⟨18100, 60, 18100⟩ (by decide)⟩⟩

theorem Animator.RequestFrame_frame_scheduled (s : Animator) (b : Bool)
    (h : s.frame_scheduled_ = true) : (s.RequestFrame b).frame_scheduled_ = true := by
  cases hc : s.canRegister with
  | false => rw [Animator.RequestFrame_of_not_canRegister s b hc]; exact h
  | true => rw [Animator.RequestFrame_of_canRegister s b hc]

theorem Animator.call_frame_scheduled (s : Animator) (c : Animator.Call)
    (h : s.frame_scheduled_ = true) : (s.call c).frame_scheduled_ = true := by
  cases c with
  | Stop => exact h
  | Start =>
    simp only [Animator.call, Animator.Start]
    split
    · exact h
    · exact Animator.RequestFrame_frame_scheduled _ _ h
  | SetDimensionChangePending => exact h
  | EnqueueTraceFlowId id => exact h
  | Render layer_tree clk =>
    simp only [Animator.call, Animator.Render]
    split <;> exact h
  | RequestFrame b => exact Animator.RequestFrame_frame_scheduled s b h
  | ScheduleSecondaryVsyncCallback id => exact h

theorem Animator.step_frame_scheduled (s : Animator) (st : Animator.Step)
    (hst : s.beginsFrame st = false) (h : s.frame_scheduled_ = true) :
    (s.step st).frame_scheduled_ = true := by
  cases st with
  | call c => exact Animator.call_frame_scheduled s c h
  | runTask =>
    simp only [Animator.step]
    split
    · exact h
    · exact h
  | runDelayedTask dart_now =>
    simp only [Animator.step]
    split
    · exact h
    · simp only [Animator.NotifyIdleTask]
      split <;> exact h
  | vsync r clk response =>
    simp only [Animator.step]
    split
    · exact h
    · rename_i hcb
      have hre : s.regenerate_layer_tree_ = false := by
        simp only [Animator.beginsFrame, Bool.and_eq_false_iff, bne_eq_false_iff_eq] at hst
        rcases hst with h0 | hr
        · exact absurd h0 hcb
        · exact hr
      simp only [Animator.VsyncCallback, Animator.CanReuseLastLayerTree, hre, Bool.not_false,
        if_true]
      exact h
  | secondary =>
    simp only [Animator.step]
    split
    · simp only [Animator.MaybeClearTraceFlowIds]
      split <;> exact h
    · exact h
  | consume => exact h

/-- C26: `frame_scheduled_` is reset only by `BeginFrame`. `DrawLastLayerTree`
releases the pending-frame semaphore and leaves `frame_scheduled_` as it is, and
a set flag survives every step that does not run `BeginFrame`. So when an
animator with no vsync wait outstanding and `regenerate_layer_tree_` clear
registers a wait with `RequestFrame(false)`, the posted closure runs and the
vsync fires, the reuse path is taken and afterwards `frame_scheduled_` is still
set although no vsync wait is outstanding; and while the flag is set, a delayed
idle closure and the trace-flow-id cleanup callback do nothing. -/
theorem frame_scheduled_reset_only_by_begin_frame (s : Animator) :
    (∀ (r : FrameTimingsRecorder) (now : TimePoint),
      (s.DrawLastLayerTree r now).frame_scheduled_ = s.frame_scheduled_ ∧
      (s.DrawLastLayerTree r now).pending_frame_semaphore_.count
        = s.pending_frame_semaphore_.count + 1) ∧
    (∀ st : Animator.Step, s.frame_scheduled_ = true → s.beginsFrame st = false →
      (s.step st).frame_scheduled_ = true) ∧
    (∀ (r : FrameTimingsRecorder) (clk : Animator.BeginFrameClock)
      (response : List Animator.Call),
      s.canRegister = true → s.regenerate_layer_tree_ = false → s.outstandingVsyncWaits = 0 →
      ((s.RequestFrame false).run [.runTask, .vsync r clk response]).frame_scheduled_ = true ∧
      ((s.RequestFrame false).run [.runTask, .vsync r clk response]).outstandingVsyncWaits
        = 0 ∧
      ((s.RequestFrame false).run [.runTask, .vsync r clk response]).pending_frame_semaphore_
        = s.pending_frame_semaphore_ ∧
      ((s.RequestFrame false).run [.runTask, .vsync r clk response]).beginFrameCalls
        = s.beginFrameCalls) ∧
    (s.frame_scheduled_ = true →
      (∀ (notify_idle_task_id : Nat) (dart_now : Int),
        s.NotifyIdleTask notify_idle_task_id dart_now = s) ∧
      s.MaybeClearTraceFlowIds = s) := by
  refine ⟨fun r now => ⟨rfl, rfl⟩,
    fun st h hst => Animator.step_frame_scheduled s st hst h, ?_, ?_⟩
  · intro r clk response hcan hre hout
    have hc : s.pending_frame_semaphore_.count ≠ 0 := by
      unfold Animator.canRegister at hcan
      simp at hcan
      exact hcan.2
    have htasks : s.task_runners_.ui_tasks = [] := by
      unfold Animator.outstandingVsyncWaits at hout
      exact List.length_eq_zero.mp (by omega)
    have hcb : s.waiter_.callbacks = 0 := by
      unfold Animator.outstandingVsyncWaits at hout
      omega
    rw [Animator.RequestFrame_of_canRegister s false hcan]
    simp only [Animator.run, List.foldl_cons, List.foldl_nil, Animator.step,
      TaskRunners.PostTask, htasks, List.nil_append, Animator.AwaitVSync, Animator.emit,
      VsyncWaiter.AsyncWaitForVsync, hcb, Animator.VsyncCallback,
      Animator.CanReuseLastLayerTree, hre, Bool.false_or, Bool.not_false,
      Animator.DrawLastLayerTree, Semaphore.Signal, Animator.outstandingVsyncWaits,
      Animator.beginFrameCalls]
    refine ⟨by simp, by simp, ?_, ?_⟩
    · simp
      cases hs : s.pending_frame_semaphore_ with
      | mk count =>
        rw [hs] at hc
        simp only [Semaphore.mk.injEq]
        simp at hc
        omega
    · simp [List.countP_append, List.countP_cons, Event.isOnAnimatorBeginFrame]
  · intro h
    refine ⟨fun id now => ?_, ?_⟩
    · simp [Animator.NotifyIdleTask, h]
    · simp [Animator.MaybeClearTraceFlowIds, h]

/-- Witness for C26: the initial animator after `RequestFrame(false)`, the
posted closure and the vsync firing has `frame_scheduled_` set and no vsync
wait outstanding; a delayed idle closure then does nothing. -/
theorem frame_scheduled_reset_only_by_begin_frame_witness :
    (((Animator.create false true).RequestFrame false).run
      [.runTask, .vsync (Animator.exampleTimings 1 1000 17000)
        ⟨1100, 50, 1100⟩ []]).frame_scheduled_ = true ∧
    (((Animator.create false true).RequestFrame false).run
      [.runTask, .vsync (Animator.exampleTimings 1 1000 17000)
        ⟨1100, 50, 1100⟩ []]).outstandingVsyncWaits = 0 ∧
    ((((Animator.create false true).RequestFrame false).run
      [.runTask, .vsync (Animator.exampleTimings 1 1000 17000)
        ⟨1100, 50, 1100⟩ []]).step (.call .Stop)).frame_scheduled_ = true ∧
    (((Animator.create false true).RequestFrame false).run
      [.runTask, .vsync (Animator.exampleTimings 1 1000 17000)
        ⟨1100, 50, 1100⟩ []]).NotifyIdleTask 0 2000
      = ((Animator.create false true).RequestFrame false).run
          [.runTask, .vsync (Animator.exampleTimings 1 1000 17000) ⟨1100, 50, 1100⟩ []] :=
  have h := (frame_scheduled_reset_only_by_begin_frame (Animator.create false true)).2.2.1
    (Animator.exampleTimings 1 1000 17000) ⟨1100, 50, 1100⟩ [] (by decide) (by decide)
    (by decide)
  ⟨h.1, h.2.1,
    (frame_scheduled_reset_only_by_begin_frame
      (((Animator.create false true).RequestFrame false).run
        [.runTask, .vsync (Animator.exampleTimings 1 1000 17000)
          ⟨1100, 50, 1100⟩ []])).2.1 (.call .Stop) h.1 (by decide),
    ((frame_scheduled_reset_only_by_begin_frame
      (((Animator.create false true).RequestFrame false).run
        [.runTask, .vsync (Animator.exampleTimings 1 1000 17000)
          ⟨1100, 50, 1100⟩ []])).2.2.2 h.1).1 0 2000⟩

theorem Animator.Render_events (s : Animator) (layer_tree : LayerTree)
    (clk : Animator.RenderClock) :
    ∃ timings : FrameTimingsRecorder,
      (s.Render layer_tree clk).events = s.events ++ [.OnAnimatorDraw timings] := by
  simp only [Animator.Render]
  split <;> exact ⟨_, rfl⟩

theorem Animator.Render_producer_continuation (s : Animator) (layer_tree : LayerTree)
    (clk : Animator.RenderClock) :
    (s.Render layer_tree clk).producer_continuation_ = ProducerContinuation.none := by
  simp only [Animator.Render]
  split <;>
    · simp only [ProducerContinuation.Complete]
      cases h : s.producer_continuation_ with
      | mk slot => cases slot <;> rfl

theorem Animator.Render_of_not_valid (s : Animator) (layer_tree : LayerTree)
    (clk : Animator.RenderClock) (h : s.producer_continuation_.valid = false) :
    (s.producer_continuation_.Complete s.layer_tree_pipeline_ layer_tree).1 = false ∧
    (s.Render layer_tree clk).layer_tree_pipeline_ = s.layer_tree_pipeline_ := by
  have hslot : s.producer_continuation_.slot = none := by
    simpa [ProducerContinuation.valid] using h
  constructor
  · simp [ProducerContinuation.Complete, hslot]
  · simp only [Animator.Render]
    split <;> simp [ProducerContinuation.Complete, hslot]

/-- C25: every call of `Render` makes exactly one delegate call, an
`OnAnimatorDraw`, and nothing else is recorded, whatever the state. When the
held continuation is empty, `Complete` returns false and the pipeline is left
as it was: no layer tree is added. After any `Render` the held continuation is
empty (it was completed or was empty already), so a second `Render` in a row
again calls `OnAnimatorDraw` once and adds nothing to the pipeline. -/
theorem render_draws_once (s : Animator) (layer_tree : LayerTree) (clk : Animator.RenderClock) :
    (∃ timings : FrameTimingsRecorder,
      (s.Render layer_tree clk).events = s.events ++ [.OnAnimatorDraw timings]) ∧
    (s.producer_continuation_.valid = false →
      (s.producer_continuation_.Complete s.layer_tree_pipeline_ layer_tree).1 = false ∧
      (s.Render layer_tree clk).layer_tree_pipeline_ = s.layer_tree_pipeline_) ∧
    (s.Render layer_tree clk).producer_continuation_.valid = false ∧
    ∀ (layer_tree2 : LayerTree) (clk2 : Animator.RenderClock),
      (∃ timings : FrameTimingsRecorder,
        ((s.Render layer_tree clk).Render layer_tree2 clk2).events
          = (s.Render layer_tree clk).events ++ [.OnAnimatorDraw timings]) ∧
      ((s.Render layer_tree clk).Render layer_tree2 clk2).layer_tree_pipeline_
        = (s.Render layer_tree clk).layer_tree_pipeline_ := by
  have hnone : (s.Render layer_tree clk).producer_continuation_.valid = false := by
    rw [Animator.Render_producer_continuation]; rfl
  refine ⟨Animator.Render_events s layer_tree clk,
    Animator.Render_of_not_valid s layer_tree clk, hnone, fun layer_tree2 clk2 => ⟨?_, ?_⟩⟩
  · exact Animator.Render_events _ layer_tree2 clk2
  · exact (Animator.Render_of_not_valid _ layer_tree2 clk2 hnone).2

/-- Witness for C25: the initial animator holds no continuation; a `Render`
records one `OnAnimatorDraw` and leaves the pipeline empty. -/
theorem render_draws_once_witness :
    (Animator.create false true).producer_continuation_.valid = false ∧
    ((Animator.create false true).Render ⟨(800, 600)⟩ ⟨0, 0, 1500⟩).layer_tree_pipeline_
      = (Animator.create false true).layer_tree_pipeline_ ∧
    ((Animator.create false true).Render ⟨(800, 600)⟩ ⟨0, 0, 1500⟩).events.length = 1 :=
  ⟨by decide,
    ((render_draws_once (Animator.create false true) ⟨(800, 600)⟩ ⟨0, 0, 1500⟩).2.1
      (by decide)).2,
    by decide⟩

/-! ### Shadow bounds -/

/-- C28: over exact arithmetic, for a rectangle of non-negative width and
height and a pixel ratio that is not negative, `ComputeShadowBounds` contains
the rectangle when the elevation is not negative, equals it when the elevation
is 0 and is contained in it when the elevation is negative; the outset is
symmetric, so the centre stays where it is. `Preroll` (without system
composition) applies it whenever the elevation is not 0, so with a negative
elevation the paint bounds lie inside the path bounds, strictly so on every
side when the pixel ratio is positive. -/
theorem compute_shadow_bounds_monotone (bounds : SkRect) (elevation pixel_ratio : ℚ)
    (hw : 0 ≤ bounds.width) (hh : 0 ≤ bounds.height) (hp : 0 ≤ pixel_ratio) :
    (0 ≤ elevation → (ComputeShadowBounds bounds elevation pixel_ratio).containsRect bounds) ∧
    ComputeShadowBounds bounds 0 pixel_ratio = bounds ∧
    (elevation < 0 → bounds.containsRect (ComputeShadowBounds bounds elevation pixel_ratio)) ∧
    ((ComputeShadowBounds bounds elevation pixel_ratio).fLeft
        + (ComputeShadowBounds bounds elevation pixel_ratio).fRight
      = bounds.fLeft + bounds.fRight ∧
      (ComputeShadowBounds bounds elevation pixel_ratio).fTop
        + (ComputeShadowBounds bounds elevation pixel_ratio).fBottom
      = bounds.fTop + bounds.fBottom) ∧
    ∀ (base : LayerBase) (color shadow_color : SkColor) (path : SkPath) (clip_behavior : Clip)
      (layers : List Layer) (context : PrerollContext) (matrix : SkMatrix),
      path.getBounds = bounds → context.frame_device_pixel_ratio = pixel_ratio →
      elevation < 0 →
      ((Layer.physicalShape base color shadow_color elevation path clip_behavior layers).Preroll
          false context matrix).1.paint_bounds
        = ComputeShadowBounds bounds elevation pixel_ratio ∧
      bounds.containsRect
        ((Layer.physicalShape base color shadow_color elevation path clip_behavior
          layers).Preroll false context matrix).1.paint_bounds ∧
      (0 < pixel_ratio →
        bounds.fLeft <
          ((Layer.physicalShape base color shadow_color elevation path clip_behavior
            layers).Preroll false context matrix).1.paint_bounds.fLeft ∧
        bounds.fTop <
          ((Layer.physicalShape base color shadow_color elevation path clip_behavior
            layers).Preroll false context matrix).1.paint_bounds.fTop ∧
        ((Layer.physicalShape base color shadow_color elevation path clip_behavior
            layers).Preroll false context matrix).1.paint_bounds.fRight < bounds.fRight ∧
        ((Layer.physicalShape base color shadow_color elevation path clip_behavior
            layers).Preroll false context matrix).1.paint_bounds.fBottom < bounds.fBottom) := by
  have htx : 0 ≤ (kLightRadius * pixel_ratio + bounds.width * (1 / 2)) / kLightHeight := by
    simp only [kLightRadius, kLightHeight]
    positivity
  have hty : 0 ≤ (kLightRadius * pixel_ratio + bounds.height * (1 / 2)) / kLightHeight := by
    simp only [kLightRadius, kLightHeight]
    positivity
  have hcontained : elevation < 0 →
      bounds.containsRect (ComputeShadowBounds bounds elevation pixel_ratio) := by
    intro he
    have h1 := mul_nonpos_of_nonpos_of_nonneg he.le htx
    have h2 := mul_nonpos_of_nonpos_of_nonneg he.le hty
    simp only [SkRect.containsRect, ComputeShadowBounds, SkRect.outset]
    refine ⟨?_, ?_, ?_, ?_⟩ <;> linarith
  refine ⟨?_, ?_, hcontained, ⟨?_, ?_⟩, ?_⟩
  · intro he
    have h1 := mul_nonneg he htx
    have h2 := mul_nonneg he hty
    simp only [SkRect.containsRect, ComputeShadowBounds, SkRect.outset]
    refine ⟨?_, ?_, ?_, ?_⟩ <;> linarith
  · simp [ComputeShadowBounds, SkRect.outset]
  · simp only [ComputeShadowBounds, SkRect.outset]
    ring
  · simp only [ComputeShadowBounds, SkRect.outset]
    ring
  · intro base color shadow_color path clip_behavior layers context matrix hpath hratio he
    have hpb : ((Layer.physicalShape base color shadow_color elevation path clip_behavior
        layers).Preroll false context matrix).1.paint_bounds
        = ComputeShadowBounds bounds elevation pixel_ratio := by
      simp [Layer.Preroll, Layer.paint_bounds, Layer.base, he.ne, hpath, hratio,
        Layer.PrerollChildren_context]
    rw [hpb]
    refine ⟨rfl, hcontained he, ?_⟩
    intro hpos
    have htx' : 0 < (kLightRadius * pixel_ratio + bounds.width * (1 / 2)) / kLightHeight := by
      simp only [kLightRadius, kLightHeight]
      positivity
    have hty' : 0 < (kLightRadius * pixel_ratio + bounds.height * (1 / 2)) / kLightHeight := by
      simp only [kLightRadius, kLightHeight]
      positivity
    have h1 := mul_neg_of_neg_of_pos he htx'
    have h2 := mul_neg_of_neg_of_pos he hty'
    simp only [ComputeShadowBounds, SkRect.outset]
    refine ⟨?_, ?_, ?_, ?_⟩ <;> linarith

/-- Witness for C28: the rectangle (0, 0, 100, 100) at pixel ratio 1 and
elevation -6 gives (8.5, 8.5, 91.5, 91.5), which lies inside it, and these are
the paint bounds of a layer with that path after `Preroll`; at elevation 6 the
result contains the rectangle. -/
theorem compute_shadow_bounds_monotone_witness :
    ComputeShadowBounds (SkRect.MakeLTRB 0 0 100 100) (-6) 1
      = SkRect.MakeLTRB (17 / 2) (17 / 2) (183 / 2) (183 / 2) ∧
    (SkRect.MakeLTRB 0 0 100 100).containsRect
      (ComputeShadowBounds (SkRect.MakeLTRB 0 0 100 100) (-6) 1) ∧
    (ComputeShadowBounds (SkRect.MakeLTRB 0 0 100 100) 6 1).containsRect
      (SkRect.MakeLTRB 0 0 100 100) ∧
    ((Layer.physicalShape (LayerBase.initial 1) 0 0 (-6) ⟨SkRect.MakeLTRB 0 0 100 100, 1⟩
        Clip.none []).Preroll false testing.preroll_context SkMatrix.I).1.paint_bounds
      = ComputeShadowBounds (SkRect.MakeLTRB 0 0 100 100) (-6) 1 :=
  ⟨by
      simp only [ComputeShadowBounds, SkRect.outset, SkRect.MakeLTRB, SkRect.width,
        SkRect.height, kLightRadius, kLightHeight, SkRect.mk.injEq]
      norm_num,
    (compute_shadow_bounds_monotone (SkRect.MakeLTRB 0 0 100 100) (-6) 1
      (by simp [SkRect.MakeLTRB, SkRect.width])
      (by simp [SkRect.MakeLTRB, SkRect.height]) (by norm_num)).2.2.1 (by norm_num),
    (compute_shadow_bounds_monotone (SkRect.MakeLTRB 0 0 100 100) 6 1
      (by simp [SkRect.MakeLTRB, SkRect.width])
      (by simp [SkRect.MakeLTRB, SkRect.height]) (by norm_num)).1 (by norm_num),
    ((compute_shadow_bounds_monotone (SkRect.MakeLTRB 0 0 100 100) (-6) 1
      (by simp [SkRect.MakeLTRB, SkRect.width])
      (by simp [SkRect.MakeLTRB, SkRect.height]) (by norm_num)).2.2.2.2
      (LayerBase.initial 1) 0 0 ⟨SkRect.MakeLTRB 0 0 100 100, 1⟩ Clip.none []
      testing.preroll_context SkMatrix.I rfl rfl (by norm_num)).1⟩

/-! ### Locale parsing -/

theorem strrchr_eq_none (c : Char) : ∀ l : List Char, c ∉ l → strrchr l c = none
  | [], _ => rfl
  | x :: xs, h => by
    have hx : ¬ x = c := fun e => h (by simp [e])
    have hxs : c ∉ xs := fun e => h (by simp [e])
    simp [strrchr, strrchr_eq_none c xs hxs, hx]

theorem strrchr_append_cons (c : Char) (rest : List Char) (h : c ∉ rest) :
    ∀ l : List Char, strrchr (l ++ c :: rest) c = some l.length
  | [] => by simp [strrchr, strrchr_eq_none c rest h]
  | x :: xs => by
    simp [strrchr, strrchr_append_cons c rest h xs]

theorem take_length_append_cons (c : Char) (rest : List Char) :
    ∀ l : List Char, (l ++ c :: rest).take l.length = l
  | [] => rfl
  | x :: xs => by simp

theorem drop_length_succ_append_cons (c : Char) (rest : List Char) :
    ∀ l : List Char, (l ++ c :: rest).drop (l.length + 1) = rest
  | [] => rfl
  | x :: xs => by
    simp [drop_length_succ_append_cons c rest xs]

theorem parse_locale_eq (locale : List Char) :
    parse_locale locale
      = { language := (cut_at_last (cut_at_last (cut_at_last locale '@').2 '.').2 '_').2
          territory := (cut_at_last (cut_at_last (cut_at_last locale '@').2 '.').2 '_').1
          codeset := (cut_at_last (cut_at_last locale '@').2 '.').1
          modifier := (cut_at_last locale '@').1 } := by
  simp only [parse_locale, cut_at_last]

theorem cut_at_last_locale_part (separator : Char) (l : List Char) (part : Option (List Char))
    (hl : separator ∉ l) (hpart : ∀ p, part = some p → separator ∉ p) :
    cut_at_last (l ++ locale_part separator part) separator = (part, l) := by
  cases part with
  | none => simp [cut_at_last, locale_part, strrchr_eq_none separator l hl]
  | some p =>
    simp only [cut_at_last, locale_part, strrchr_append_cons separator p (hpart p rfl) l,
      take_length_append_cons, drop_length_succ_append_cons]

theorem not_mem_locale_part (c separator : Char) (part : Option (List Char))
    (hne : ¬ c = separator) (hpart : ∀ p, part = some p → c ∉ p) :
    c ∉ locale_part separator part := by
  cases part with
  | none => simp [locale_part]
  | some p => simp [locale_part, hne, hpart p rfl]

/-- C29: `parse_locale` inverts the composition of a locale name. For a
language `L` and optional territory `T`, codeset `C` and modifier `M`, where
`L` and `T` contain none of `_`, `.`, `@`, `C` contains neither `.` nor `@`,
and `M` contains no `@`, parsing the name composed of `L` and of each part
that is present after its separator (`_`, `.`, `@`) yields `L` and exactly
these parts, a part that is absent being null. -/
theorem parse_locale_compose (L : List Char) (T C M : Option (List Char))
    (hL : '_' ∉ L ∧ '.' ∉ L ∧ '@' ∉ L)
    (hT : ∀ t, T = some t → '_' ∉ t ∧ '.' ∉ t ∧ '@' ∉ t)
    (hC : ∀ c, C = some c → '.' ∉ c ∧ '@' ∉ c)
    (hM : ∀ m, M = some m → '@' ∉ m) :
    parse_locale (compose_locale L T C M)
      = { language := L, territory := T, codeset := C, modifier := M } := by
  obtain ⟨hL1, hL2, hL3⟩ := hL
  have hT2 : '.' ∉ L ++ locale_part '_' T := by
    rw [List.mem_append]
    exact fun h => h.elim hL2
      (not_mem_locale_part '.' '_' T (by decide) (fun t ht => (hT t ht).2.1))
  have hT3 : '@' ∉ L ++ locale_part '_' T := by
    rw [List.mem_append]
    exact fun h => h.elim hL3
      (not_mem_locale_part '@' '_' T (by decide) (fun t ht => (hT t ht).2.2))
  have hC3 : '@' ∉ L ++ locale_part '_' T ++ locale_part '.' C := by
    rw [List.mem_append]
    exact fun h => h.elim hT3
      (not_mem_locale_part '@' '.' C (by decide) (fun c hc => (hC c hc).2))
  rw [parse_locale_eq, compose_locale, cut_at_last_locale_part '@' _ M hC3 hM]
  simp only []
  rw [cut_at_last_locale_part '.' _ C hT2 (fun c hc => (hC c hc).1)]
  simp only []
  rw [cut_at_last_locale_part '_' _ T hL1 (fun t ht => (hT t ht).1)]

/-- Witness for C29: the name `sr_RS.UTF-8@latin` parses into `sr`, `RS`,
`UTF-8` and `latin`, and `de_DE` into `de` and `DE` with null codeset and
modifier. -/
theorem parse_locale_compose_witness :
    parse_locale "sr_RS.UTF-8@latin".toList
      = { language := "sr".toList, territory := some "RS".toList,
          codeset := some "UTF-8".toList, modifier := some "latin".toList } ∧
    parse_locale "de_DE".toList
      = { language := "de".toList, territory := some "DE".toList, codeset := none,
          modifier := none } :=
  ⟨parse_locale_compose "sr".toList (some "RS".toList) (some "UTF-8".toList)
      (some "latin".toList) (by decide)
      (fun t ht => by cases ht; decide) (fun c hc => by cases hc; decide)
      (fun m hm => by cases hm; decide),
    parse_locale_compose "de".toList (some "DE".toList) none none (by decide)
      (fun t ht => by cases ht; decide) (fun c hc => by cases hc) (fun m hm => by cases hm)⟩

/-! ### Texture and physical-shape layers -/

/-- C21: for every texture layer with offset `o` and size `s`, `Preroll`
sets the paint bounds to the rectangle of size `s` placed at `o`; and when the
texture id of the layer is not in the texture registry of the paint context,
`Paint` of a layer that needs painting does not fail and leaves the context as
it was: no draw call and no call on a texture. -/
theorem texture_layer_preroll_and_unregistered_paint (base : LayerBase) (offset size : ℚ × ℚ)
    (texture_id : Int) (freeze : Bool) (sampling : Nat) :
    (∀ (can_system_composite : Bool) (context : PrerollContext) (matrix : SkMatrix),
      ((Layer.texture base offset size texture_id freeze sampling).Preroll
          can_system_composite context matrix).1.paint_bounds
        = SkRect.MakeXYWH offset.1 offset.2 size.1 size.2 ∧
      ((Layer.texture base offset size texture_id freeze sampling).Preroll
          can_system_composite context matrix).1.props
        = .texture offset size texture_id freeze sampling) ∧
    (∀ context : PaintContext, texture_id ∉ context.texture_registry →
      (Layer.texture base offset size texture_id freeze sampling).needs_painting = true →
      (Layer.texture base offset size texture_id freeze sampling).Paint context
        = .ok context) ∧
    (∀ (can_system_composite : Bool) (preroll_context : PrerollContext) (matrix : SkMatrix)
      (context : PaintContext), texture_id ∉ context.texture_registry →
      ((Layer.texture base offset size texture_id freeze sampling).Preroll
          can_system_composite preroll_context matrix).1.needs_painting = true →
      ((Layer.texture base offset size texture_id freeze sampling).Preroll
          can_system_composite preroll_context matrix).1.Paint context = .ok context) := by
  refine ⟨fun _ _ _ => ⟨rfl, rfl⟩, ?_, ?_⟩
  · intro context hreg hneeds
    have hb : base.needs_painting = true := hneeds
    simp [Layer.Paint, hb, hreg]
  · intro can_system_composite preroll_context matrix context hreg hneeds
    simp only [Layer.Preroll] at hneeds ⊢
    have hb : LayerBase.needs_painting
        { base with paint_bounds := SkRect.MakeXYWH offset.1 offset.2 size.1 size.2 }
        = true := hneeds
    simp [Layer.Paint, hb, hreg]

/-- Witness for C21 with the values of the unit test `InvalidTexture`: the
layer of size 8x8 at (0, 0) with the unregistered texture id 0 gets the bounds
(0, 0, 8, 8), needs painting, and its `Paint` leaves the context with no draw
calls. -/
theorem texture_layer_preroll_and_unregistered_paint_witness :
    (testing.texture_layer.Preroll false testing.preroll_context SkMatrix.I).1.paint_bounds
      = SkRect.MakeXYWH 0 0 8 8 ∧
    (testing.texture_layer.Preroll false testing.preroll_context
      SkMatrix.I).1.needs_painting = true ∧
    (testing.texture_layer.Preroll false testing.preroll_context SkMatrix.I).1.Paint
      testing.paint_context = .ok testing.paint_context ∧
    testing.paint_context.draw_calls = [] :=
  have hneeds : (testing.texture_layer.Preroll false testing.preroll_context
      SkMatrix.I).1.needs_painting = true := by
    simp [testing.texture_layer, Layer.Preroll, Layer.needs_painting, Layer.base,
      LayerBase.needs_painting, SkRect.MakeXYWH, SkRect.isEmpty]
  ⟨((texture_layer_preroll_and_unregistered_paint (LayerBase.initial 1) (0, 0) (8, 8) 0 false
      0).1 false testing.preroll_context SkMatrix.I).1,
    hneeds,
    (texture_layer_preroll_and_unregistered_paint (LayerBase.initial 1) (0, 0) (8, 8) 0 false
      0).2.2 false testing.preroll_context SkMatrix.I testing.paint_context
      (by simp [testing.paint_context]) hneeds,
    rfl⟩

/-- C23: for every physical-shape layer that needs painting, `Paint` first
issues the commands fixed by the elevation and the clip behaviour: a shadow
iff the elevation is not 0; then for none, hard-edge and anti-aliased the fill
with `drawPath(path)`, the save, and no clip, `clipPath(path, false)` or
`clipPath(path, true)`, with no save layer; for anti-aliased-with-save-layer no
`drawPath` but the save, `clipPath(path, true)`, `saveLayer(paint_bounds)` and
`drawPaint`. In all four cases the children are painted next, and then the
canvas is restored to the save count recorded on entry. -/
theorem physical_shape_paint_commands (base : LayerBase) (color shadow_color : SkColor)
    (elevation : ℚ) (path : SkPath) (clip_behavior : Clip) (layers : List Layer)
    (context : PaintContext) (hneeds : base.needs_painting = true) :
    (Layer.physicalShape base color shadow_color elevation path clip_behavior layers).Paint
        context
      = (Layer.Paint.PaintChildren layers
          { context with
            draw_calls :=
              context.draw_calls ++
                expectedPaintCommands color shadow_color elevation path clip_behavior
                  base.paint_bounds context.frame_device_pixel_ratio
            save_count := context.save_count + expectedSaves clip_behavior }).map
          fun painted => painted.restoreToCount context.save_count := by
  by_cases he : elevation = 0 <;> cases clip_behavior <;>
    simp only [Layer.Paint, hneeds, he, expectedPaintCommands, expectedSaves, DrawShadow,
      PaintContext.draw, PaintContext.save, PaintContext.saveLayer, Bool.not_true,
      Bool.false_eq_true, if_false, if_true, ne_eq, not_true_eq_false, not_false_eq_true,
      reduceCtorEq, List.append_assoc, List.cons_append, List.nil_append, List.append_nil,
      List.singleton_append, Nat.add_assoc, Nat.reduceAdd] <;>
    (generalize Layer.Paint.PaintChildren layers _ = res
     cases res <;> rfl)

/-- Witness for C23: a layer with bounds (0, 0, 10, 10), elevation 0, clip
behaviour anti-aliased-with-save-layer and no children issues save, clipPath,
saveLayer, drawPaint and the restore to the save count 1 found on entry. -/
theorem physical_shape_paint_commands_witness :
    (Layer.physicalShape ⟨SkRect.MakeLTRB 0 0 10 10, false, 1⟩ 255 0 0 testing.path1
        Clip.antiAliasWithSaveLayer []).Paint testing.paint_context
      = .ok
          { testing.paint_context with
            draw_calls :=
              [⟨.internal_nodes_canvas, .save⟩,
                ⟨.internal_nodes_canvas, .clipPath testing.path1 true⟩,
                ⟨.internal_nodes_canvas, .saveLayer (SkRect.MakeLTRB 0 0 10 10)⟩,
                ⟨.leaf_nodes_canvas, .drawPaint ⟨255, true⟩⟩,
                ⟨.internal_nodes_canvas, .restoreToCount 1⟩]
            save_count := 1 } :=
  (physical_shape_paint_commands ⟨SkRect.MakeLTRB 0 0 10 10, false, 1⟩ 255 0 0 testing.path1
    Clip.antiAliasWithSaveLayer [] testing.paint_context
    (by
      simp [LayerBase.needs_painting, SkRect.MakeLTRB, SkRect.isEmpty])).trans
    (by
      simp [Layer.Paint.PaintChildren, Except.map, expectedPaintCommands, expectedSaves,
        PaintContext.restoreToCount, PaintContext.draw, testing.paint_context])

/-! ### The continuation held by the animator -/

theorem Pipeline.Produce_cases {R : Type} (p : Pipeline R) :
    p.Produce = (ProducerContinuation.none, p) ∨
    ∃ i g, p.slots[i]? = some ⟨g, .empty⟩ ∧
      p.Produce = (⟨some i⟩,
        { p with
          empty_ := ⟨p.empty_.count - 1⟩
          slots := p.slots.modify (fun s => ⟨s.generation + 1, .reserved⟩) i }) := by
  by_cases h : p.empty_.count = 0
  · exact Or.inl (Pipeline.Produce_of_count_zero p h)
  · cases hi : p.slots.findIdx? Slot.isFree with
    | none =>
      left
      simp [Pipeline.Produce, Semaphore.TryWait, h, hi]
    | some i =>
      right
      obtain ⟨hlt, hfr, -⟩ := List.findIdx?_eq_some_iff_getElem.mp hi
      have hst := (Slot.isFree_iff _).mp hfr
      refine ⟨i, (p.slots[i]).generation, ?_, ?_⟩
      · rw [List.getElem?_eq_getElem hlt]
        congr 1
        cases hs : p.slots[i] with
        | mk g st =>
          rw [hs] at hst
          simp at hst
          simp [hst]
      · simp [Pipeline.Produce, Semaphore.TryWait, h, hi]

theorem Pipeline.Consume_cases {R : Type} (p : Pipeline R) :
    p.Consume.2 = p ∨
    ∃ i g payload rest, p.slots[i]? = some ⟨g, .ready payload⟩ ∧
      p.Consume.2 =
        { p with
          empty_ := p.empty_.Signal
          slots := p.slots.modify (fun s => ⟨s.generation, .empty⟩) i
          queue := rest } := by
  unfold Pipeline.Consume
  split
  · exact Or.inl rfl
  · rename_i i rest hq
    split
    · rename_i g payload hs
      exact Or.inr ⟨i, g, payload, rest, hs, rfl⟩
    · exact Or.inl rfl

theorem getElem?_modify_of_ne {α : Type} (f : α → α) (l : List α) (i j : Nat) (h : i ≠ j) :
    (l.modify f i)[j]? = l[j]? := by
  rw [List.getElem?_modify]
  cases l[j]? <;> simp [h]

theorem getElem?_modify_self {α : Type} (f : α → α) (l : List α) (i : Nat) (a : α)
    (h : l[i]? = some a) : (l.modify f i)[i]? = some (f a) := by
  rw [List.getElem?_modify, h]
  simp

/-- The invariant as a statement about a continuation and a pipeline. -/
theorem Animator.ContinuationInv_congr {s t : Animator}
    (hc : t.producer_continuation_ = s.producer_continuation_)
    (hp : t.layer_tree_pipeline_ = s.layer_tree_pipeline_) (h : s.ContinuationInv) :
    t.ContinuationInv := by
  unfold Animator.ContinuationInv Animator.reservedSlots at h ⊢
  rw [hc, hp]
  exact h

theorem Animator.ContinuationInv_create (shell_enable_metal platform_is_raster : Bool) :
    (Animator.create shell_enable_metal platform_is_raster).ContinuationInv := by
  left
  refine ⟨rfl, ?_⟩
  simp only [Animator.reservedSlots, Animator.create, Pipeline.create]
  rw [List.countP_replicate]
  simp [Slot.isReserved]

theorem Animator.RequestFrame_continuation (s : Animator) (b : Bool) :
    (s.RequestFrame b).producer_continuation_ = s.producer_continuation_ ∧
    (s.RequestFrame b).layer_tree_pipeline_ = s.layer_tree_pipeline_ := by
  cases hc : s.canRegister with
  | false => rw [Animator.RequestFrame_of_not_canRegister s b hc]; exact ⟨rfl, rfl⟩
  | true => rw [Animator.RequestFrame_of_canRegister s b hc]; exact ⟨rfl, rfl⟩

theorem Animator.call_continuation (s : Animator) (c : Animator.Call)
    (hc : c.isRender = false) :
    (s.call c).producer_continuation_ = s.producer_continuation_ ∧
    (s.call c).layer_tree_pipeline_ = s.layer_tree_pipeline_ := by
  cases c with
  | Stop => exact ⟨rfl, rfl⟩
  | Start =>
    simp only [Animator.call, Animator.Start]
    split
    · exact ⟨rfl, rfl⟩
    · exact Animator.RequestFrame_continuation _ _
  | SetDimensionChangePending => exact ⟨rfl, rfl⟩
  | EnqueueTraceFlowId id => exact ⟨rfl, rfl⟩
  | Render layer_tree clk => simp [Animator.Call.isRender] at hc
  | RequestFrame b => exact Animator.RequestFrame_continuation s b
  | ScheduleSecondaryVsyncCallback id => exact ⟨rfl, rfl⟩

theorem Animator.Render_continuation (s : Animator) (layer_tree : LayerTree)
    (clk : Animator.RenderClock) :
    (s.Render layer_tree clk).producer_continuation_
      = (s.producer_continuation_.Complete s.layer_tree_pipeline_ layer_tree).2.1 ∧
    (s.Render layer_tree clk).layer_tree_pipeline_
      = (s.producer_continuation_.Complete s.layer_tree_pipeline_ layer_tree).2.2 := by
  simp only [Animator.Render]
  split <;> exact ⟨rfl, rfl⟩

theorem Animator.Render_ContinuationInv (s : Animator) (layer_tree : LayerTree)
    (clk : Animator.RenderClock) (h : s.ContinuationInv) :
    (s.Render layer_tree clk).ContinuationInv := by
  obtain ⟨hc, hp⟩ := Animator.Render_continuation s layer_tree clk
  unfold Animator.ContinuationInv Animator.reservedSlots at h ⊢
  rw [hc, hp]
  rcases h with ⟨hnone, hzero⟩ | ⟨i, g, hsome, hslot, hone⟩
  · left
    have hcomplete : s.producer_continuation_.Complete s.layer_tree_pipeline_ layer_tree
        = (false, s.producer_continuation_, s.layer_tree_pipeline_) := by
      simp [ProducerContinuation.Complete, hnone]
    rw [hcomplete]
    exact ⟨hnone, hzero⟩
  · left
    simp only [ProducerContinuation.Complete, hsome]
    refine ⟨rfl, ?_⟩
    have hcount := countP_modify_of_getElem? Slot.isReserved
      (fun s : Slot LayerTree => ⟨s.generation, .ready layer_tree⟩)
      s.layer_tree_pipeline_.slots i _ hslot
    simp only [Slot.isReserved, if_true, Bool.false_eq_true, if_false] at hcount
    omega

theorem Animator.call_ContinuationInv (s : Animator) (c : Animator.Call)
    (h : s.ContinuationInv) : (s.call c).ContinuationInv := by
  cases hr : c.isRender with
  | false =>
    obtain ⟨hc, hp⟩ := Animator.call_continuation s c hr
    exact Animator.ContinuationInv_congr hc hp h
  | true =>
    cases c with
    | Render layer_tree clk => exact Animator.Render_ContinuationInv s layer_tree clk h
    | _ => simp [Animator.Call.isRender] at hr

theorem Animator.foldl_call_ContinuationInv (cs : List Animator.Call) :
    ∀ s : Animator, s.ContinuationInv → (cs.foldl Animator.call s).ContinuationInv := by
  induction cs with
  | nil => intro s h; exact h
  | cons c cs ih =>
    intro s h
    rw [List.foldl_cons]
    exact ih _ (Animator.call_ContinuationInv s c h)

theorem Animator.ServiceFrame_ContinuationInv (s : Animator) (clk : Animator.BeginFrameClock)
    (response : List Animator.Call) (h : s.ContinuationInv) :
    (s.ServiceFrame clk response).ContinuationInv := by
  unfold Animator.ServiceFrame
  simp only []
  have hfold := Animator.foldl_call_ContinuationInv response
    (Animator.emit
      { s with
        dart_frame_deadline_ :=
          Animator.FxlToDartOrEarlier
            (match s.frame_timings_recorder_ with
              | some r => r.GetVsyncTargetTime
              | none => 0) clk.dart_now clk.fxl_now }
      (.OnAnimatorBeginFrame
        (match s.frame_timings_recorder_ with
          | some r => r.GetVsyncTargetTime
          | none => 0)))
    (Animator.ContinuationInv_congr rfl rfl h)
  split
  · exact Animator.ContinuationInv_congr rfl rfl hfold
  · exact hfold
theorem Animator.BeginFrame_ContinuationInv (s : Animator) (r : FrameTimingsRecorder)
    (clk : Animator.BeginFrameClock) (response : List Animator.Call) (h : s.ContinuationInv) :
    (s.BeginFrame r clk response).ContinuationInv := by
  unfold Animator.BeginFrame
  simp only []
  split
  · rename_i hinvalid
    have hnone : s.producer_continuation_.slot = none := by
      simpa [ProducerContinuation.valid] using hinvalid
    have hzero : s.reservedSlots = 0 := by
      rcases h with ⟨_, hz⟩ | ⟨i, g, hsome, _, _⟩
      · exact hz
      · rw [hnone] at hsome
        cases hsome
    rcases Pipeline.Produce_cases s.layer_tree_pipeline_ with hfull | ⟨i, g, hslot, hprod⟩
    · rw [hfull]
      simp only [ProducerContinuation.none, ProducerContinuation.valid, Option.isSome_none,
        Bool.not_false, if_true]
      refine Animator.ContinuationInv_congr (Animator.RequestFrame_continuation _ _).1
        (Animator.RequestFrame_continuation _ _).2 ?_
      exact Or.inl ⟨rfl, hzero⟩
    · rw [hprod]
      simp only [ProducerContinuation.valid, Option.isSome_some, Bool.not_true,
        Bool.false_eq_true, if_false]
      apply Animator.ServiceFrame_ContinuationInv
      right
      refine ⟨i, g + 1, rfl, ?_, ?_⟩
      · exact getElem?_modify_self _ _ i _ hslot
      · have hcount := countP_modify_of_getElem? Slot.isReserved
          (fun s : Slot LayerTree => ⟨s.generation + 1, .reserved⟩)
          s.layer_tree_pipeline_.slots i _ hslot
        simp only [Slot.isReserved, if_true, Bool.false_eq_true, if_false] at hcount
        unfold Animator.reservedSlots at hzero ⊢
        simp only []
        omega
  · exact Animator.ServiceFrame_ContinuationInv _ clk response
      (Animator.ContinuationInv_congr rfl rfl h)

theorem Animator.consume_ContinuationInv (s : Animator) (h : s.ContinuationInv) :
    ({ s with layer_tree_pipeline_ := s.layer_tree_pipeline_.Consume.2 } :
      Animator).ContinuationInv := by
  rcases Pipeline.Consume_cases s.layer_tree_pipeline_ with hsame | ⟨j, g, payload, rest, hslot,
    hcons⟩
  · rw [hsame]
    exact Animator.ContinuationInv_congr rfl rfl h
  · rw [hcons]
    have hcount := countP_modify_of_getElem? Slot.isReserved
      (fun s : Slot LayerTree => ⟨s.generation, .empty⟩)
      s.layer_tree_pipeline_.slots j _ hslot
    simp only [Slot.isReserved, Bool.false_eq_true, if_false, Nat.add_zero] at hcount
    unfold Animator.ContinuationInv Animator.reservedSlots at h ⊢
    simp only []
    rcases h with ⟨hnone, hzero⟩ | ⟨i, gi, hsome, hres, hone⟩
    · left
      exact ⟨hnone, by omega⟩
    · right
      refine ⟨i, gi, hsome, ?_, by omega⟩
      have hne : j ≠ i := by
        intro e
        rw [e, hres] at hslot
        cases hslot
      rw [getElem?_modify_of_ne _ _ j i hne]
      exact hres

theorem Animator.step_ContinuationInv (s : Animator) (st : Animator.Step)
    (h : s.ContinuationInv) : (s.step st).ContinuationInv := by
  cases st with
  | call c => exact Animator.call_ContinuationInv s c h
  | runTask =>
    simp only [Animator.step]
    split
    · exact h
    · exact Animator.ContinuationInv_congr rfl rfl h
  | runDelayedTask dart_now =>
    simp only [Animator.step]
    split
    · exact h
    · simp only [Animator.NotifyIdleTask]
      split <;> exact Animator.ContinuationInv_congr rfl rfl h
  | vsync r clk response =>
    simp only [Animator.step]
    split
    · exact h
    · simp only [Animator.VsyncCallback]
      split
      · exact Animator.ContinuationInv_congr rfl rfl h
      · exact Animator.BeginFrame_ContinuationInv _ r clk response
          (Animator.ContinuationInv_congr rfl rfl h)
  | secondary =>
    simp only [Animator.step]
    split
    · simp only [Animator.MaybeClearTraceFlowIds]
      split <;> exact Animator.ContinuationInv_congr rfl rfl h
    · exact Animator.ContinuationInv_congr rfl rfl h
  | consume => exact Animator.consume_ContinuationInv s h

theorem Animator.run_ContinuationInv (steps : List Animator.Step) :
    ∀ s : Animator, s.ContinuationInv → (s.run steps).ContinuationInv := by
  induction steps with
  | nil => intro s h; exact h
  | cons st steps ih =>
    intro s h
    rw [Animator.run_cons]
    exact ih _ (Animator.step_ContinuationInv s st h)

theorem Animator.reservedSlots_of_ContinuationInv (s : Animator) (h : s.ContinuationInv) :
    s.reservedSlots = (if s.producer_continuation_.valid then 1 else 0) := by
  rcases h with ⟨hnone, hzero⟩ | ⟨i, g, hsome, _, hone⟩
  · simp [ProducerContinuation.valid, hnone, hzero]
  · simp [ProducerContinuation.valid, hsome, hone]
theorem Animator.RequestFrame_calls (s : Animator) (b : Bool) :
    (s.RequestFrame b).produceCalls = s.produceCalls ∧
    (s.RequestFrame b).beginFrameCalls = s.beginFrameCalls := by
  cases hc : s.canRegister with
  | false => rw [Animator.RequestFrame_of_not_canRegister s b hc]; exact ⟨rfl, rfl⟩
  | true =>
    rw [Animator.RequestFrame_of_canRegister s b hc]
    simp [Animator.produceCalls, Animator.beginFrameCalls, List.countP_append,
      Event.isProduce, Event.isOnAnimatorBeginFrame]

theorem Animator.call_calls (s : Animator) (c : Animator.Call) :
    (s.call c).produceCalls = s.produceCalls ∧
    (s.call c).beginFrameCalls = s.beginFrameCalls := by
  cases c with
  | Stop => exact ⟨rfl, rfl⟩
  | Start =>
    simp only [Animator.call, Animator.Start]
    split
    · exact ⟨rfl, rfl⟩
    · exact Animator.RequestFrame_calls _ _
  | SetDimensionChangePending => exact ⟨rfl, rfl⟩
  | EnqueueTraceFlowId id => exact ⟨rfl, rfl⟩
  | Render layer_tree clk =>
    obtain ⟨timings, hev⟩ := Animator.Render_events s layer_tree clk
    simp [Animator.call, Animator.produceCalls, Animator.beginFrameCalls, hev,
      List.countP_append, Event.isProduce, Event.isOnAnimatorBeginFrame]
  | RequestFrame b => exact Animator.RequestFrame_calls s b
  | ScheduleSecondaryVsyncCallback id => exact ⟨rfl, rfl⟩

theorem Animator.foldl_call_calls (cs : List Animator.Call) :
    ∀ s : Animator,
      (cs.foldl Animator.call s).produceCalls = s.produceCalls ∧
      (cs.foldl Animator.call s).beginFrameCalls = s.beginFrameCalls := by
  induction cs with
  | nil => intro s; exact ⟨rfl, rfl⟩
  | cons c cs ih =>
    intro s
    rw [List.foldl_cons]
    exact ⟨(ih _).1.trans (Animator.call_calls s c).1, (ih _).2.trans (Animator.call_calls s c).2⟩

theorem Animator.ServiceFrame_calls (s : Animator) (clk : Animator.BeginFrameClock)
    (response : List Animator.Call) :
    (s.ServiceFrame clk response).produceCalls = s.produceCalls ∧
    (s.ServiceFrame clk response).beginFrameCalls = s.beginFrameCalls + 1 := by
  unfold Animator.ServiceFrame
  simp only []
  have hfold := Animator.foldl_call_calls response
    (Animator.emit
      { s with
        dart_frame_deadline_ :=
          Animator.FxlToDartOrEarlier
            (match s.frame_timings_recorder_ with
              | some r => r.GetVsyncTargetTime
              | none => 0) clk.dart_now clk.fxl_now }
      (.OnAnimatorBeginFrame
        (match s.frame_timings_recorder_ with
          | some r => r.GetVsyncTargetTime
          | none => 0)))
  have hemit1 : ∀ (t : Animator) (x : TimePoint),
      (t.emit (.OnAnimatorBeginFrame x)).produceCalls = t.produceCalls ∧
      (t.emit (.OnAnimatorBeginFrame x)).beginFrameCalls = t.beginFrameCalls + 1 := by
    intro t x
    simp [Animator.emit, Animator.produceCalls, Animator.beginFrameCalls, List.countP_append,
      Event.isProduce, Event.isOnAnimatorBeginFrame]
  rw [(hemit1 _ _).1, (hemit1 _ _).2] at hfold
  split
  · simp only [Animator.produceCalls, Animator.beginFrameCalls, List.countP_append,
      List.countP_cons, List.countP_nil, Event.isProduce, Event.isOnAnimatorBeginFrame,
      Bool.false_eq_true, if_false, Nat.add_zero]
    exact hfold
  · exact hfold

theorem Animator.BeginFrame_calls (s : Animator) (r : FrameTimingsRecorder)
    (clk : Animator.BeginFrameClock) (response : List Animator.Call) :
    (s.producer_continuation_.valid = true →
      (s.BeginFrame r clk response).produceCalls = s.produceCalls ∧
      (s.BeginFrame r clk response).beginFrameCalls = s.beginFrameCalls + 1) ∧
    (s.producer_continuation_.valid = false →
      (s.BeginFrame r clk response).produceCalls = s.produceCalls + 1 ∧
      (s.BeginFrame r clk response).beginFrameCalls
        = s.beginFrameCalls + (if s.layer_tree_pipeline_.Produce.1.valid then 1 else 0)) := by
  constructor
  · intro hv
    simp only [Animator.BeginFrame, hv, Bool.not_true, Bool.false_eq_true, if_false]
    exact Animator.ServiceFrame_calls _ clk response
  · intro hv
    simp only [Animator.BeginFrame, hv, Bool.not_false, if_true]
    cases hp : s.layer_tree_pipeline_.Produce.1.valid with
    | false =>
      simp only [Bool.not_false, if_true, Bool.false_eq_true, if_false, Nat.add_zero]
      rw [(Animator.RequestFrame_calls _ _).1, (Animator.RequestFrame_calls _ _).2]
      simp [Animator.produceCalls, Animator.beginFrameCalls, List.countP_append,
        Event.isProduce, Event.isOnAnimatorBeginFrame]
    | true =>
      simp only [Bool.not_true, Bool.false_eq_true, if_false, if_true]
      rw [(Animator.ServiceFrame_calls _ _ _).1, (Animator.ServiceFrame_calls _ _ _).2]
      simp [Animator.produceCalls, Animator.beginFrameCalls, List.countP_append,
        Event.isProduce, Event.isOnAnimatorBeginFrame]

theorem Animator.foldl_call_continuation (cs : List Animator.Call) :
    ∀ s : Animator, cs.any Animator.Call.isRender = false →
      (cs.foldl Animator.call s).producer_continuation_ = s.producer_continuation_ := by
  induction cs with
  | nil => intro s _; rfl
  | cons c cs ih =>
    intro s h
    simp only [List.any_cons, Bool.or_eq_false_iff] at h
    rw [List.foldl_cons, ih _ h.2, (Animator.call_continuation s c h.1).1]

theorem Animator.ServiceFrame_continuation (s : Animator) (clk : Animator.BeginFrameClock)
    (response : List Animator.Call) (h : response.any Animator.Call.isRender = false) :
    (s.ServiceFrame clk response).producer_continuation_ = s.producer_continuation_ := by
  unfold Animator.ServiceFrame
  simp only []
  split
  · simp only []
    rw [Animator.foldl_call_continuation response _ h]
    rfl
  · rw [Animator.foldl_call_continuation response _ h]
    rfl

theorem Animator.BeginFrame_continuation (s : Animator) (r : FrameTimingsRecorder)
    (clk : Animator.BeginFrameClock) (response : List Animator.Call)
    (h : response.any Animator.Call.isRender = false) :
    (s.producer_continuation_.valid = true →
      (s.BeginFrame r clk response).producer_continuation_ = s.producer_continuation_) ∧
    (s.producer_continuation_.valid = false →
      (s.BeginFrame r clk response).producer_continuation_
        = s.layer_tree_pipeline_.Produce.1) := by
  constructor
  · intro hv
    simp only [Animator.BeginFrame, hv, Bool.not_true, Bool.false_eq_true, if_false]
    rw [Animator.ServiceFrame_continuation _ clk response h]
  · intro hv
    simp only [Animator.BeginFrame, hv, Bool.not_false, if_true]
    split
    · rw [(Animator.RequestFrame_continuation _ _).1]
    · rw [Animator.ServiceFrame_continuation _ clk response h]

theorem Animator.step_continuation (s : Animator) (st : Animator.Step)
    (hv : s.producer_continuation_.valid = true) (hst : st.renders = false) :
    (s.step st).producer_continuation_ = s.producer_continuation_ := by
  cases st with
  | call c => exact (Animator.call_continuation s c hst).1
  | runTask =>
    simp only [Animator.step]
    split <;> rfl
  | runDelayedTask dart_now =>
    simp only [Animator.step]
    split
    · rfl
    · simp only [Animator.NotifyIdleTask]
      split <;> rfl
  | vsync r clk response =>
    simp only [Animator.step]
    split
    · rfl
    · simp only [Animator.VsyncCallback]
      split
      · rfl
      · exact (Animator.BeginFrame_continuation _ r clk response hst).1 hv
  | secondary =>
    simp only [Animator.step]
    split
    · simp only [Animator.MaybeClearTraceFlowIds]
      split <;> rfl
    · rfl
  | consume => rfl

theorem Animator.run_continuation (steps : List Animator.Step) :
    ∀ s : Animator, s.producer_continuation_.valid = true →
      (∀ st ∈ steps, st.renders = false) →
      (s.run steps).producer_continuation_ = s.producer_continuation_ := by
  induction steps with
  | nil => intro s _ _; rfl
  | cons st steps ih =>
    intro s hv hsteps
    have h1 := Animator.step_continuation s st hv (hsteps st (by simp))
    rw [Animator.run_cons, ih _ (by rw [h1]; exact hv) (fun x hx => hsteps x (by simp [hx])), h1]
/-- C22: `BeginFrame` calls the pipeline's `Produce` only when the animator
holds no valid continuation: with a valid continuation it makes no `Produce`
call and calls `OnAnimatorBeginFrame`; without one it makes exactly one. When
the producer callback of a `BeginFrame` that got to call it returns without
calling `Render`, the animator holds a valid continuation afterwards, keeps it
through every step that does not call `Render`, and the next `BeginFrame`
reuses it: no `Produce` call, and `OnAnimatorBeginFrame` is called. In every
reachable state the number of reserved, not yet completed slots of the
pipeline is 1 when the animator holds a valid continuation and 0 otherwise, so
at most 1. -/
theorem begin_frame_reuses_continuation (s : Animator) (r : FrameTimingsRecorder)
    (clk : Animator.BeginFrameClock) (response : List Animator.Call) :
    (s.producer_continuation_.valid = true →
      (s.BeginFrame r clk response).produceCalls = s.produceCalls ∧
      (s.BeginFrame r clk response).beginFrameCalls = s.beginFrameCalls + 1) ∧
    (s.producer_continuation_.valid = false →
      (s.BeginFrame r clk response).produceCalls = s.produceCalls + 1) ∧
    ((s.producer_continuation_.valid = true ∨ s.layer_tree_pipeline_.Produce.1.valid = true) →
      response.any Animator.Call.isRender = false →
      (s.BeginFrame r clk response).beginFrameCalls = s.beginFrameCalls + 1 ∧
      (s.BeginFrame r clk response).producer_continuation_.valid = true ∧
      ∀ (steps : List Animator.Step) (r2 : FrameTimingsRecorder)
        (clk2 : Animator.BeginFrameClock) (response2 : List Animator.Call),
        (∀ st ∈ steps, st.renders = false) →
        ((s.BeginFrame r clk response).run steps).producer_continuation_
          = (s.BeginFrame r clk response).producer_continuation_ ∧
        ((((s.BeginFrame r clk response).run steps).BeginFrame r2 clk2 response2).produceCalls
          = ((s.BeginFrame r clk response).run steps).produceCalls) ∧
        ((((s.BeginFrame r clk response).run steps).BeginFrame r2 clk2
            response2).beginFrameCalls
          = ((s.BeginFrame r clk response).run steps).beginFrameCalls + 1)) ∧
    ∀ (shell_enable_metal platform_is_raster : Bool) (steps : List Animator.Step),
      ((Animator.create shell_enable_metal platform_is_raster).run steps).reservedSlots
        = (if ((Animator.create shell_enable_metal platform_is_raster).run
              steps).producer_continuation_.valid then 1 else 0) ∧
      ((Animator.create shell_enable_metal platform_is_raster).run steps).reservedSlots ≤ 1 := by
  refine ⟨(Animator.BeginFrame_calls s r clk response).1,
    fun hv => ((Animator.BeginFrame_calls s r clk response).2 hv).1, ?_, ?_⟩
  · intro hvalid hresponse
    have hcont := Animator.BeginFrame_continuation s r clk response hresponse
    have hv' : (s.BeginFrame r clk response).producer_continuation_.valid = true ∧
        (s.BeginFrame r clk response).beginFrameCalls = s.beginFrameCalls + 1 := by
      cases hv : s.producer_continuation_.valid with
      | true =>
        rw [hcont.1 hv]
        exact ⟨hv, ((Animator.BeginFrame_calls s r clk response).1 hv).2⟩
      | false =>
        have hp : s.layer_tree_pipeline_.Produce.1.valid = true := by
          rcases hvalid with h | h
          · rw [hv] at h
            cases h
          · exact h
        rw [hcont.2 hv, ((Animator.BeginFrame_calls s r clk response).2 hv).2, hp]
        exact ⟨rfl, rfl⟩
    refine ⟨hv'.2, hv'.1, ?_⟩
    intro steps r2 clk2 response2 hsteps
    have hrun := Animator.run_continuation steps (s.BeginFrame r clk response) hv'.1 hsteps
    have hv2 : ((s.BeginFrame r clk response).run steps).producer_continuation_.valid
        = true := by
      rw [hrun]
      exact hv'.1
    exact ⟨hrun, (Animator.BeginFrame_calls _ r2 clk2 response2).1 hv2⟩
  · intro shell_enable_metal platform_is_raster steps
    have hinv := Animator.run_ContinuationInv steps _
      (Animator.ContinuationInv_create shell_enable_metal platform_is_raster)
    have hres := Animator.reservedSlots_of_ContinuationInv _ hinv
    refine ⟨hres, ?_⟩
    rw [hres]
    split <;> omega

/-- Witness for C22: the initial animator over a pipeline of depth 1, after
a frame request and a `BeginFrame` whose producer callback does not render,
holds a valid continuation; after a second frame request `BeginFrame` runs
again, makes no further `Produce` call (one in all) and calls
`OnAnimatorBeginFrame` a second time. -/
theorem begin_frame_reuses_continuation_witness :
    (((Animator.create false true).run
        [.call (.RequestFrame true), .runTask]).BeginFrame
          (Animator.exampleTimings 1 1000 17000)
          ⟨1100, 50, 1100⟩ []).producer_continuation_.valid = true ∧
    (((((Animator.create false true).run
        [.call (.RequestFrame true), .runTask]).BeginFrame
          (Animator.exampleTimings 1 1000 17000) ⟨1100, 50, 1100⟩ []).run
        [.call (.RequestFrame true), .runTask]).BeginFrame
          (Animator.exampleTimings 2 18000 34000) ⟨18100, 60, 18100⟩
          [.Render ⟨(800, 600)⟩ ⟨0, 0, 18500⟩]).produceCalls = 1 ∧
    (((((Animator.create false true).run
        [.call (.RequestFrame true), .runTask]).BeginFrame
          (Animator.exampleTimings 1 1000 17000) ⟨1100, 50, 1100⟩ []).run
        [.call (.RequestFrame true), .runTask]).BeginFrame
          (Animator.exampleTimings 2 18000 34000) ⟨18100, 60, 18100⟩
          [.Render ⟨(800, 600)⟩ ⟨0, 0, 18500⟩]).beginFrameCalls = 2 :=
  have h := (begin_frame_reuses_continuation
    ((Animator.create false true).run [.call (.RequestFrame true), .runTask])
    (Animator.exampleTimings 1 1000 17000) ⟨1100, 50, 1100⟩ []).2.2.1
    (Or.inr (by decide)) (by decide)
  have h2 := h.2.2 [.call (.RequestFrame true), .runTask]
    (Animator.exampleTimings 2 18000 34000) ⟨18100, 60, 18100⟩
    [.Render ⟨(800, 600)⟩ ⟨0, 0, 18500⟩] (by decide)
  ⟨h.2.1, h2.2.1.trans (by decide), h2.2.2.trans (by decide)⟩

/-! ### The bounding rectangle of two lists of rectangles -/

theorem SkRect.join_of_isEmpty_right (r a : SkRect) (ha : a.isEmpty = true) : r.join a = r := by
  simp [SkRect.join, ha]

theorem SkRect.join_of_isEmpty_left (r a : SkRect) (hr : r.isEmpty = true)
    (ha : a.isEmpty = false) : r.join a = a := by
  simp [SkRect.join, ha, hr]

theorem SkRect.isEmpty_join (r a : SkRect) (hr : r.isEmpty = false) (ha : a.isEmpty = false) :
    (r.join a).isEmpty = false := by
  simp only [SkRect.join, ha, hr, Bool.false_eq_true, if_false]
  simp only [SkRect.isEmpty, Bool.not_eq_false', Bool.and_eq_true, decide_eq_true_eq] at hr ha ⊢
  exact ⟨lt_of_le_of_lt (min_le_left _ _) (lt_of_lt_of_le hr.1 (le_max_left _ _)),
    lt_of_le_of_lt (min_le_left _ _) (lt_of_lt_of_le hr.2 (le_max_left _ _))⟩

theorem SkRect.join_assoc (a b c : SkRect) : (a.join b).join c = a.join (b.join c) := by
  cases hc : c.isEmpty
  · cases hb : b.isEmpty
    · cases ha : a.isEmpty
      · have hab := SkRect.isEmpty_join a b ha hb
        have hbc := SkRect.isEmpty_join b c hb hc
        generalize hx : a.join b = x at hab
        generalize hy : b.join c = y at hbc
        simp only [SkRect.join, ha, hb, hc, Bool.false_eq_true, if_false] at hx hy
        subst hx
        subst hy
        simp only [SkRect.join, ha, hc, hab, hbc, Bool.false_eq_true, if_false, SkRect.mk.injEq,
          min_assoc, max_assoc, and_self]
      · rw [SkRect.join_of_isEmpty_left a b ha hb,
          SkRect.join_of_isEmpty_left a _ ha (SkRect.isEmpty_join b c hb hc)]
    · rw [SkRect.join_of_isEmpty_right a b hb, SkRect.join_of_isEmpty_left b c hb hc]
  · rw [SkRect.join_of_isEmpty_right _ c hc, SkRect.join_of_isEmpty_right b c hc]

theorem foldl_join_eq (rects : List SkRect) :
    ∀ acc : SkRect, rects.foldl SkRect.join acc = acc.join (ComputeDamage rects) := by
  have he : SkRect.MakeEmpty.isEmpty = true := by simp [SkRect.MakeEmpty, SkRect.isEmpty]
  induction rects with
  | nil =>
    intro acc
    exact (SkRect.join_of_isEmpty_right acc _ he).symm
  | cons r rects ih =>
    intro acc
    simp only [ComputeDamage, List.foldl_cons]
    rw [ih (acc.join r), ih (SkRect.MakeEmpty.join r), SkRect.join_assoc]
    cases hr : r.isEmpty
    · rw [SkRect.MakeEmpty_join r hr]
    · rw [SkRect.join_of_isEmpty_right _ r hr]
      cases hd : (ComputeDamage rects).isEmpty
      · rw [SkRect.join_of_isEmpty_left r _ hr hd, SkRect.join_of_isEmpty_left _ _ he hd]
      · rw [SkRect.join_of_isEmpty_right r _ hd, SkRect.join_of_isEmpty_right _ _ hd,
          SkRect.join_of_isEmpty_right acc r hr, SkRect.join_of_isEmpty_right acc _ he]

theorem ComputeDamage_append (xs ys : List SkRect) :
    ComputeDamage (xs ++ ys) = (ComputeDamage xs).join (ComputeDamage ys) := by
  unfold ComputeDamage
  rw [List.foldl_append, foldl_join_eq ys]
  rfl

/-! ### A moved transform layer over any child -/

theorem Layer.paintRegion_of_leaf (l : Layer) (B : SkRect) (hleaf : l.layers = [])
    (hcontent : l.props.hasContent = true) (hB : l.paint_bounds = B) (m : SkMatrix) :
    l.paintRegion m = [m.mapRect B] := by
  rw [Layer.paintRegion_eq, hleaf, hcontent, hB]
  rfl

theorem testing.Overflow.shape_t1_eq : ∃ (rb tb : LayerBase) (pm : SkMatrix) (pc : SkRect),
    testing.Overflow.t1 = .container rb [.transform tb (SkMatrix.Translate 10 10)
      [.physicalShape ⟨SkRect.MakeLTRB 0 0 50 50, false, 6⟩ 0 0 0 testing.path1 Clip.none
        [.mock ⟨SkRect.MakeLTRB (-50) (-50) 200 200, false, 5⟩
          ⟨SkRect.MakeLTRB (-50) (-50) 200 200, 3⟩ ⟨0, false⟩ pm pc]]] ∧
    tb.unique_id = 2 := by
  simp only [testing.Overflow.t1, testing.prerolled, testing.Overflow.shape,
    testing.Overflow.leaf, Layer.Preroll, Layer.Preroll.PrerollChildren, Bool.false_eq_true,
    if_false, ne_eq, not_true_eq_false]
  exact ⟨_, _, _, _, rfl, rfl⟩

theorem testing.Overflow.shape_t2_eq : ∃ (rb tb : LayerBase) (pm : SkMatrix) (pc : SkRect),
    testing.Overflow.t2 = .container rb [.transform tb (SkMatrix.Translate 20 20)
      [.physicalShape ⟨SkRect.MakeLTRB 0 0 50 50, false, 6⟩ 0 0 0 testing.path1 Clip.none
        [.mock ⟨SkRect.MakeLTRB (-50) (-50) 200 200, false, 5⟩
          ⟨SkRect.MakeLTRB (-50) (-50) 200 200, 3⟩ ⟨0, false⟩ pm pc]]] ∧
    tb.unique_id = 3 := by
  simp only [testing.Overflow.t2, testing.prerolled, testing.Overflow.shape,
    testing.Overflow.leaf, Layer.Preroll, Layer.Preroll.PrerollChildren, Bool.false_eq_true,
    if_false, ne_eq, not_true_eq_false]
  exact ⟨_, _, _, _, rfl, rfl⟩

theorem testing.translated_footprint (dx dy l t r b : ℚ) (h1 : l ≤ r) (h2 : t ≤ b) :
    (SkMatrix.Concat SkMatrix.I (SkMatrix.Translate dx dy)).mapRect (SkRect.MakeLTRB l t r b)
      = SkRect.MakeLTRB (l + dx) (t + dy) (r + dx) (b + dy) := by
  simp only [SkMatrix.mapRect, SkMatrix.mapX, SkMatrix.mapY, SkMatrix.Concat, SkMatrix.I,
    SkMatrix.Translate, SkRect.MakeLTRB, SkRect.mk.injEq, one_mul, zero_mul, mul_zero, mul_one,
    add_zero, zero_add]
  have h1' : l + dx ≤ r + dx := by linarith
  have h2' : t + dy ≤ b + dy := by linarith
  refine ⟨?_, ?_, ?_, ?_⟩
  · rw [min_eq_left h1', min_eq_right h1', min_self]
  · rw [min_self, min_self, min_eq_left h2']
  · rw [max_eq_right h1', max_eq_left h1', max_self]
  · rw [max_self, max_self, max_eq_right h2']

theorem testing.Overflow.damage_of_four :
    ComputeDamage [SkRect.MakeLTRB 20 20 70 70, SkRect.MakeLTRB (-30) (-30) 220 220,
      SkRect.MakeLTRB 10 10 60 60, SkRect.MakeLTRB (-40) (-40) 210 210]
      = SkRect.MakeLTRB (-40) (-40) 220 220 := by
  simp [ComputeDamage, SkRect.join, SkRect.isEmpty, SkRect.MakeEmpty, SkRect.MakeLTRB]
  norm_num

theorem testing.Overflow.shape_differs : ∃ (pm : SkMatrix) (pc : SkRect) (old_child : Layer),
    Layer.DiffersInOneTransform testing.assigned (SkMatrix.Translate 20 20)
      (SkMatrix.Translate 10 10)
      (.physicalShape ⟨SkRect.MakeLTRB 0 0 50 50, false, 6⟩ 0 0 0 testing.path1 Clip.none
        [.mock ⟨SkRect.MakeLTRB (-50) (-50) 200 200, false, 5⟩
          ⟨SkRect.MakeLTRB (-50) (-50) 200 200, 3⟩ ⟨0, false⟩ pm pc])
      old_child SkMatrix.I testing.Overflow.t2 testing.Overflow.t1 SkMatrix.I := by
  obtain ⟨rb1, tb1, pm1, pc1, h1, hid1⟩ := testing.Overflow.shape_t1_eq
  obtain ⟨rb2, tb2, pm2, pc2, h2, hid2⟩ := testing.Overflow.shape_t2_eq
  refine ⟨pm2, pc2,
    .physicalShape ⟨SkRect.MakeLTRB 0 0 50 50, false, 6⟩ 0 0 0 testing.path1 Clip.none
      [.mock ⟨SkRect.MakeLTRB (-50) (-50) 200 200, false, 5⟩
        ⟨SkRect.MakeLTRB (-50) (-50) 200 200, 3⟩ ⟨0, false⟩ pm1 pc1], ?_⟩
  rw [h1, h2]
  refine .under SkMatrix.I SkMatrix.I _ _ _ _ [] [] [] []
    (by simp [Layer.sameProperties, Layer.props, LayerProps.hasContent]) rfl rfl rfl rfl ?_
    (.here _ tb2 tb1 ?_)
  · simp [Layer.IsReplacing, Layer.IsReplacingByIdentity, Layer.base, hid1, hid2,
      testing.assigned]
  · simp [Layer.unchangedFrom, Layer.unchangedFrom.childrenUnchanged, Layer.sameProperties,
      Layer.IsReplacing, Layer.IsReplacingByIdentity, Layer.props, Layer.layers, Layer.base,
      Layer.paint_bounds]

/-- C14, as the claim states it, fails for a child whose descendants paint
outside its bounds: a physical-shape layer without clip has the bounds
(0, 0, 50, 50) of its path after `Preroll` while its child has the bounds
(-50, -50, 200, 200). The two trees differ only in the transform layer above
the shape, moved from `Translate(10, 10)` to `Translate(20, 20)`, and the
shape stands unchanged; the damage is (-40, -40, 220, 220), not the bounding
rectangle (10, 10, 70, 70) of the translated bounds of the child. -/
theorem moved_transform_over_overflowing_child_counterexample :
    (testing.Overflow.t2.layers.map fun t => t.layers.map Layer.paint_bounds)
      = [[SkRect.MakeLTRB 0 0 50 50]] ∧
    (testing.Overflow.t1.layers.map fun t => t.layers.map Layer.paint_bounds)
      = [[SkRect.MakeLTRB 0 0 50 50]] ∧
    (∃ child old_child : Layer,
      Layer.DiffersInOneTransform testing.assigned (SkMatrix.Translate 20 20)
        (SkMatrix.Translate 10 10) child old_child SkMatrix.I testing.Overflow.t2
        testing.Overflow.t1 SkMatrix.I ∧
      child.paint_bounds = SkRect.MakeLTRB 0 0 50 50) ∧
    DiffLayerTree testing.assigned testing.Overflow.t2 testing.Overflow.t1
      = SkRect.MakeLTRB (-40) (-40) 220 220 ∧
    DiffLayerTree testing.assigned testing.Overflow.t2 testing.Overflow.t1
      ≠ SkRect.MakeLTRB 10 10 70 70 := by
  obtain ⟨pm, pc, old_child, hdiffers⟩ := testing.Overflow.shape_differs
  have hdamage : DiffLayerTree testing.assigned testing.Overflow.t2 testing.Overflow.t1
      = SkRect.MakeLTRB (-40) (-40) 220 220 := by
    unfold DiffLayerTree
    rw [Layer.Diff_of_DiffersInOneTransform testing.assigned _ _ _ old_child
      (by simp [SkMatrix.Translate]) _ _ _ _ hdiffers]
    simp only [Layer.paintRegion, Layer.paintRegion.regionOfList, List.append_nil,
      List.cons_append, List.nil_append]
    rw [testing.translated_footprint 20 20 0 0 50 50 (by norm_num) (by norm_num),
      testing.translated_footprint 20 20 (-50) (-50) 200 200 (by norm_num) (by norm_num),
      testing.translated_footprint 10 10 0 0 50 50 (by norm_num) (by norm_num),
      testing.translated_footprint 10 10 (-50) (-50) 200 200 (by norm_num) (by norm_num)]
    norm_num
    exact testing.Overflow.damage_of_four
  obtain ⟨rb1, tb1, pm1, pc1, h1, -⟩ := testing.Overflow.shape_t1_eq
  obtain ⟨rb2, tb2, pm2, pc2, h2, -⟩ := testing.Overflow.shape_t2_eq
  refine ⟨?_, ?_, ⟨_, old_child, hdiffers, rfl⟩, hdamage, ?_⟩
  · rw [h2]
    rfl
  · rw [h1]
    rfl
  · rw [hdamage]
    simp [SkRect.MakeLTRB]

theorem testing.TransformNested.l2_eq_bounds :
    ∃ (rb tb b1 b2 b3 c1 c2 c3 : LayerBase) (pm1 pm2 pm3 : SkMatrix) (pc1 pc2 pc3 : SkRect),
    testing.TransformNested.l2 = .container rb [.transform tb (SkMatrix.Scale 2 2)
      [.transform b1 (SkMatrix.Translate 10 10)
        [.container c1
          [.mock ⟨SkRect.MakeLTRB 0 0 50 50, false, 31⟩ testing.path1 ⟨0, false⟩ pm1 pc1]],
       .transform b2 (SkMatrix.Translate 100 101)
        [.container c2
          [.mock ⟨SkRect.MakeLTRB 0 0 50 50, false, 32⟩ testing.path1 ⟨0, false⟩ pm2 pc2]],
       .transform b3 (SkMatrix.Translate 200 200)
        [.container c3
          [.mock ⟨SkRect.MakeLTRB 0 0 50 50, false, 33⟩ testing.path1 ⟨0, false⟩ pm3 pc3]]]] ∧
    tb.unique_id = 40 ∧ b1.unique_id = 41 ∧ b2.unique_id = 42 ∧ b3.unique_id = 43 ∧
    c1.unique_id = 21 ∧ c2.unique_id = 22 ∧ c3.unique_id = 23 ∧
    c2.paint_bounds = SkRect.MakeLTRB 0 0 50 50 ∧
    tb.paint_bounds = SkRect.MakeLTRB 20 20 500 500 := by
  have hB : (SkRect.MakeLTRB 0 0 50 50).isEmpty = false := by
    simp [SkRect.MakeLTRB, SkRect.isEmpty]
  have hT : ∀ dx dy : ℚ, (SkMatrix.Translate dx dy).mapRect (SkRect.MakeLTRB 0 0 50 50)
      = SkRect.MakeLTRB dx dy (50 + dx) (50 + dy) := by
    intro dx dy
    simp only [SkMatrix.mapRect, SkMatrix.mapX, SkMatrix.mapY, SkMatrix.Translate,
      SkRect.MakeLTRB, SkRect.mk.injEq]
    norm_num
  simp only [testing.TransformNested.l2, testing.TransformNested.transform2,
    testing.TransformNested.transform2_1, testing.TransformNested.transform2_2,
    testing.TransformNested.transform2_3, testing.TransformNested.m1,
    testing.TransformNested.m2, testing.TransformNested.m3,
    testing.TransformNested.CreateContainerLayer, testing.prerolled, Layer.Preroll,
    Layer.Preroll.PrerollChildren]
  refine ⟨_, _, _, _, _, _, _, _, _, _, _, _, _, _, rfl, rfl, rfl, rfl, rfl, rfl, rfl, rfl, ?_,
    ?_⟩
  · simp only [Layer.paint_bounds, Layer.base, testing.path1, SkPath.getBounds,
      SkRect.MakeEmpty_join _ hB]
  · simp only [Layer.paint_bounds, Layer.base, testing.path1, SkPath.getBounds,
      SkRect.MakeEmpty_join _ hB, hT]
    simp [SkRect.join, SkRect.isEmpty, SkRect.MakeEmpty, SkRect.MakeLTRB, SkMatrix.mapRect,
      SkMatrix.mapX, SkMatrix.mapY, SkMatrix.Scale]
    norm_num

theorem testing.TransformNested.middle_differs :
    ∃ (c2 : LayerBase) (pm : SkMatrix) (pc : SkRect) (old_child : Layer),
    c2.paint_bounds = SkRect.MakeLTRB 0 0 50 50 ∧
    Layer.DiffersInOneTransform testing.TransformNested.assigned_all
      (SkMatrix.Translate 100 101) (SkMatrix.Translate 100 100)
      (.container c2
        [.mock ⟨SkRect.MakeLTRB 0 0 50 50, false, 32⟩ testing.path1 ⟨0, false⟩ pm pc])
      old_child SkMatrix.I testing.TransformNested.l2 testing.TransformNested.l1
      (SkMatrix.Concat SkMatrix.I (SkMatrix.Scale 2 2)) := by
  obtain ⟨rb, tb, b1, b2, b3, c1, c2, c3, pm1, pm2, pm3, pc1, pc2, pc3, h1, htb, hb1, hb2, hb3,
    hc1, hc2, hc3⟩ := testing.TransformNested.l1_eq
  obtain ⟨rb', tb', b1', b2', b3', c1', c2', c3', pm1', pm2', pm3', pc1', pc2', pc3', h2, htb',
    hb1', hb2', hb3', hc1', hc2', hc3', hbounds, -⟩ := testing.TransformNested.l2_eq_bounds
  refine ⟨c2', pm2', pc2',
    .container c2
      [.mock ⟨SkRect.MakeLTRB 0 0 50 50, false, 32⟩ testing.path1 ⟨0, false⟩ pm2 pc2],
    hbounds, ?_⟩
  rw [h1, h2]
  refine .under SkMatrix.I _ _ _ _ _ [] [] [] []
    (by simp [Layer.sameProperties, Layer.props, LayerProps.hasContent]) rfl rfl rfl rfl ?_
    (.under _ _ _ _ _ _
      [.transform b1' (SkMatrix.Translate 10 10)
        [.container c1'
          [.mock ⟨SkRect.MakeLTRB 0 0 50 50, false, 31⟩ testing.path1 ⟨0, false⟩ pm1' pc1']]]
      [.transform b1 (SkMatrix.Translate 10 10)
        [.container c1
          [.mock ⟨SkRect.MakeLTRB 0 0 50 50, false, 31⟩ testing.path1 ⟨0, false⟩ pm1 pc1]]]
      [.transform b3' (SkMatrix.Translate 200 200)
        [.container c3'
          [.mock ⟨SkRect.MakeLTRB 0 0 50 50, false, 33⟩ testing.path1 ⟨0, false⟩ pm3' pc3']]]
      [.transform b3 (SkMatrix.Translate 200 200)
        [.container c3
          [.mock ⟨SkRect.MakeLTRB 0 0 50 50, false, 33⟩ testing.path1 ⟨0, false⟩ pm3 pc3]]]
      (by simp [Layer.sameProperties, Layer.props, LayerProps.hasContent]) rfl rfl ?_ ?_ ?_
      (.here _ b2' b2 ?_))
  · simp [Layer.IsReplacing, Layer.IsReplacingByIdentity, Layer.base, htb, htb',
      testing.TransformNested.assigned_all]
  · simp [Layer.unchangedFrom, Layer.unchangedFrom.childrenUnchanged, Layer.sameProperties,
      Layer.IsReplacing, Layer.IsReplacingByIdentity, Layer.props, Layer.layers, Layer.base,
      Layer.paint_bounds, LayerProps.hasContent, testing.TransformNested.assigned_all,
      testing.TransformNested.assigned_inner, hb1, hb1', hc1, hc1']
  · simp [Layer.unchangedFrom, Layer.unchangedFrom.childrenUnchanged, Layer.sameProperties,
      Layer.IsReplacing, Layer.IsReplacingByIdentity, Layer.props, Layer.layers, Layer.base,
      Layer.paint_bounds, LayerProps.hasContent, testing.TransformNested.assigned_all,
      testing.TransformNested.assigned_inner, hb3, hb3', hc3, hc3']
  · simp [Layer.IsReplacing, Layer.IsReplacingByIdentity, Layer.base, hb2, hb2',
      testing.TransformNested.assigned_all, testing.TransformNested.assigned_inner]
  · simp [Layer.unchangedFrom, Layer.unchangedFrom.childrenUnchanged, Layer.sameProperties,
      Layer.IsReplacing, Layer.IsReplacingByIdentity, Layer.props, Layer.layers, Layer.base,
      Layer.paint_bounds, LayerProps.hasContent, hc2, hc2']

/-- C14, amended: if the new tree differs from the previous tree only in that
one transform layer, which replaces its old counterpart, changed its
translation from `(ox, oy)` to `(tx, ty)` over an unchanged child with bounds
`B`, then the damage rectangles are exactly the paint region of the child under
the new translation followed by its paint region under the old translation, and
the damage is the bounding rectangle of the two regions, whatever else the
trees hold. When the paint region of the child has, under each of the two
translations, the bounding rectangle of its bounds `B` there, the damage is the
bounding rectangle of `B` translated by `(tx, ty)` and `B` translated by
`(ox, oy)`, each mapped to screen space by the matrix accumulated above the
transform layer; with nothing but the identity above the transform layer and
`B` not empty it is `B` grown from the smaller to the larger translation in
each direction. A leaf with content is such a child, and its damage rectangles
are its two translated bounds. -/
theorem diff_of_moved_transform (assigned : OldLayerAssignment) (tx ty ox oy : ℚ) (B : SkRect)
    (child old_child layer_tree old_layer_tree : Layer) (at_matrix : SkMatrix)
    (hmoved : (tx, ty) ≠ (ox, oy)) (hB : child.paint_bounds = B)
    (h : Layer.DiffersInOneTransform assigned (SkMatrix.Translate tx ty)
      (SkMatrix.Translate ox oy) child old_child SkMatrix.I layer_tree old_layer_tree
      at_matrix) :
    Layer.Diff assigned SkMatrix.I layer_tree (some old_layer_tree)
      = child.paintRegion (SkMatrix.Concat at_matrix (SkMatrix.Translate tx ty)) ++
          child.paintRegion (SkMatrix.Concat at_matrix (SkMatrix.Translate ox oy)) ∧
    DiffLayerTree assigned layer_tree old_layer_tree
      = (ComputeDamage
            (child.paintRegion (SkMatrix.Concat at_matrix (SkMatrix.Translate tx ty)))).join
          (ComputeDamage
            (child.paintRegion (SkMatrix.Concat at_matrix (SkMatrix.Translate ox oy)))) ∧
    (ComputeDamage (child.paintRegion (SkMatrix.Concat at_matrix (SkMatrix.Translate tx ty)))
        = ComputeDamage [at_matrix.mapRect (B.makeOffset tx ty)] →
      ComputeDamage (child.paintRegion (SkMatrix.Concat at_matrix (SkMatrix.Translate ox oy)))
        = ComputeDamage [at_matrix.mapRect (B.makeOffset ox oy)] →
      DiffLayerTree assigned layer_tree old_layer_tree
          = (SkRect.MakeEmpty.join (at_matrix.mapRect (B.makeOffset tx ty))).join
              (at_matrix.mapRect (B.makeOffset ox oy)) ∧
        (at_matrix = SkMatrix.I → B.isEmpty = false →
          DiffLayerTree assigned layer_tree old_layer_tree
            = SkRect.MakeLTRB (B.fLeft + min ox tx) (B.fTop + min oy ty)
                (B.fRight + max ox tx) (B.fBottom + max oy ty))) ∧
    (child.layers = [] → child.props.hasContent = true →
      Layer.Diff assigned SkMatrix.I layer_tree (some old_layer_tree)
          = [at_matrix.mapRect (B.makeOffset tx ty), at_matrix.mapRect (B.makeOffset ox oy)] ∧
        ComputeDamage
            (child.paintRegion (SkMatrix.Concat at_matrix (SkMatrix.Translate tx ty)))
          = ComputeDamage [at_matrix.mapRect (B.makeOffset tx ty)] ∧
        ComputeDamage
            (child.paintRegion (SkMatrix.Concat at_matrix (SkMatrix.Translate ox oy)))
          = ComputeDamage [at_matrix.mapRect (B.makeOffset ox oy)]) := by
  have hne : SkMatrix.Translate tx ty ≠ SkMatrix.Translate ox oy := by
    intro heq
    apply hmoved
    simp only [SkMatrix.Translate, SkMatrix.mk.injEq] at heq
    rw [heq.2.2.1, heq.2.2.2.2.2]
  have hdiff := Layer.Diff_of_DiffersInOneTransform assigned _ _ child old_child hne _ _ _ _ h
  have hdamage : DiffLayerTree assigned layer_tree old_layer_tree
      = (ComputeDamage
            (child.paintRegion (SkMatrix.Concat at_matrix (SkMatrix.Translate tx ty)))).join
          (ComputeDamage
            (child.paintRegion (SkMatrix.Concat at_matrix (SkMatrix.Translate ox oy)))) := by
    unfold DiffLayerTree
    rw [hdiff, ComputeDamage_append]
  refine ⟨hdiff, hdamage, ?_, ?_⟩
  · intro hnew hold
    have hboth : DiffLayerTree assigned layer_tree old_layer_tree
        = (SkRect.MakeEmpty.join (at_matrix.mapRect (B.makeOffset tx ty))).join
            (at_matrix.mapRect (B.makeOffset ox oy)) := by
      rw [hdamage, hnew, hold, ← ComputeDamage_append]
      rfl
    refine ⟨hboth, ?_⟩
    intro hI hBne
    have h1 : (B.makeOffset tx ty).isEmpty = false := by
      rw [SkRect.isEmpty_makeOffset]; exact hBne
    have h2 : (B.makeOffset ox oy).isEmpty = false := by
      rw [SkRect.isEmpty_makeOffset]; exact hBne
    rw [hboth, hI, SkMatrix.I_mapRect _ h1, SkMatrix.I_mapRect _ h2, SkRect.MakeEmpty_join _ h1]
    simp only [SkRect.join, h1, h2, Bool.false_eq_true, if_false]
    simp only [SkRect.makeOffset, SkRect.MakeLTRB, SkRect.mk.injEq]
    refine ⟨?_, ?_, ?_, ?_⟩
    · rw [min_add_add_left, min_comm]
    · rw [min_add_add_left, min_comm]
    · rw [max_add_add_left, max_comm]
    · rw [max_add_add_left, max_comm]
  · intro hleaf hcontent
    have hregion : ∀ m : SkMatrix, child.paintRegion m = [m.mapRect B] :=
      Layer.paintRegion_of_leaf child B hleaf hcontent hB
    rw [hdiff, hregion, hregion, SkMatrix.mapRect_Concat_Translate,
      SkMatrix.mapRect_Concat_Translate]
    exact ⟨rfl, rfl, rfl⟩

/-- Witness for the amended C14 on the trees of the unit tests. In `Transform` the leaf
with bounds (0, 0, 50, 50) under layer 3 with `Translate(20, 20)`, which
replaces layer 2 with `Translate(10, 10)`, gives the damage rectangles
(20, 20, 70, 70) and (10, 10, 60, 60) and the damage (10, 10, 70, 70). In
`TransformNested` the child is a container around such a leaf, under
`Scale(2)` and moved from `Translate(100, 100)` to `Translate(100, 101)`, and
the damage is (200, 200, 300, 302). -/
theorem diff_of_moved_transform_witness :
    (∃ child old_child : Layer,
      child.paint_bounds = SkRect.MakeLTRB 0 0 50 50 ∧
      child.layers = [] ∧ child.props.hasContent = true ∧
      Layer.DiffersInOneTransform testing.assigned (SkMatrix.Translate 20 20)
        (SkMatrix.Translate 10 10) child old_child SkMatrix.I testing.t2 testing.t1
        SkMatrix.I) ∧
    Layer.Diff testing.assigned SkMatrix.I testing.t2 (some testing.t1)
      = [SkRect.MakeLTRB 20 20 70 70, SkRect.MakeLTRB 10 10 60 60] ∧
    DiffLayerTree testing.assigned testing.t2 testing.t1 = SkRect.MakeLTRB 10 10 70 70 ∧
    (∃ child old_child : Layer,
      child.paint_bounds = SkRect.MakeLTRB 0 0 50 50 ∧ child.props = LayerProps.container ∧
      Layer.DiffersInOneTransform testing.TransformNested.assigned_all
        (SkMatrix.Translate 100 101) (SkMatrix.Translate 100 100) child old_child SkMatrix.I
        testing.TransformNested.l2 testing.TransformNested.l1
        (SkMatrix.Concat SkMatrix.I (SkMatrix.Scale 2 2))) ∧
    DiffLayerTree testing.TransformNested.assigned_all testing.TransformNested.l2
      testing.TransformNested.l1 = SkRect.MakeLTRB 200 200 300 302 := by
  obtain ⟨rb1, tb1, pm1, pc1, ht1, hid1⟩ := testing.t1_eq
  obtain ⟨rb2, tb2, pm2, pc2, ht2, hid2⟩ := testing.t2_eq
  have hchild : (Layer.mock ⟨SkRect.MakeLTRB 0 0 50 50, false, 1⟩ testing.path1 ⟨0, false⟩ pm2
      pc2).unchangedFrom testing.assigned
      (Layer.mock ⟨SkRect.MakeLTRB 0 0 50 50, false, 1⟩ testing.path1 ⟨0, false⟩ pm1 pc1)
      = true := by
    simp [Layer.unchangedFrom, Layer.sameProperties, Layer.props, Layer.paint_bounds, Layer.base]
  have hrep : Layer.IsReplacing testing.assigned
      (Layer.transform tb2 (SkMatrix.Translate 20 20)
        [.mock ⟨SkRect.MakeLTRB 0 0 50 50, false, 1⟩ testing.path1 ⟨0, false⟩ pm2 pc2])
      (Layer.transform tb1 (SkMatrix.Translate 10 10)
        [.mock ⟨SkRect.MakeLTRB 0 0 50 50, false, 1⟩ testing.path1 ⟨0, false⟩ pm1 pc1])
      = true := by
    simp [Layer.IsReplacing, Layer.IsReplacingByIdentity, Layer.base, hid1, hid2,
      testing.assigned]
  have h : Layer.DiffersInOneTransform testing.assigned (SkMatrix.Translate 20 20)
      (SkMatrix.Translate 10 10)
      (Layer.mock ⟨SkRect.MakeLTRB 0 0 50 50, false, 1⟩ testing.path1 ⟨0, false⟩ pm2 pc2)
      (Layer.mock ⟨SkRect.MakeLTRB 0 0 50 50, false, 1⟩ testing.path1 ⟨0, false⟩ pm1 pc1)
      SkMatrix.I testing.t2 testing.t1 SkMatrix.I := by
    rw [ht1, ht2]
    exact .under SkMatrix.I SkMatrix.I _ _ _ _ [] [] [] []
      (by simp [Layer.sameProperties, Layer.props, LayerProps.hasContent]) rfl rfl rfl rfl hrep
      (.here _ tb2 tb1 hchild)
  have hB : (SkRect.MakeLTRB 0 0 50 50).isEmpty = false := by
    simp [SkRect.MakeLTRB, SkRect.isEmpty]
  have hthm := diff_of_moved_transform testing.assigned 20 20 10 10 (SkRect.MakeLTRB 0 0 50 50)
    (Layer.mock ⟨SkRect.MakeLTRB 0 0 50 50, false, 1⟩ testing.path1 ⟨0, false⟩ pm2 pc2)
    (Layer.mock ⟨SkRect.MakeLTRB 0 0 50 50, false, 1⟩ testing.path1 ⟨0, false⟩ pm1 pc1)
    testing.t2 testing.t1 SkMatrix.I (by simp) rfl h
  obtain ⟨hlist, hnew, hold⟩ := hthm.2.2.2 rfl rfl
  obtain ⟨c2, pm, pc, old_child, hbounds, hnested⟩ := testing.TransformNested.middle_differs
  have hthm2 := diff_of_moved_transform testing.TransformNested.assigned_all 100 101 100 100
    (SkRect.MakeLTRB 0 0 50 50)
    (Layer.container c2
      [.mock ⟨SkRect.MakeLTRB 0 0 50 50, false, 32⟩ testing.path1 ⟨0, false⟩ pm pc])
    old_child testing.TransformNested.l2 testing.TransformNested.l1
    (SkMatrix.Concat SkMatrix.I (SkMatrix.Scale 2 2)) (by simp) hbounds hnested
  have hregion : ∀ m : SkMatrix,
      (Layer.container c2
        [.mock ⟨SkRect.MakeLTRB 0 0 50 50, false, 32⟩ testing.path1 ⟨0, false⟩ pm pc]).paintRegion
          m = [m.mapRect (SkRect.MakeLTRB 0 0 50 50)] := by
    intro m
    simp [Layer.paintRegion, Layer.paintRegion.regionOfList]
  refine ⟨⟨Layer.mock ⟨SkRect.MakeLTRB 0 0 50 50, false, 1⟩ testing.path1 ⟨0, false⟩ pm2 pc2,
    Layer.mock ⟨SkRect.MakeLTRB 0 0 50 50, false, 1⟩ testing.path1 ⟨0, false⟩ pm1 pc1,
    rfl, rfl, rfl, h⟩, ?_, ?_,
    ⟨Layer.container c2
      [.mock ⟨SkRect.MakeLTRB 0 0 50 50, false, 32⟩ testing.path1 ⟨0, false⟩ pm pc],
      old_child, hbounds, rfl, hnested⟩, ?_⟩
  · rw [hlist, SkMatrix.I_mapRect _ (by rw [SkRect.isEmpty_makeOffset]; exact hB),
      SkMatrix.I_mapRect _ (by rw [SkRect.isEmpty_makeOffset]; exact hB)]
    simp [SkRect.makeOffset, SkRect.MakeLTRB]
    norm_num
  · rw [(hthm.2.2.1 hnew hold).2 rfl hB]
    simp [SkRect.MakeLTRB]
    norm_num
  · rw [(hthm2.2.2.1
      (by rw [hregion, SkMatrix.mapRect_Concat_Translate])
      (by rw [hregion, SkMatrix.mapRect_Concat_Translate])).1,
      ← SkMatrix.mapRect_Concat_Translate, ← SkMatrix.mapRect_Concat_Translate,
      testing.scaled_footprint, testing.scaled_footprint]
    norm_num
    exact testing.damage_of_moved

/-! ### The children of a container that stands for its old counterpart -/

theorem Layer.diff_node_subset_regions (assigned : OldLayerAssignment) (l o : Layer)
    (matrix : SkMatrix) (r : SkRect)
    (hchildren : r ∈ Layer.Diff.DiffChildren assigned (l.props.childMatrix matrix) l.layers
        o.layers →
      r ∈ Layer.paintRegion.regionOfList (l.props.childMatrix matrix) l.layers ++
        Layer.paintRegion.regionOfList (l.props.childMatrix matrix) o.layers)
    (hr : r ∈ Layer.Diff assigned matrix l (some o)) :
    r ∈ l.paintRegion matrix ++ o.paintRegion matrix := by
  rw [Layer.Diff_some_eq] at hr
  split at hr
  · rename_i hs
    have hp := Layer.props_eq_of_sameProperties hs
    rw [Layer.paintRegion_eq matrix l, Layer.paintRegion_eq matrix o, ← hp]
    have h := hchildren hr
    simp only [List.mem_append] at h ⊢
    rcases h with h | h
    · exact Or.inl (Or.inr h)
    · exact Or.inr (Or.inr h)
  · exact hr

mutual

theorem Layer.Diff_subset_regions (assigned : OldLayerAssignment) :
    ∀ (l o : Layer) (matrix : SkMatrix) (r : SkRect),
      r ∈ Layer.Diff assigned matrix l (some o) →
      r ∈ l.paintRegion matrix ++ o.paintRegion matrix
  | .mock base path paint pm pc, o, matrix, r, h =>
    Layer.diff_node_subset_regions assigned _ o matrix r
      (fun hr => by
        simpa [Layer.layers, Layer.Diff.DiffChildren, Layer.paintRegion.regionOfList] using hr) h
  | .container base layers, o, matrix, r, h =>
    Layer.diff_node_subset_regions assigned _ o matrix r
      (fun hr => Layer.DiffChildren_subset_regions assigned layers o.layers _ r hr) h
  | .transform base transform_ layers, o, matrix, r, h =>
    Layer.diff_node_subset_regions assigned _ o matrix r
      (fun hr => Layer.DiffChildren_subset_regions assigned layers o.layers _ r hr) h
  | .texture base of sz id fr sm, o, matrix, r, h =>
    Layer.diff_node_subset_regions assigned _ o matrix r
      (fun hr => by
        simpa [Layer.layers, Layer.Diff.DiffChildren, Layer.paintRegion.regionOfList] using hr) h
  | .physicalShape base c sc e p cb layers, o, matrix, r, h =>
    Layer.diff_node_subset_regions assigned _ o matrix r
      (fun hr => Layer.DiffChildren_subset_regions assigned layers o.layers _ r hr) h

theorem Layer.DiffChildren_subset_regions (assigned : OldLayerAssignment) :
    ∀ (layers olds : List Layer) (matrix : SkMatrix) (r : SkRect),
      r ∈ Layer.Diff.DiffChildren assigned matrix layers olds →
      r ∈ Layer.paintRegion.regionOfList matrix layers ++
        Layer.paintRegion.regionOfList matrix olds
  | [], olds, matrix, r, h => by
    simpa [Layer.Diff.DiffChildren, Layer.paintRegion.regionOfList] using h
  | layer :: rest, [], matrix, r, h => by
    simp only [Layer.Diff.DiffChildren, List.mem_append] at h
    simp only [Layer.paintRegion.regionOfList, List.mem_append, List.append_nil]
    rcases h with h | h
    · rw [Layer.Diff_none_eq] at h
      exact Or.inl h
    · have ih := Layer.DiffChildren_subset_regions assigned rest [] matrix r h
      simp only [Layer.paintRegion.regionOfList, List.append_nil] at ih
      exact Or.inr ih
  | layer :: rest, o :: olds, matrix, r, h => by
    simp only [Layer.Diff.DiffChildren, List.mem_append] at h
    simp only [Layer.paintRegion.regionOfList, List.mem_append]
    rcases h with h | h
    · split at h
      · have ih := Layer.Diff_subset_regions assigned layer o matrix r h
        simp only [List.mem_append] at ih
        rcases ih with ih | ih
        · exact Or.inl (Or.inl ih)
        · exact Or.inr (Or.inl ih)
      · rw [Layer.Diff_none_eq] at h
        simp only [List.mem_append] at h
        rcases h with h | h
        · exact Or.inl (Or.inl h)
        · exact Or.inr (Or.inl h)
    · have ih := Layer.DiffChildren_subset_regions assigned rest olds matrix r h
      simp only [List.mem_append] at ih
      rcases ih with ih | ih
      · exact Or.inl (Or.inr ih)
      · exact Or.inr (Or.inr ih)

end

end flutter
